import Mathlib

/-!
# Script/native value bridge of google-gadgets-for-linux

A shallow embedding of `ggadget/smjs/converter.cc`, the conversion between
SpiderMonkey script values (`jsval`) and native `Variant` values, one value
at a time and for whole argument lists, and of the dynamic properties of
`extensions/dbus_script_class/scriptable_dbus_object.cc`.

Conventions of the embedding.

* A C++ function `JSBool F(cx, js_val, Variant *native_val)` becomes a Lean
  function taking the script value and the *old* content of `*native_val`
  and returning the pair `(result, new content of *native_val)`.
* The script engine is not part of the repository.  What the converter asks
  of it is either fixed by ECMAScript for primitive values (and written out
  below), or depends on script-defined behaviour of strings and objects and
  is then a field of `Engine`.  Engine queries are pure observations;
  allocation failures inside the engine are not modelled.
* Script strings are Lean strings, taken in UTF-16 as the engine stores
  them.  `JS_GetStringBytes` gives the low byte of each UTF-16 code unit,
  as SpiderMonkey 1.7 does unless it is built with `JS_C_STRINGS_ARE_UTF8`;
  C string functions read bytes and code units up to the first zero.
* Script doubles are `JSDouble`: NaN, the two infinities, or a dyadic
  number `m * 2 ^ e`.
-/

namespace ggadget
namespace smjs

/-! ## Script values -/

/-- An IEEE double as far as the converter looks at it: NaN, an infinity, or
the finite number `m * 2 ^ e`. -/
inductive JSDouble where
  | nan : JSDouble
  | inf (negative : Bool) : JSDouble
  | fin (m : Int) (e : Int) : JSDouble
  deriving DecidableEq, Repr

/-- The test `std::isnan`. -/
def JSDouble.isnan : JSDouble → Bool
  | .nan => true
  | _ => false

/-- The script engine value `jsval`.  Objects (functions included) are named
by an identifier; `null` is the object-tagged value with no object. -/
inductive JSVal where
  | void : JSVal
  | null : JSVal
  | boolean (b : Bool) : JSVal
  | int (i : Int) : JSVal
  | double (d : JSDouble) : JSVal
  | string (s : String) : JSVal
  | object (o : Nat) : JSVal
  deriving DecidableEq, Repr

def JSVAL_IS_VOID : JSVal → Bool
  | .void => true
  | _ => false

def JSVAL_IS_NULL : JSVal → Bool
  | .null => true
  | _ => false

def JSVAL_IS_BOOLEAN : JSVal → Bool
  | .boolean _ => true
  | _ => false

def JSVAL_IS_INT : JSVal → Bool
  | .int _ => true
  | _ => false

def JSVAL_IS_DOUBLE : JSVal → Bool
  | .double _ => true
  | _ => false

def JSVAL_IS_STRING : JSVal → Bool
  | .string _ => true
  | _ => false

/-- In SpiderMonkey `JSVAL_IS_OBJECT` holds of `null` as well as of every
object. -/
def JSVAL_IS_OBJECT : JSVal → Bool
  | .null => true
  | .object _ => true
  | _ => false

/-! ## Native values -/

/-- The enumeration `Variant::Type`, restricted to the enumerators named by
the converter's switch statements. -/
inductive VariantType where
  | TYPE_VOID
  | TYPE_BOOL
  | TYPE_INT64
  | TYPE_DOUBLE
  | TYPE_STRING
  | TYPE_JSON
  | TYPE_UTF16STRING
  | TYPE_SCRIPTABLE
  | TYPE_CONST_SCRIPTABLE
  | TYPE_SLOT
  | TYPE_DATE
  | TYPE_VARIANT
  deriving DecidableEq, Repr

/-- A `ScriptableInterface *` that is not NULL: a native object, or the
adapter `JSNativeWrapper` minted around a script object by
`JSScriptContext::WrapJSToNative`. -/
inductive ScriptableRef where
  | native (id : Nat) : ScriptableRef
  | jsNativeWrapper (js_object : Nat) : ScriptableRef
  deriving DecidableEq, Repr

/-- A `Slot *` that is not NULL: a native slot, or the adapter created by
`new JSFunctionSlot(prototype, cx, owner, function_object)`, whose prototype
is the native slot it takes its metadata from, if any. -/
inductive SlotRef where
  | native (id : Nat) : SlotRef
  | jsFunctionSlot (prototype : Option Nat) (owner : Option Nat)
      (function_object : Nat) : SlotRef
  deriving DecidableEq, Repr

/-- The tagged union `Variant`.  Pointer payloads are `Option`s, `none`
being the NULL pointer. -/
inductive Variant where
  | void : Variant
  | bool (b : Bool) : Variant
  | int64 (i : Int) : Variant
  | double (d : JSDouble) : Variant
  | string (s : Option String) : Variant
  | json (s : String) : Variant
  | utf16string (s : Option String) : Variant
  | scriptable (p : Option ScriptableRef) : Variant
  | constScriptable (p : Option ScriptableRef) : Variant
  | slot (p : Option SlotRef) : Variant
  | date (ms : Nat) : Variant
  | variant : Variant
  deriving DecidableEq, Repr

/-- The accessor `Variant::type()`. -/
def Variant.type : Variant → VariantType
  | .void => .TYPE_VOID
  | .bool _ => .TYPE_BOOL
  | .int64 _ => .TYPE_INT64
  | .double _ => .TYPE_DOUBLE
  | .string _ => .TYPE_STRING
  | .json _ => .TYPE_JSON
  | .utf16string _ => .TYPE_UTF16STRING
  | .scriptable _ => .TYPE_SCRIPTABLE
  | .constScriptable _ => .TYPE_CONST_SCRIPTABLE
  | .slot _ => .TYPE_SLOT
  | .date _ => .TYPE_DATE
  | .variant => .TYPE_VARIANT

/-- The constructor `Variant(Variant::Type)`: a value of the given type with
a zero payload. -/
def Variant.ofType : VariantType → Variant
  | .TYPE_VOID => .void
  | .TYPE_BOOL => .bool false
  | .TYPE_INT64 => .int64 0
  | .TYPE_DOUBLE => .double (.fin 0 0)
  | .TYPE_STRING => .string none
  | .TYPE_JSON => .json ""
  | .TYPE_UTF16STRING => .utf16string none
  | .TYPE_SCRIPTABLE => .scriptable none
  | .TYPE_CONST_SCRIPTABLE => .constScriptable none
  | .TYPE_SLOT => .slot none
  | .TYPE_DATE => .date 0
  | .TYPE_VARIANT => .variant

/-- The accessor `VariantValue<uint64_t>()`: the integer payload converted
to `uint64_t`. -/
def Variant.uint64Value : Variant → Nat
  | .int64 i => (i % 2 ^ 64).toNat
  | _ => 0

/-- The accessor `VariantValue<const char *>()`: the string payload, `none`
for the NULL pointer. -/
def Variant.stringValue : Variant → Option String
  | .string s => s
  | _ => none

/-- The accessor `VariantValue<Slot *>()`. -/
def Variant.slotValue : Variant → Option SlotRef
  | .slot p => p
  | _ => none

/-! ## The script engine -/

/-- What the converter observes of the script engine beyond the primitive
coercions fixed by ECMAScript. -/
structure Engine where
  /-- The numeric value of a string (`ToNumber`), NaN when it is not numeric. -/
  stringToNumber : String → JSDouble
  /-- `JS_ValueToNumber` on an object; `none` when the coercion fails. -/
  objectToNumber : Nat → Option JSDouble
  /-- `JS_ValueToString` on a value that is not a string. -/
  valueToString : JSVal → Option String
  /-- `JS_IsArrayObject`. -/
  isArrayObject : Nat → Bool
  /-- `NativeJSWrapper::Unwrap`: the native object a script object wraps. -/
  unwrap : Nat → Option ScriptableRef
  /-- The bytes of a native object that is a `ScriptableBinaryData`. -/
  binaryData : ScriptableRef → Option String
  /-- The name of `JS_GET_CLASS`; `none` when there is no class. -/
  className : Nat → Option String
  /-- `JS_CallFunctionName(cx, obj, "getTime", ...)`: the returned value. -/
  callGetTime : Nat → Option JSVal
  /-- `JS_ValueToFunction` succeeds on this object. -/
  isFunction : Nat → Bool
  /-- `CompileFunction` on a script source: the function object. -/
  compileFunction : String → Option Nat
  /-- `JSONEncode`. -/
  jsonEncode : JSVal → String

/-- The characters a C string function sees: those before the first NUL. -/
def cString (s : String) : List Char :=
  s.toList.takeWhile (fun c => c != Char.ofNat 0)

/-- The UTF-16 code units of a character: one unit below U+10000, a
surrogate pair from there on. -/
def utf16Units (c : Char) : List Nat :=
  if c.toNat < 0x10000 then [c.toNat]
  else [0xD800 + (c.toNat - 0x10000) / 0x400, 0xDC00 + (c.toNat - 0x10000) % 0x400]

/-- The engine's `JS_GetStringChars`: the UTF-16 code units of a script
string. -/
def JS_GetStringChars (s : String) : List Nat :=
  s.toList.flatMap utf16Units

/-- The engine's `JS_GetStringBytes` as SpiderMonkey 1.7 is built by default
(`JS_C_STRINGS_ARE_UTF8` not defined): the string is deflated by the
assignment `(char) chars[i]`, which keeps the low byte of each code unit. -/
def JS_GetStringBytes (s : String) : List Char :=
  (JS_GetStringChars s).map (fun unit => Char.ofNat (unit % 256))

/-- The bytes a C string function sees of a byte array: those before the
first zero byte. -/
def cBytes (bytes : List Char) : List Char :=
  bytes.takeWhile (fun c => c != Char.ofNat 0)

/-- The C library's `strcasecmp` on two C strings. -/
def strcasecmp : List Char → List Char → Int
  | [], [] => 0
  | [], b :: _ => 0 - (b.toLower.toNat : Int)
  | a :: _, [] => (a.toLower.toNat : Int)
  | a :: as, b :: bs =>
    if a.toLower = b.toLower then strcasecmp as bs
    else (a.toLower.toNat : Int) - (b.toLower.toNat : Int)

/-- The engine's `JS_ValueToBoolean` (ECMAScript `ToBoolean`). -/
def JS_ValueToBoolean : JSVal → Option Bool
  | .void => some false
  | .null => some false
  | .boolean b => some b
  | .int i => some (i != 0)
  | .double .nan => some false
  | .double (.inf _) => some true
  | .double (.fin m _) => some (m != 0)
  | .string s => some (s.length != 0)
  | .object _ => some true

/-- The engine's `JS_ValueToNumber` (ECMAScript `ToNumber`). -/
def JS_ValueToNumber (E : Engine) : JSVal → Option JSDouble
  | .void => some .nan
  | .null => some (.fin 0 0)
  | .boolean b => some (.fin (if b then 1 else 0) 0)
  | .int i => some (.fin i 0)
  | .double d => some d
  | .string s => some (E.stringToNumber s)
  | .object o => E.objectToNumber o

/-- The engine's `JS_ValueToECMAInt32`, as used on small-integer values. -/
def JS_ValueToECMAInt32 : JSVal → Option Int
  | .int i => some i
  | _ => none

/-- The engine's `JS_ValueToString`. -/
def JS_ValueToString (E : Engine) : JSVal → Option String
  | .string s => some s
  | v => E.valueToString v

def INT64_MIN : Int := -(2 ^ 63)

def INT64_MAX : Int := 2 ^ 63 - 1

/-- The C library's `round` on the finite number `m * 2 ^ e`: the nearest
integer, halfway cases away from zero. -/
def roundFinite (m e : Int) : Int :=
  if 0 ≤ e then m * 2 ^ e.toNat
  else
    let d : Nat := 2 ^ (-e).toNat
    let q : Nat := (2 * m.natAbs + d) / (2 * d)
    if 0 ≤ m then (q : Int) else -(q : Int)

/-- The expression `static_cast<int64_t>(round(double_val))`.  The cast of a
value outside the range of `int64_t` is undefined in C++; the model takes
the x86-64 result `INT64_MIN`. -/
def roundToInt64 : JSDouble → Int
  | .nan => INT64_MIN
  | .inf _ => INT64_MIN
  | .fin m e =>
    if INT64_MIN ≤ roundFinite m e ∧ roundFinite m e ≤ INT64_MAX then roundFinite m e
    else INT64_MIN

/-! ## Script to native, one value -/

def ConvertJSToNativeVoid (_js_val : JSVal) (_native_val : Variant) : Bool × Variant :=
  (true, .void)

def ConvertJSToNativeBool (js_val : JSVal) (native_val : Variant) : Bool × Variant :=
  match js_val with
  | .string s =>
    let bytes := cBytes (JS_GetStringBytes s)
    -- Convert "" or "false" to bool value false.
    (true, .bool (!bytes.isEmpty && strcasecmp bytes "false".toList != 0))
  | _ =>
    match JS_ValueToBoolean js_val with
    | none => (false, native_val)
    | some value => (true, .bool value)

def ConvertJSToNativeInt (E : Engine) (js_val : JSVal) (native_val : Variant) :
    Bool × Variant :=
  if JSVAL_IS_NULL js_val || JSVAL_IS_VOID js_val then (true, .int64 0)
  else if JSVAL_IS_INT js_val then
    match JS_ValueToECMAInt32 js_val with
    | some int_val => (true, .int64 int_val)
    | none => (false, native_val)
  else
    match JS_ValueToNumber E js_val with
    | some double_val =>
      if !double_val.isnan then (true, .int64 (roundToInt64 double_val))
      else (false, native_val)
    | none => (false, native_val)

def ConvertJSToNativeDouble (E : Engine) (js_val : JSVal) (native_val : Variant) :
    Bool × Variant :=
  if JSVAL_IS_NULL js_val || JSVAL_IS_VOID js_val then (true, .double (.fin 0 0))
  else
    match JS_ValueToNumber E js_val with
    | some double_val =>
      if JSVAL_IS_DOUBLE js_val || !double_val.isnan then (true, .double double_val)
      else (false, native_val)
    | none => (false, native_val)

def ConvertJSToNativeString (E : Engine) (js_val : JSVal) (native_val : Variant) :
    Bool × Variant :=
  if JSVAL_IS_NULL js_val then (true, .string none)
  else if JSVAL_IS_VOID js_val then
    -- Default value of a string is "";
    (true, .string (some ""))
  else if JSVAL_IS_STRING js_val || JSVAL_IS_BOOLEAN js_val ||
      JSVAL_IS_INT js_val || JSVAL_IS_DOUBLE js_val ||
      (match js_val with
       | .object o => E.isArrayObject o
       | _ => false) then
    match JS_ValueToString E js_val with
    | some js_string => (true, .string (some js_string))
    | none => (false, native_val)
  else
    match js_val with
    | .object o =>
      -- Here allows asssigning ScriptableBinaryData to a native string.
      match E.unwrap o with
      | some scriptable =>
        match E.binaryData scriptable with
        | some data => (true, .string (some (String.mk (cString data))))
        | none => (false, native_val)
      | none => (false, native_val)
    | _ => (false, native_val)

def ConvertJSToNativeUTF16String (E : Engine) (js_val : JSVal) (native_val : Variant) :
    Bool × Variant :=
  if JSVAL_IS_NULL js_val then (true, .utf16string none)
  else if JSVAL_IS_VOID js_val then (true, .utf16string (some ""))
  else if JSVAL_IS_STRING js_val || JSVAL_IS_BOOLEAN js_val ||
      JSVAL_IS_INT js_val || JSVAL_IS_DOUBLE js_val then
    match JS_ValueToString E js_val with
    | some js_string =>
      -- The constructor takes the bare pointer and reads up to the first zero unit.
      (true, .utf16string (some (String.mk (cString js_string))))
    | none => (false, native_val)
  else (false, native_val)

def ConvertJSToScriptable (E : Engine) (js_val : JSVal) (native_val : Variant) :
    Bool × Variant :=
  match js_val with
  | .void => (true, .scriptable none)
  | .null => (true, .scriptable none)
  | .int i =>
    if i = 0 then (true, .scriptable none) else (false, native_val)
  | .object object =>
    -- This object may be a JS wrapped native object.
    match E.unwrap object with
    | some scriptable => (true, .scriptable (some scriptable))
    | none =>
      -- NativeJSWrapper::Unwrap failed, this object is a origin JS object.
      (true, .scriptable (some (.jsNativeWrapper object)))
  | _ => (false, native_val)

/-- The adapter is built only when a function object was obtained; the
prototype recorded in it is the native slot held by `prototype`, NULL when
`prototype` holds none. -/
def ConvertJSToSlot (E : Engine) (owner : Option Nat) (prototype : Variant)
    (js_val : JSVal) (native_val : Variant) : Bool × Variant :=
  let wrap (function_object : Option Nat) : Bool × Variant :=
    match function_object with
    | some f =>
      (true, .slot (some (.jsFunctionSlot
        (match prototype.slotValue with
         | some (.native id) => some id
         | _ => none) owner f)))
    | none => (true, .slot none)
  match js_val with
  | .void => wrap none
  | .null => wrap none
  | .int i =>
    if i = 0 then wrap none else (false, native_val)
  | .string script_source =>
    match E.compileFunction script_source with
    | some function_object => wrap (some function_object)
    | none => (false, native_val)
  | .object o =>
    -- If js_val is a function, JS_ValueToFunction() will succeed.
    if E.isFunction o then wrap (some o) else (false, native_val)
  | _ => (false, native_val)

def ConvertJSToNativeDate (E : Engine) (js_val : JSVal) (native_val : Variant) :
    Bool × Variant :=
  if JSVAL_IS_VOID js_val then
    -- Special rule to keep compatibile with Windows version.
    (true, .date 0)
  else if !JSVAL_IS_OBJECT js_val || JSVAL_IS_NULL js_val then (false, native_val)
  else
    match js_val with
    | .object obj =>
      match E.className obj with
      | none => (false, native_val)
      | some name =>
        if name != "Date" then (false, native_val)
        else
          match E.callGetTime obj with
          | none => (false, native_val)
          | some _rval =>
            match ConvertJSToNativeInt E js_val .void with
            | (false, _) => (false, native_val)
            | (true, int_val) => (true, .date int_val.uint64Value)
    | _ => (false, native_val)

def ConvertJSToJSON (E : Engine) (js_val : JSVal) (_native_val : Variant) :
    Bool × Variant :=
  (true, .json (E.jsonEncode js_val))

def ConvertJSToNativeVariant (E : Engine) (_owner : Option Nat) (js_val : JSVal)
    (native_val : Variant) : Bool × Variant :=
  if JSVAL_IS_VOID js_val || JSVAL_IS_NULL js_val then
    ConvertJSToNativeVoid js_val native_val
  else if JSVAL_IS_BOOLEAN js_val then ConvertJSToNativeBool js_val native_val
  else if JSVAL_IS_INT js_val then ConvertJSToNativeInt E js_val native_val
  else if JSVAL_IS_DOUBLE js_val then ConvertJSToNativeDouble E js_val native_val
  else if JSVAL_IS_STRING js_val then ConvertJSToNativeString E js_val native_val
  else if JSVAL_IS_OBJECT js_val then
    match ConvertJSToNativeDate E js_val native_val with
    | (true, v) => (true, v)
    | (false, v) => ConvertJSToScriptable E js_val v
  else (false, native_val)

def ConvertJSToNative (E : Engine) (owner : Option Nat) (prototype : Variant)
    (js_val : JSVal) (native_val : Variant) : Bool × Variant :=
  match prototype.type with
  | .TYPE_VOID => ConvertJSToNativeVoid js_val native_val
  | .TYPE_BOOL => ConvertJSToNativeBool js_val native_val
  | .TYPE_INT64 => ConvertJSToNativeInt E js_val native_val
  | .TYPE_DOUBLE => ConvertJSToNativeDouble E js_val native_val
  | .TYPE_STRING => ConvertJSToNativeString E js_val native_val
  | .TYPE_JSON => ConvertJSToJSON E js_val native_val
  | .TYPE_UTF16STRING => ConvertJSToNativeUTF16String E js_val native_val
  | .TYPE_SCRIPTABLE => ConvertJSToScriptable E js_val native_val
  | .TYPE_CONST_SCRIPTABLE => ConvertJSToScriptable E js_val native_val
  | .TYPE_SLOT => ConvertJSToSlot E owner prototype js_val native_val
  | .TYPE_DATE => ConvertJSToNativeDate E js_val native_val
  | .TYPE_VARIANT => ConvertJSToNativeVariant E owner js_val native_val

/-! ## Script to native, argument lists -/

/-- The metadata of a `Slot` that the argument conversion reads:
`HasMetadata()`, `GetArgCount()`, `GetArgTypes()` and `GetDefaultArgs()`
(the last two may be NULL). -/
structure Slot where
  HasMetadata : Bool
  GetArgCount : Nat
  GetArgTypes : Option (List VariantType)
  GetDefaultArgs : Option (List Variant)

/-- The two messages `ConvertJSArgsToNative` passes to `JS_ReportError`, by
the values formatted into them. -/
inductive ErrorReport where
  | wrongNumberOfArguments (argc expected at_least : Nat) : ErrorReport
  | failedToConvertArgument (i : Nat) (arg : JSVal) : ErrorReport
  deriving DecidableEq, Repr

/-- The observable steps of `ConvertJSArgsToNative`, in program order. -/
inductive Event where
  | newParams (n : Nat) : Event
  | convert (i : Nat) : Event
  | freeNativeValue (v : Variant) : Event
  | deleteSlot (p : Option SlotRef) : Event
  | deleteParams : Event
  | reportError (e : ErrorReport) : Event
  deriving DecidableEq, Repr

/-- The outcome of `ConvertJSArgsToNative`: its return value, the output
parameters `*params` (`none` is NULL) and `*expected_argc`, and the steps it
took. -/
structure ArgsResult where
  result : Bool
  params : Option (List Variant)
  expected_argc : Nat
  events : List Event
  deriving DecidableEq, Repr

/-- The steps of `FreeNativeValue`: it deletes the slot of a value of type
`TYPE_SLOT` and does nothing else. -/
def FreeNativeValue (native_val : Variant) : List Event :=
  if native_val.type = .TYPE_SLOT then
    [.freeNativeValue native_val, .deleteSlot native_val.slotValue]
  else [.freeNativeValue native_val]

/-- The loop `for (i = min_argc - 1; i >= 0; i--)` that lowers `min_argc`
while the default values are not void; the first argument is `i + 1`. -/
def minArgcLoop (default_args : List Variant) : Nat → Nat → Nat
  | 0, min_argc => min_argc
  | i + 1, min_argc =>
    if (default_args.getD i .void).type != .TYPE_VOID then
      minArgcLoop default_args i (min_argc - 1)
    else min_argc

/-- The value of `min_argc` at the arity test. -/
def computeMinArgc (expected_argc : Nat) (default_args : Option (List Variant))
    (argc : Nat) : Nat :=
  match default_args with
  | some d =>
    if 0 < expected_argc ∧ argc < expected_argc then
      minArgcLoop d expected_argc expected_argc
    else expected_argc
  | none => expected_argc

/-- The loop `for (i = argc; i < expected_argc; i++)` filling the trailing
default values; the second argument counts the iterations left. -/
def fillDefaults (default_args : Option (List Variant)) :
    Nat → Nat → List Variant → List Variant
  | _, 0, params => params
  | i, n + 1, params =>
    fillDefaults default_args (i + 1) n
      (params.set i ((default_args.getD []).getD i .void))

/-- The loop `for (j = 0; j < i; j++) FreeNativeValue(params[j])`; the second
argument counts the iterations left. -/
def freeLoop (params : List Variant) : Nat → Nat → List Event
  | _, 0 => []
  | j, n + 1 => FreeNativeValue (params.getD j .void) ++ freeLoop params (j + 1) n

/-- The conversion of `argv[i]` into `(*params)[i]`, whose old content is the
last argument: typed when `arg_types` is not NULL, untyped otherwise. -/
def convertArgument (E : Engine) (owner : Option Nat)
    (arg_types : Option (List VariantType)) (argv : List JSVal) (i : Nat)
    (old : Variant) : Bool × Variant :=
  match arg_types with
  | some types =>
    ConvertJSToNative E owner (Variant.ofType (types.getD i .TYPE_VOID))
      (argv.getD i .void) old
  | none => ConvertJSToNativeVariant E owner (argv.getD i .void) old

/-- The loop `for (i = 0; i < argc; i++)` converting the supplied arguments;
the argument `n` counts the iterations left. -/
def convertLoop (E : Engine) (owner : Option Nat) (arg_types : Option (List VariantType))
    (default_args : Option (List Variant)) (argv : List JSVal) (expected_argc : Nat) :
    Nat → Nat → List Variant → List Event → ArgsResult
  | _, 0, params, events => ⟨true, some params, expected_argc, events⟩
  | i, n + 1, params, events =>
    if (match default_args with
        | some d => (d.getD i .void).type != .TYPE_VOID
        | none => false) && JSVAL_IS_VOID (argv.getD i .void) then
      -- Use the default value.
      convertLoop E owner arg_types default_args argv expected_argc (i + 1) n
        (params.set i ((default_args.getD []).getD i .void)) events
    else
      let r := convertArgument E owner arg_types argv i (params.getD i .void)
      if r.1 then
        convertLoop E owner arg_types default_args argv expected_argc (i + 1) n
          (params.set i r.2) (events ++ [.convert i])
      else
        ⟨false, none, expected_argc,
          events ++ [.convert i] ++ freeLoop (params.set i r.2) 0 i ++
            [.deleteParams, .reportError (.failedToConvertArgument i (argv.getD i .void))]⟩

def ConvertJSArgsToNative (E : Engine) (owner : Option Nat) (slot : Slot)
    (argc : Nat) (argv : List JSVal) : ArgsResult :=
  let arg_types := if slot.HasMetadata then slot.GetArgTypes else none
  let expected_argc := if slot.HasMetadata then slot.GetArgCount else argc
  let default_args := if slot.HasMetadata then slot.GetDefaultArgs else none
  let min_argc := computeMinArgc expected_argc default_args argc
  if slot.HasMetadata ∧ argc ≠ expected_argc ∧ (argc > expected_argc ∨ argc < min_argc) then
    -- Argc mismatch.
    ⟨false, none, expected_argc,
      [.reportError (.wrongNumberOfArguments argc expected_argc min_argc)]⟩
  else if 0 < expected_argc then
    convertLoop E owner arg_types default_args argv expected_argc 0 argc
      (fillDefaults default_args argc (expected_argc - argc)
        (List.replicate expected_argc .void))
      [.newParams expected_argc]
  else ⟨true, none, expected_argc, []⟩

/-! ## Statements of the specification -/

/-- The minimum argument count in the words of the specification: the
declared count less the length of the longest trailing run of non-void
default values, and the declared count when there are no default values. -/
def specMinArgc (slot : Slot) : Nat :=
  match slot.GetDefaultArgs with
  | none => slot.GetArgCount
  | some d =>
    slot.GetArgCount - (d.reverse.takeWhile (fun v => v.type != .TYPE_VOID)).length

/-- The call was rejected with the arity error. -/
def ArgsResult.isArityError (r : ArgsResult) : Bool :=
  match r.events with
  | [.reportError (.wrongNumberOfArguments _ _ _)] => !r.result
  | _ => false

/-- A slot whose default-value and type arrays, when present, have one entry
per declared parameter. -/
def Slot.WellFormed (slot : Slot) : Prop :=
  (∀ d, slot.GetDefaultArgs = some d → d.length = slot.GetArgCount) ∧
  (∀ t, slot.GetArgTypes = some t → t.length = slot.GetArgCount)

/-- The position `i` of a call takes its default value although an argument
was supplied: a non-void default value is declared and the argument is
undefined. -/
def takesDefault (default_args : Option (List Variant)) (argv : List JSVal) (i : Nat) :
    Bool :=
  (match default_args with
   | some d => (d.getD i .void).type != .TYPE_VOID
   | none => false) && JSVAL_IS_VOID (argv.getD i .void)

/-- The default value declared for position `i`. -/
def defaultAt (default_args : Option (List Variant)) (i : Nat) : Variant :=
  (default_args.getD []).getD i .void

/-- The conversion of the supplied argument `i` into a fresh entry of the
parameter array: typed when argument types are declared, untyped otherwise. -/
def convertArg (E : Engine) (owner : Option Nat) (arg_types : Option (List VariantType))
    (argv : List JSVal) (i : Nat) : Bool × Variant :=
  convertArgument E owner arg_types argv i .void

/-- The array `arg_types` of `ConvertJSArgsToNative`: the declared argument
types of a slot with metadata, NULL otherwise. -/
def argTypesOf (slot : Slot) : Option (List VariantType) :=
  if slot.HasMetadata then slot.GetArgTypes else none

/-- The array `default_args` of `ConvertJSArgsToNative`. -/
def defaultArgsOf (slot : Slot) : Option (List Variant) :=
  if slot.HasMetadata then slot.GetDefaultArgs else none

/-- The value of `*expected_argc` after the metadata has been read. -/
def expectedArgcOf (slot : Slot) (argc : Nat) : Nat :=
  if slot.HasMetadata then slot.GetArgCount else argc

/-- A slot taking a callback and an integer. -/
def callbackSlot : Slot where
  HasMetadata := true
  GetArgCount := 2
  GetArgTypes := some [.TYPE_SLOT, .TYPE_INT64]
  GetDefaultArgs := none

/-- An engine for the examples: the string `"7"` is the number 7 and no
other string is numeric; object 1 is a `Date` whose `getTime` property has
been replaced by a function returning 7 while its time value is 5; object 2
is an array; object 3 wraps the native object 30; object 4 is a function;
object 5 is a plain `Date` with time value 1000. -/
def sampleEngine : Engine where
  stringToNumber := fun s => if s = "7" then .fin 7 0 else .nan
  objectToNumber := fun o =>
    if o = 1 then some (.fin 5 0) else if o = 5 then some (.fin 1000 0) else some .nan
  valueToString := fun v =>
    match v with
    | .boolean true => some "true"
    | .boolean false => some "false"
    | .int 0 => some "0"
    | _ => some "?"
  isArrayObject := fun o => o == 2
  unwrap := fun o => if o = 3 then some (.native 30) else none
  binaryData := fun _ => none
  className := fun o => if o = 1 ∨ o = 5 then some "Date" else some "Object"
  callGetTime := fun o =>
    if o = 1 then some (.int 7) else if o = 5 then some (.int 1000) else none
  isFunction := fun o => o == 4
  compileFunction := fun _ => none
  jsonEncode := fun _ => "null"

/-- A slot with three parameters, the last two with default values. -/
def threeParamSlot : Slot where
  HasMetadata := true
  GetArgCount := 3
  GetArgTypes := some [.TYPE_INT64, .TYPE_BOOL, .TYPE_STRING]
  GetDefaultArgs := some [.void, .bool true, .string (some "dflt")]

/-- A slot with no parameter, as of a method `Ping() -> bool`. -/
def zeroParamSlot : Slot where
  HasMetadata := true
  GetArgCount := 0
  GetArgTypes := none
  GetDefaultArgs := none

/-! ## Native to script -/

/-- What the native-to-script conversion reads of the engine and of the
script context: the range of small integers (the engine's macros
`JSVAL_INT_MIN` and `JSVAL_INT_MAX`), the items of a native object that is a
`ScriptableArray`, the script object of the wrapper that
`JSScriptContext::WrapNativeObjectToJS` finds or creates (`none` when it
fails), and the decoder `JSONDecode`. -/
structure Context where
  JSVAL_INT_MIN : Int
  JSVAL_INT_MAX : Int
  arrayItems : Nat → Option (List Variant)
  wrapNativeObjectToJS : Nat → Option Nat
  jsonDecode : String → Option JSVal

/-- The accessor `VariantValue<int64_t>()`. -/
def Variant.int64Value : Variant → Int
  | .int64 i => i
  | _ => 0

/-- The accessor `VariantValue<ScriptableInterface *>()`, also for a const
pointer. -/
def Variant.scriptableValue : Variant → Option ScriptableRef
  | .scriptable p => p
  | .constScriptable p => p
  | _ => none

/-- The conversion `static_cast<int32>` of a 64-bit integer. -/
def toInt32 (value : Int) : Int :=
  (value + 2 ^ 31) % 2 ^ 32 - 2 ^ 31

/-- The binary exponent of the double nearest to an integer of magnitude
`a < 2 ^ 64`: the least `k` with `a < 2 ^ (53 + k)`. -/
def doubleExponent (a : Nat) : Nat :=
  ((List.range 12).find? (fun k => decide (a < 2 ^ (53 + k)))).getD 11

/-- The conversion of a 64-bit integer to `double` (as in
`JS_NewDouble(cx, value)`): the magnitude is rounded to 53 significant bits,
to nearest and to even on a tie. -/
def int64ToDouble (value : Int) : JSDouble :=
  let a := value.natAbs
  let k := doubleExponent a
  let q := a / 2 ^ k
  let r := a % 2 ^ k
  let m := if 2 * r > 2 ^ k ∨ (2 * r = 2 ^ k ∧ q % 2 = 1) then q + 1 else q
  .fin (if value < 0 then -(m : Int) else (m : Int)) (k : Int)

/-- The rational number `m * 2 ^ e` that the finite double `fin m e` stands
for. -/
def dyadic (m e : Int) : ℚ :=
  (m : ℚ) * (2 : ℚ) ^ e

/-- The steps of the native-to-script conversion that the engine or a
native object observes. -/
inductive JSEvent where
  | newArrayObject (js_array : Nat) : JSEvent
  | attach (array : Nat) : JSEvent
  | detach (array : Nat) : JSEvent
  | getItem (array : Nat) (i : Nat) : JSEvent
  | setElement (js_array : Nat) (i : Nat) (item : JSVal) : JSEvent
  | newDate (js_object : Nat) (ms : Nat) : JSEvent
  | reportError (message : String) : JSEvent
  deriving DecidableEq, Repr

/-- The outcome of a native-to-script conversion: the return value, the
content of `*js_val`, the identifier of the next object the engine will
create, and the steps taken. -/
structure ToJSResult where
  result : Bool
  js_val : JSVal
  next : Nat
  events : List JSEvent
  deriving DecidableEq, Repr

def ConvertNativeToJSVoid (_native_val : Variant) (_js_val : JSVal) : Bool × JSVal :=
  (true, .void)

def ConvertNativeToJSBool (native_val : Variant) (_js_val : JSVal) : Bool × JSVal :=
  (true, .boolean (match native_val with
    | .bool b => b
    | _ => false))

def ConvertNativeToJSInt (C : Context) (native_val : Variant) (_js_val : JSVal) :
    Bool × JSVal :=
  let value := native_val.int64Value
  if value ≥ C.JSVAL_INT_MIN ∧ value ≤ C.JSVAL_INT_MAX then
    (true, .int (toInt32 value))
  else
    (true, .double (int64ToDouble value))

def ConvertNativeToJSDouble (native_val : Variant) (_js_val : JSVal) : Bool × JSVal :=
  (true, .double (match native_val with
    | .double d => d
    | _ => .fin 0 0))

def ConvertNativeToJSString (native_val : Variant) (_js_val : JSVal) : Bool × JSVal :=
  match native_val.stringValue with
  | none => (true, .null)
  | some char_ptr => (true, .string (String.mk (cString char_ptr)))

def ConvertNativeUTF16ToJSString (native_val : Variant) (_js_val : JSVal) :
    Bool × JSVal :=
  match native_val with
  | .utf16string (some char_ptr) => (true, .string (String.mk (cString char_ptr)))
  | _ => (true, .null)

/-- The loop of `ConvertNativeArrayToJS` over the items that are left, `i`
being the index of the first of them.  The local `jsval item` is not
initialised in the source; the model starts it as undefined. -/
def arrayLoop (convert : Variant → JSVal → Nat → ToJSResult) (array js_array : Nat) :
    List Variant → Nat → Nat → List JSEvent → Nat × List JSEvent
  | [], _, next, events => (next, events)
  | item :: rest, i, next, events =>
    let r := convert item .void next
    arrayLoop convert array js_array rest (i + 1) r.next
      (events ++ [.getItem array i] ++ r.events ++
        (if r.result then [.setElement js_array i r.js_val] else []))

/-- The first argument is `ConvertNativeToJS`, called on each item. -/
def ConvertNativeArrayToJS (convert : Variant → JSVal → Nat → ToJSResult)
    (array : Nat) (items : List Variant) (_js_val : JSVal) (next : Nat) : ToJSResult :=
  let js_array := next
  let r := arrayLoop convert array js_array items 0 (next + 1)
    [.newArrayObject js_array, .attach array]
  ⟨true, .object js_array, r.1, r.2 ++ [.detach array]⟩

/-- The first argument is `ConvertNativeToJS`, called on the items of an
array. -/
def ConvertNativeToJSObject (C : Context)
    (convert : Variant → JSVal → Nat → ToJSResult)
    (native_val : Variant) (js_val : JSVal) (next : Nat) : ToJSResult :=
  match native_val.scriptableValue with
  | none => ⟨true, .null, next, []⟩
  | some (.native scriptable) =>
    match C.arrayItems scriptable with
    | some items => ConvertNativeArrayToJS convert scriptable items js_val next
    | none =>
      match C.wrapNativeObjectToJS scriptable with
      | some js_object => ⟨true, .object js_object, next, []⟩
      | none => ⟨false, js_val, next, []⟩
  | some (.jsNativeWrapper js_object) => ⟨true, .object js_object, next, []⟩

/-- The script `new Date(ms)` is evaluated by the engine and gives a new
object. -/
def ConvertNativeToJSDate (native_val : Variant) (_js_val : JSVal) (next : Nat) :
    ToJSResult :=
  ⟨true, .object next, next + 1,
    [.newDate next (match native_val with
      | .date ms => ms
      | _ => 0)]⟩

def ConvertNativeToJSFunction (_native_val : Variant) (js_val : JSVal) : Bool × JSVal :=
  -- Just leave the value that SpiderMonkey recorded in SetProperty.
  (true, js_val)

def ConvertJSONToJS (C : Context) (native_val : Variant) (js_val : JSVal) : Bool × JSVal :=
  match native_val with
  | .json json_str =>
    match C.jsonDecode json_str with
    | some v => (true, v)
    | none => (false, js_val)
  | _ => (false, js_val)

/-- The first argument after the context bounds the nesting of arrays that
is followed; with none left the conversion gives up. -/
def ConvertNativeToJS (C : Context) : Nat → Variant → JSVal → Nat → ToJSResult
  | 0, _, js_val, next => ⟨false, js_val, next, []⟩
  | fuel + 1, native_val, js_val, next =>
    let leaf (r : Bool × JSVal) : ToJSResult := ⟨r.1, r.2, next, []⟩
    match native_val.type with
    | .TYPE_VOID => leaf (ConvertNativeToJSVoid native_val js_val)
    | .TYPE_BOOL => leaf (ConvertNativeToJSBool native_val js_val)
    | .TYPE_INT64 => leaf (ConvertNativeToJSInt C native_val js_val)
    | .TYPE_DOUBLE => leaf (ConvertNativeToJSDouble native_val js_val)
    | .TYPE_STRING => leaf (ConvertNativeToJSString native_val js_val)
    | .TYPE_JSON => leaf (ConvertJSONToJS C native_val js_val)
    | .TYPE_UTF16STRING => leaf (ConvertNativeUTF16ToJSString native_val js_val)
    | .TYPE_SCRIPTABLE =>
      ConvertNativeToJSObject C (ConvertNativeToJS C fuel) native_val js_val next
    | .TYPE_CONST_SCRIPTABLE =>
      ⟨false, js_val, next,
        [.reportError "Don't pass const ScriptableInterface * to JavaScript"]⟩
    | .TYPE_SLOT => leaf (ConvertNativeToJSFunction native_val js_val)
    | .TYPE_DATE => ConvertNativeToJSDate native_val js_val next
    | .TYPE_VARIANT =>
      -- Normally there is no real value of this type, so convert it to void.
      leaf (ConvertNativeToJSVoid native_val js_val)

/-- A context for the examples, with the small-integer range of
SpiderMonkey 1.7: native object 20 is an array holding an integer and a
string, native object 30 has the wrapper object 3. -/
def sampleContext : Context where
  JSVAL_INT_MIN := 1 - 2 ^ 30
  JSVAL_INT_MAX := 2 ^ 30 - 1
  arrayItems := fun id =>
    if id = 20 then some [.int64 1, .string (some "a")] else none
  wrapNativeObjectToJS := fun id => if id = 30 then some 3 else none
  jsonDecode := fun _ => none

/-- The small-integer range of the context lies within `int32`. -/
def Context.IntRangeOk (C : Context) : Prop :=
  -(2 ^ 31) ≤ C.JSVAL_INT_MIN ∧ C.JSVAL_INT_MAX ≤ 2 ^ 31 - 1

/-- The integer is a double: no bit is lost when it is converted. -/
def exactInDouble (v : Int) : Prop :=
  v.natAbs % 2 ^ doubleExponent v.natAbs = 0

instance (v : Int) : Decidable (exactInDouble v) := by
  unfold exactInDouble
  infer_instance

end smjs

/-! ## The D-Bus proxy object -/

namespace dbus

open smjs

/-- The value of `INT_MAX`. -/
def INT_MAX : Nat := 2 ^ 31 - 1

/-- The enumeration `DBusProxy::PropertyAccess`, whose declaration is not
among the sources: unknown, or readable, writable or both. -/
inductive PropertyAccess where
  | PROP_UNKNOWN
  | PROP_READ
  | PROP_WRITE
  | PROP_READ_WRITE
  deriving DecidableEq, Repr

/-- The test `prop_access & DBusProxy::PROP_READ`. -/
def PropertyAccess.hasRead : PropertyAccess → Bool
  | .PROP_READ => true
  | .PROP_READ_WRITE => true
  | _ => false

/-- The test `prop_access & DBusProxy::PROP_WRITE`. -/
def PropertyAccess.hasWrite : PropertyAccess → Bool
  | .PROP_WRITE => true
  | .PROP_READ_WRITE => true
  | _ => false

/-- The output parameters of a successful `DBusProxy::GetMethodInfo`. -/
structure MethodInfo where
  argc : Nat
  arg_types : Option (List VariantType)
  retc : Nat
  ret_types : Option (List VariantType)
  deriving DecidableEq, Repr

/-- The output parameters of a successful `DBusProxy::GetSignalInfo`. -/
structure SignalInfo where
  argc : Nat
  arg_types : Option (List VariantType)
  deriving DecidableEq, Repr

/-- The backing proxy `DBusProxy`, whose code is not among the sources, by
the answers it gives to the object; the answers do not change during a run. -/
structure DBusProxy where
  GetMethodInfo : String → Option MethodInfo
  GetSignalInfo : String → Option SignalInfo
  GetPropertyInfo : String → PropertyAccess × VariantType
  GetProperty : String → Variant
  SetProperty : String → Variant → Bool

/-- The class `DBusMethodSlot`, by its data members (the proxy is fixed). -/
structure DBusMethodSlot where
  method_ : String
  has_metadata_ : Bool
  timeout_ : Int
  argc_ : Nat
  arg_types_ : Option (List VariantType)
  retc_ : Nat
  ret_types_ : Option (List VariantType)
  deriving DecidableEq, Repr

def DBusMethodSlot.HasMetadata (_self : DBusMethodSlot) : Bool :=
  true

def DBusMethodSlot.GetReturnType (self : DBusMethodSlot) : VariantType :=
  if !self.has_metadata_ then .TYPE_VARIANT
  else if self.retc_ = 0 then .TYPE_VOID
  else if self.retc_ = 1 then (self.ret_types_.getD []).getD 0 .TYPE_VOID
  else .TYPE_SCRIPTABLE

def DBusMethodSlot.GetArgCount (self : DBusMethodSlot) : Nat :=
  if self.has_metadata_ then self.argc_ else INT_MAX

def DBusMethodSlot.GetArgTypes (self : DBusMethodSlot) : Option (List VariantType) :=
  self.arg_types_

/-- The slot as the argument conversion sees it.  The class does not
override `GetDefaultArgs`, which is NULL in the base class `Slot`. -/
def DBusMethodSlot.toSlot (self : DBusMethodSlot) : Slot where
  HasMetadata := self.HasMetadata
  GetArgCount := self.GetArgCount
  GetArgTypes := self.GetArgTypes
  GetDefaultArgs := none

/-- Modelled from the spec: the class `Signal` (ggadget/signals.h is not
among the sources), by its one default connection, which holds the callback
that is connected, none at first. -/
structure Signal where
  default_slot : Option SlotRef
  deriving DecidableEq, Repr

/-- Modelled from the spec: `GetDefaultConnection()->slot()`, the callback
that is connected. -/
def Signal.slot (self : Signal) : Option SlotRef :=
  self.default_slot

/-- Modelled from the spec: `GetDefaultConnection()->Reconnect(slot)`
reconnects the default endpoint to the slot and succeeds. -/
def Signal.Reconnect (_self : Signal) (slot : Option SlotRef) : Bool × Signal :=
  (true, { default_slot := slot })

/-- The class `DBusSignal`: `id` names the object made by `new DBusSignal`,
`prototype_slot_` names the `SignalSlot` once it is made. -/
structure DBusSignal extends Signal where
  id : Nat
  argc_ : Nat
  arg_types_ : Option (List VariantType)
  prototype_slot_ : Option Nat
  deriving DecidableEq, Repr

/-- The calls made to the proxy and to the owner, and the objects created. -/
inductive DBusEvent where
  | GetMethodInfo (name : String) : DBusEvent
  | GetSignalInfo (name : String) : DBusEvent
  | GetPropertyInfo (name : String) : DBusEvent
  | GetProperty (name : String) : DBusEvent
  | SetProperty (name : String) (value : Variant) : DBusEvent
  | newDBusMethodSlot (slot : DBusMethodSlot) : DBusEvent
  | newDBusSignal (id : Nat) : DBusEvent
  | newSignalSlot (id : Nat) : DBusEvent
  | Ref : DBusEvent
  | Emit (signal : Nat) (argc : Nat) (argv : List Variant) : DBusEvent
  | Unref : DBusEvent
  deriving DecidableEq, Repr

/-- The method `GetPrototypeSlot`: the slot, the signal afterwards, the next
free identifier and the objects created. -/
def DBusSignal.GetPrototypeSlot (self : DBusSignal) (next : Nat) :
    Nat × DBusSignal × Nat × List DBusEvent :=
  match self.prototype_slot_ with
  | some slot => (slot, self, next, [])
  | none => (next, { self with prototype_slot_ := some next }, next + 1, [.newSignalSlot next])

def DBusSignal.GetDefaultConnectedSlot (self : DBusSignal) : Option SlotRef :=
  self.toSignal.slot

def DBusSignal.SetDefaultConnectedSlot (self : DBusSignal) (slot : Option SlotRef) :
    Bool × DBusSignal :=
  let r := self.toSignal.Reconnect slot
  (r.1, { self with toSignal := r.2 })

/-- Modelled from the spec: `Signal::Emit` is not among the sources; the
emission is recorded with the signal and the arguments it is given. -/
def DBusSignal.Emit (self : DBusSignal) (argc : Nat) (argv : List Variant) :
    List DBusEvent :=
  [.Emit self.id argc argv]

/-- The data members of `ScriptableDBusObject::Impl` that the dynamic
properties use: the timeout, the map `signals_`, and the identifier of the
next object to be created. -/
structure Impl where
  timeout_ : Int
  signals_ : String → Option DBusSignal
  next : Nat

/-- The state after the constructor. -/
def Impl.init : Impl where
  timeout_ := -1
  signals_ := fun _ => none
  next := 0

/-- What a `ResultVariant` returned by `DynamicGetter` holds: the prototype
slot of a signal, the slot connected to a signal, a new `ScriptableFunction`
around a method slot, or a plain value. -/
inductive ResultVariant where
  | prototypeSlot (slot : Nat) : ResultVariant
  | connectedSlot (slot : Option SlotRef) : ResultVariant
  | function (slot : DBusMethodSlot) : ResultVariant
  | value (v : Variant) : ResultVariant
  deriving DecidableEq, Repr

structure GetterOutcome where
  value : ResultVariant
  state : Impl
  events : List DBusEvent

structure SetterOutcome where
  result : Bool
  state : Impl
  events : List DBusEvent

/-- The two returns that follow a signal in `DynamicGetter`: the prototype
slot for an introspection query, the connected slot otherwise. -/
def signalResult (self : Impl) (name : String) (signal : DBusSignal) (get_info : Bool)
    (events : List DBusEvent) : GetterOutcome :=
  if get_info then
    let r := signal.GetPrototypeSlot self.next
    ⟨.prototypeSlot r.1,
      { self with signals_ := Function.update self.signals_ name (some r.2.1),
                  next := r.2.2.1 },
      events ++ r.2.2.2⟩
  else ⟨.connectedSlot signal.GetDefaultConnectedSlot, self, events⟩

def DynamicGetter (proxy : DBusProxy) (self : Impl) (name : String) (get_info : Bool) :
    GetterOutcome :=
  -- First check if it's a known signal.
  match self.signals_ name with
  | some sig => signalResult self name sig get_info []
  | none =>
    -- Method has the highest priority.
    match proxy.GetMethodInfo name with
    | some info =>
      let slot : DBusMethodSlot :=
        ⟨name, true, self.timeout_, info.argc, info.arg_types, info.retc, info.ret_types⟩
      ⟨.function slot, self, [.GetMethodInfo name, .newDBusMethodSlot slot]⟩
    | none =>
      -- Then try signal.
      match proxy.GetSignalInfo name with
      | some info =>
        let signal : DBusSignal :=
          { id := self.next, argc_ := info.argc, arg_types_ := info.arg_types,
            prototype_slot_ := none, default_slot := none }
        signalResult
          { self with signals_ := Function.update self.signals_ name (some signal),
                      next := self.next + 1 }
          name signal get_info
          [.GetMethodInfo name, .GetSignalInfo name, .newDBusSignal self.next]
      | none =>
        -- Then try property.
        let prop := proxy.GetPropertyInfo name
        if prop.1 ≠ .PROP_UNKNOWN then
          if get_info then
            ⟨.value (Variant.ofType prop.2), self,
              [.GetMethodInfo name, .GetSignalInfo name, .GetPropertyInfo name]⟩
          else if prop.1.hasRead then
            ⟨.value (proxy.GetProperty name), self,
              [.GetMethodInfo name, .GetSignalInfo name, .GetPropertyInfo name,
                .GetProperty name]⟩
          else
            ⟨.value .void, self,
              [.GetMethodInfo name, .GetSignalInfo name, .GetPropertyInfo name]⟩
        else
          -- Assume it's a method.
          let method_slot : DBusMethodSlot := ⟨name, false, self.timeout_, 0, none, 0, none⟩
          ⟨.function method_slot, self,
            [.GetMethodInfo name, .GetSignalInfo name, .GetPropertyInfo name,
              .newDBusMethodSlot method_slot]⟩

def DynamicSetter (proxy : DBusProxy) (self : Impl) (name : String) (value : Variant) :
    SetterOutcome :=
  -- First check if it's a known signal.
  match self.signals_ name with
  | some sig =>
    if value.type = .TYPE_SLOT then
      let r := sig.SetDefaultConnectedSlot value.slotValue
      ⟨r.1, { self with signals_ := Function.update self.signals_ name (some r.2) }, []⟩
    else ⟨false, self, []⟩
  | none =>
    -- Then try to resolve signal.
    match proxy.GetSignalInfo name with
    | some info =>
      let signal : DBusSignal :=
        { id := self.next, argc_ := info.argc, arg_types_ := info.arg_types,
          prototype_slot_ := none, default_slot := none }
      let self1 : Impl :=
        { self with signals_ := Function.update self.signals_ name (some signal),
                    next := self.next + 1 }
      if value.type = .TYPE_SLOT then
        let r := signal.SetDefaultConnectedSlot value.slotValue
        ⟨r.1, { self1 with signals_ := Function.update self1.signals_ name (some r.2) },
          [.GetSignalInfo name, .newDBusSignal self.next]⟩
      else ⟨false, self1, [.GetSignalInfo name, .newDBusSignal self.next]⟩
    | none =>
      -- Then try property.
      let prop := proxy.GetPropertyInfo name
      if prop.1.hasWrite then
        ⟨proxy.SetProperty name value, self,
          [.GetSignalInfo name, .GetPropertyInfo name, .SetProperty name value]⟩
      else ⟨false, self, [.GetSignalInfo name, .GetPropertyInfo name]⟩

def EmitSignal (self : Impl) (name : String) (argc : Nat) (argv : List Variant) :
    List DBusEvent :=
  match self.signals_ name with
  | some sig =>
    -- Reference owner object before emitting signal to prevent it from
    -- being destroyed by garbage collection.
    [.Ref] ++ sig.Emit argc argv ++ [.Unref]
  | none => []

/-- A call of one of the two dynamic property handlers. -/
inductive Op where
  | get (name : String) (get_info : Bool) : Op
  | set (name : String) (value : Variant) : Op
  deriving DecidableEq, Repr

/-- The state after one call. -/
def step (proxy : DBusProxy) (self : Impl) : Op → Impl
  | .get name get_info => (DynamicGetter proxy self name get_info).state
  | .set name value => (DynamicSetter proxy self name value).state

/-- The state after a sequence of calls. -/
def run (proxy : DBusProxy) (self : Impl) (ops : List Op) : Impl :=
  ops.foldl (step proxy) self

/-- A proxy for the examples: `Ping` is a method returning a boolean,
`Notify` is both a method and a signal, `Changed` is a signal, `Secret` is a
write-only string property, `Title` a readable and writable one. -/
def sampleProxy : DBusProxy where
  GetMethodInfo := fun name =>
    if name = "Ping" then some ⟨0, none, 1, some [.TYPE_BOOL]⟩
    else if name = "Notify" then some ⟨1, some [.TYPE_STRING], 0, none⟩
    else none
  GetSignalInfo := fun name =>
    if name = "Notify" then some ⟨1, some [.TYPE_STRING]⟩
    else if name = "Changed" then some ⟨1, some [.TYPE_INT64]⟩
    else none
  GetPropertyInfo := fun name =>
    if name = "Secret" then (.PROP_WRITE, .TYPE_STRING)
    else if name = "Title" then (.PROP_READ_WRITE, .TYPE_STRING)
    else if name = "Ping" then (.PROP_READ, .TYPE_BOOL)
    else (.PROP_UNKNOWN, .TYPE_VOID)
  GetProperty := fun name => if name = "Title" then .string (some "t") else .void
  SetProperty := fun name _ => name == "Title" || name == "Secret"

end dbus

namespace smjs

end smjs

namespace dbus

/-- The descriptor `d'` is the object `d` at a later time: the same
`DBusSignal` with the same signature, whose prototype slot, once made, stays
the same. -/
def DBusSignal.SameObject (d d' : DBusSignal) : Prop :=
  d'.id = d.id ∧ d'.argc_ = d.argc_ ∧ d'.arg_types_ = d.arg_types_ ∧
    ∀ p, d.prototype_slot_ = some p → d'.prototype_slot_ = some p

end dbus

namespace smjs

end smjs

/-- The class `ScriptableArray` of `ggadget/scriptable_array.cc`, by the data
members of its `Impl`. -/
structure ScriptableArray where
  array_ : List smjs.Variant
  count_ : Nat
  deriving DecidableEq, Repr

def ScriptableArray.GetCount (self : ScriptableArray) : Nat :=
  self.count_

def ScriptableArray.GetItem (self : ScriptableArray) (index : Nat) : smjs.Variant :=
  if index < self.count_ then self.array_.getD index .void else .void

/-- The items the loop `for (i = 0; i < length; i++)` of
`ConvertNativeArrayToJS` reads with `GetItem(i)`. -/
def ScriptableArray.items (self : ScriptableArray) : List smjs.Variant :=
  (List.range self.GetCount).map self.GetItem

/-- Modelled from the spec: `ScriptableArray::Create(first, last)` is not
among the sources; it makes an array that holds the values of the range in
order. -/
def ScriptableArray.Create (values : List smjs.Variant) : ScriptableArray where
  array_ := values
  count_ := values.length

namespace smjs

/-- The outcomes of the conversions of the items of an array, in order, the
first of them starting with `next` as the next free object. -/
def itemOutcomes (convert : Variant → JSVal → Nat → ToJSResult) :
    List Variant → Nat → List ToJSResult
  | [], _ => []
  | item :: rest, next =>
    convert item .void next :: itemOutcomes convert rest (convert item .void next).next

/-- The steps of `ConvertNativeArrayToJS` for the item of index `i`: the item
is read, converted, and stored in the script array when the conversion
succeeded. -/
def itemSteps (array js_array : Nat) (i : Nat) (r : ToJSResult) : List JSEvent :=
  [.getItem array i] ++ r.events ++
    (if r.result then [.setElement js_array i r.js_val] else [])

/-- The steps for the items from index `i` on, given their outcomes. -/
def itemsSteps (array js_array : Nat) : Nat → List ToJSResult → List JSEvent
  | _, [] => []
  | i, r :: rest => itemSteps array js_array i r ++ itemsSteps array js_array (i + 1) rest

/-- A context for the examples of arrays: native object 21 is an array of an
integer, a const object reference and a string. -/
def arrayContext : Context where
  JSVAL_INT_MIN := 1 - 2 ^ 30
  JSVAL_INT_MAX := 2 ^ 30 - 1
  arrayItems := fun id =>
    if id = 21 then some [.int64 1, .constScriptable none, .string (some "a")] else none
  wrapNativeObjectToJS := fun _ => none
  jsonDecode := fun _ => none

end smjs

namespace dbus

open smjs

/-- The member functions that `DoClassRegister` registers. -/
inductive ClassSlot where
  | GetName
  | GetPath
  | GetInterface
  | GetTimeout
  | SetTimeout
  | ListMethods
  | ListSignals
  | ListProperties
  | ListChildren
  | ListInterfaces
  | DBusCallMethodSlot
  | CancelMethodCall
  | IsMethodCallPending
  | GetProperty
  | SetProperty
  | GetChild
  | GetInterfaceObject
  deriving DecidableEq, Repr

/-- A call of `RegisterProperty(name, getter, setter)`, the setter being
`none` when it is NULL, or of `RegisterMethod(name, slot)`. -/
inductive Registration where
  | property (name : String) (getter : ClassSlot) (setter : Option ClassSlot) : Registration
  | method (name : String) (slot : ClassSlot) : Registration
  deriving DecidableEq, Repr

/-- The registrations made by `ScriptableDBusObject::DoClassRegister`; the
argument tells whether `impl_` is not NULL. -/
def DoClassRegister (impl_ : Bool) : List Registration :=
  if !impl_ then []
  else
    [.property "$name" .GetName none,
     .property "$path" .GetPath none,
     .property "$interface" .GetInterface none,
     .property "$timeout" .GetTimeout (some .SetTimeout),
     .property "$methods" .ListMethods none,
     .property "$signals" .ListSignals none,
     .property "$properties" .ListProperties none,
     .property "$children" .ListChildren none,
     .property "$interfaces" .ListInterfaces none,
     .method "$callMethod" .DBusCallMethodSlot,
     .method "$cancelMethodCall" .CancelMethodCall,
     .method "$isMethodCallPending" .IsMethodCallPending,
     .method "$getProperty" .GetProperty,
     .method "$setProperty" .SetProperty,
     .method "$getChild" .GetChild,
     .method "$getInterface" .GetInterfaceObject]

def Impl.GetTimeout (self : Impl) : Int :=
  self.timeout_

def Impl.SetTimeout (self : Impl) (timeout : Int) : Impl :=
  if timeout ≥ 0 then { self with timeout_ := timeout }
  else { self with timeout_ := -1 }

/-- The getter and the setter of every registration of a property of the
given name. -/
def registeredAs (regs : List Registration) (name : String) :
    List (ClassSlot × Option ClassSlot) :=
  regs.filterMap (fun r =>
    match r with
    | .property n getter setter => if n = name then some (getter, setter) else none
    | .method _ _ => none)

/-- The class `ReturnValueReceiver` of `DBusMethodSlot`. -/
structure ReturnValueReceiver where
  return_values_ : List Variant
  deriving DecidableEq, Repr

/-- What the `ResultVariant` returned by a call of a `DBusMethodSlot` holds:
a plain value, or a new `ScriptableArray`. -/
inductive ReturnVariant where
  | value (v : Variant) : ReturnVariant
  | array (a : ScriptableArray) : ReturnVariant
  deriving DecidableEq, Repr

/-- The method `Callback`: its return value and the receiver afterwards. -/
def ReturnValueReceiver.Callback (self : ReturnValueReceiver) (index : Int)
    (value : Variant) : Bool × ReturnValueReceiver :=
  if index ≥ 0 then (true, { return_values_ := self.return_values_ ++ [value] })
  else (false, self)

def ReturnValueReceiver.GetReturnValue (self : ReturnValueReceiver) : ReturnVariant :=
  if self.return_values_.length = 0 then .value .void
  else if self.return_values_.length = 1 then .value (self.return_values_.getD 0 .void)
  else .array (ScriptableArray.Create self.return_values_)

/-- The receiver after the callback has been invoked with each pair of an
index and a value, in order. -/
def ReturnValueReceiver.afterCalls (self : ReturnValueReceiver) :
    List (Int × Variant) → ReturnValueReceiver
  | [] => self
  | (index, value) :: rest => ((self.Callback index value).2).afterCalls rest

/-- The method `DBusMethodSlot::Call`.  The call `proxy_->CallMethod` is
given by its return value and by the invocations of the result callback it
makes before it returns. -/
def DBusMethodSlot.Call (_self : DBusMethodSlot) (_argc : Nat) (_argv : List Variant)
    (CallMethod : Bool × List (Int × Variant)) : ReturnVariant :=
  let receiver : ReturnValueReceiver := { return_values_ := [] }
  let ret := CallMethod.1
  if ret then (receiver.afterCalls CallMethod.2).GetReturnValue
  else .value .void

end dbus

/-! ## The script context of the trunk -/

namespace trunk

open smjs

/-- Modelled from the spec: the class `NativeJSWrapper` (native_js_wrapper.h
is not among the sources), by the native object it wraps, `scriptable()`,
and its script object, `js_object()`. -/
structure NativeJSWrapper where
  scriptable : Nat
  js_object : Nat
  deriving DecidableEq, Repr

/-- The class `JSFunctionSlot` of `js_script_context.cc`. -/
structure JSFunctionSlot where
  prototype_ : Option Slot
  context_ : Nat
  function_val_ : JSVal

def JSFunctionSlot.HasMetadata (self : JSFunctionSlot) : Bool :=
  self.prototype_.isSome

def JSFunctionSlot.GetArgCount (self : JSFunctionSlot) : Nat :=
  match self.prototype_ with
  | some prototype => prototype.GetArgCount
  | none => 0

def JSFunctionSlot.GetArgTypes (self : JSFunctionSlot) : Option (List VariantType) :=
  match self.prototype_ with
  | some prototype => prototype.GetArgTypes
  | none => none

/-- The operator `==` of `JSFunctionSlot` on another `JSFunctionSlot`. -/
def JSFunctionSlot.operatorEq (self another : JSFunctionSlot) : Bool :=
  self.function_val_ == another.function_val_

/-- The data members of `JSScriptContext` that the registries use: the two
maps, keyed by the address of a native object and of a slot, and the
identifier of the next script object the engine will create for a wrapper. -/
structure JSScriptContext where
  context_ : Nat
  wrapper_map_ : Nat → Option NativeJSWrapper
  slot_js_map_ : Nat → Option JSVal
  next : Nat

/-- The state after the constructor. -/
def JSScriptContext.init (context : Nat) : JSScriptContext where
  context_ := context
  wrapper_map_ := fun _ => none
  slot_js_map_ := fun _ => none
  next := 0

/-- The method `WrapNativeObjectToJSInternal`: the script object returned,
the wrapper it belongs to, and the state afterwards. -/
def WrapNativeObjectToJSInternal (self : JSScriptContext) (scriptable : Nat) :
    Nat × NativeJSWrapper × JSScriptContext :=
  match self.wrapper_map_ scriptable with
  | none =>
    let wrapper : NativeJSWrapper := { scriptable := scriptable, js_object := self.next }
    (wrapper.js_object, wrapper,
      { self with wrapper_map_ := Function.update self.wrapper_map_ scriptable (some wrapper),
                  next := self.next + 1 })
  | some wrapper => (wrapper.js_object, wrapper, self)

def FinalizeNativeJSWrapperInternal (self : JSScriptContext) (wrapper : NativeJSWrapper) :
    JSScriptContext :=
  { self with wrapper_map_ := Function.update self.wrapper_map_ wrapper.scriptable none }

def ConvertSlotToJSInternal (self : JSScriptContext) (slot : Nat) : JSVal :=
  match self.slot_js_map_ slot with
  | some function_val => function_val
  | none =>
    -- We don't allow JavaScript to call native slot in this way.
    .null

/-- The method `NewJSFunctionSlotInternal`; the argument `slot` is the
address that `new JSFunctionSlot(...)` returns.  The result is that address,
the slot made there, and the state afterwards. -/
def NewJSFunctionSlotInternal (self : JSScriptContext) (slot : Nat)
    (prototype : Option Slot) (function_val : JSVal) :
    Nat × JSFunctionSlot × JSScriptContext :=
  (slot, { prototype_ := prototype, context_ := self.context_, function_val_ := function_val },
    { self with slot_js_map_ := Function.update self.slot_js_map_ slot (some function_val) })

/-- The method `Compile`; `slot` is the address that `new JSFunctionSlot(...)`
returns and `function` the function object that `JS_CompileFunction`
returns, `none` when it fails.  The maps of the context are not touched. -/
def Compile (self : JSScriptContext) (slot : Nat) (function : Option Nat) :
    Option (Nat × JSFunctionSlot) :=
  match function with
  | none => none
  | some function_object =>
    some (slot,
      { prototype_ := none, context_ := self.context_,
        function_val_ := .object function_object })

/-- The arity test at the head of `JSScriptContext::CallNativeSlot`: the
pair reported with the error `Wrong number of arguments` when the call is
rejected, `none` when the function goes on to convert the arguments. -/
def CallNativeSlotArity (slot : Slot) (argc : Nat) : Option (Nat × Nat) :=
  if slot.HasMetadata ∧ argc ≠ slot.GetArgCount then some (argc, slot.GetArgCount)
  else none

/-- A step of the program that concerns the registries of the script
context: a call of one of its methods, the creation of a native slot
somewhere at the address `slot`, or the statement `delete slot`, which runs
the destructor of the slot (`~JSFunctionSlot` removes the root of the
function value and leaves `slot_js_map_` alone) and frees its address. -/
inductive Op where
  | wrap (scriptable : Nat) : Op
  | finalize (wrapper : NativeJSWrapper) : Op
  | newSlot (slot : Nat) (prototype : Option Slot) (function_val : JSVal) : Op
  | compile (slot : Nat) (function : Option Nat) : Op
  | newNativeSlot (slot : Nat) : Op
  | deleteSlot (slot : Nat) : Op

/-- The state of the script context after one step. -/
def step (self : JSScriptContext) : Op → JSScriptContext
  | .wrap scriptable => (WrapNativeObjectToJSInternal self scriptable).2.2
  | .finalize wrapper => FinalizeNativeJSWrapperInternal self wrapper
  | .newSlot slot prototype function_val =>
    (NewJSFunctionSlotInternal self slot prototype function_val).2.2
  | .compile _ _ => self
  | .newNativeSlot _ => self
  | .deleteSlot _ => self

/-- The state after a sequence of steps. -/
def run (self : JSScriptContext) (ops : List Op) : JSScriptContext :=
  ops.foldl step self

/-- The address at which a step makes a slot, if it makes one. -/
def Op.allocated : Op → Option Nat
  | .newSlot slot _ _ => some slot
  | .compile slot (some _) => some slot
  | .newNativeSlot slot => some slot
  | _ => none

/-- The addresses of the slots alive after one step. -/
def heapStep (live : List Nat) (op : Op) : List Nat :=
  match op with
  | .deleteSlot slot => live.filter (fun a => a != slot)
  | _ =>
    match op.allocated with
    | some slot => slot :: live
    | none => live

/-- The steps are possible on a heap where the slots at the addresses `live`
are alive: a new slot gets an address at which no slot is alive, and the
slot that is deleted is alive. -/
def HeapOk : List Nat → List Op → Bool
  | _, [] => true
  | live, op :: rest =>
    (match op with
     | .deleteSlot slot => live.contains slot
     | _ =>
       match op.allocated with
       | some slot => !live.contains slot
       | none => true) && HeapOk (heapStep live op) rest

/-- Every registered wrapper is registered under the object it wraps. -/
def JSScriptContext.WrappersOk (self : JSScriptContext) : Prop :=
  ∀ o w, self.wrapper_map_ o = some w → w.scriptable = o

end trunk

/-! ## Key codes of the Qt host -/

namespace qt

/-- The structure `KeyvalKeyCode`; the numeric values of `Qt::Key` come from
the headers of Qt. -/
structure KeyvalKeyCode where
  qt_key : Int
  key_code : Nat
  deriving DecidableEq, Repr

def KeyvalCompare (v1 v2 : KeyvalKeyCode) : Bool :=
  decide (v1.qt_key < v2.qt_key)

/-- The call `std::sort(first, last, KeyvalCompare)`: the table in an order
in which no entry is less than an earlier one. -/
def sortTable (table : List KeyvalKeyCode) : List KeyvalKeyCode :=
  table.insertionSort (fun v1 v2 => v1.qt_key ≤ v2.qt_key)

/-- The call `std::lower_bound(first, last, key, KeyvalCompare)` on a sorted
table: the position of the first entry that is not less than the key, the
length of the table when there is none. -/
def lower_bound (table : List KeyvalKeyCode) (key : KeyvalKeyCode) : Nat :=
  (table.takeWhile (fun v => KeyvalCompare v key)).length

/-- The function `GetKeyCode` over a given table; `none` stands for the read
of `pos->qt_key` at a position outside the table. -/
def GetKeyCode (keyval_key_code_map : List KeyvalKeyCode) (qt_key : Int) : Option Nat :=
  let table := sortTable keyval_key_code_map
  let key : KeyvalKeyCode := { qt_key := qt_key, key_code := 0 }
  let pos := lower_bound table key
  match table.get? pos with
  | some entry => some (if entry.qt_key = qt_key then entry.key_code else 0)
  | none => none

/-- An excerpt of `keyval_key_code_map`: `Key_Escape`, `Key_Tab`,
`Key_Backspace`, `Key_Return`, `Key_Space` and `Key_A` with the key codes of
`KeyboardEvent`. -/
def sampleKeyMap : List KeyvalKeyCode :=
  [⟨0x01000003, 8⟩, ⟨0x01000001, 9⟩, ⟨0x01000004, 13⟩, ⟨0x01000000, 31⟩,
    ⟨0x20, 32⟩, ⟨0x41, 65⟩]

end qt

namespace smjs

end smjs

namespace trunk

open smjs

/-- A slot with two parameters whose default values end in a void one. -/
def voidDefaultSlot : Slot where
  HasMetadata := true
  GetArgCount := 2
  GetArgTypes := some [.TYPE_INT64, .TYPE_INT64]
  GetDefaultArgs := some [.int64 5, .void]

/-- A slot without metadata. -/
def plainSlot : Slot where
  HasMetadata := false
  GetArgCount := 0
  GetArgTypes := none
  GetDefaultArgs := none

end trunk

namespace smjs

/-! ## Lemmas on the loops -/

theorem minArgcLoop_append (l : List Variant) :
    ∀ (ys : List Variant) (m : Nat),
      minArgcLoop (l ++ ys) l.length m =
        m - (l.reverse.takeWhile (fun v => v.type != .TYPE_VOID)).length := by
  induction l using List.reverseRecOn with
  | nil => intro ys m; simp [minArgcLoop]
  | append_singleton l x ih =>
    intro ys m
    have hget : (l ++ [x] ++ ys).getD l.length Variant.void = x := by
      rw [List.getD_eq_getElem?_getD, List.append_assoc,
        List.getElem?_append_right (le_refl _)]
      simp
    rw [List.length_append, List.length_singleton, minArgcLoop, hget]
    by_cases hx : (x.type != VariantType.TYPE_VOID) = true
    · have h2 := ih (x :: ys) (m - 1)
      simp only [List.append_assoc, List.singleton_append] at h2 ⊢
      simp only [hx, if_true, h2, List.reverse_append, List.reverse_singleton,
        List.singleton_append, List.takeWhile_cons, List.length_cons]
      omega
    · simp [hx]

theorem minArgcLoop_length (l : List Variant) (m : Nat) :
    minArgcLoop l l.length m =
      m - (l.reverse.takeWhile (fun v => v.type != .TYPE_VOID)).length := by
  have h := minArgcLoop_append l [] m
  simpa using h

theorem convertLoop_events_extend (E : Engine) (owner : Option Nat)
    (arg_types : Option (List VariantType)) (default_args : Option (List Variant))
    (argv : List JSVal) (expected_argc : Nat) :
    ∀ (n i : Nat) (params : List Variant) (events : List Event),
      ∃ tl, (convertLoop E owner arg_types default_args argv expected_argc
        i n params events).events = events ++ tl := by
  intro n
  induction n with
  | zero => intro i params events; exact ⟨[], by simp [convertLoop]⟩
  | succ n ih =>
    intro i params events
    simp only [convertLoop]
    split
    · exact ih _ _ _
    · split
      · obtain ⟨tl, h⟩ := ih (i + 1) (params.set i _) (events ++ [Event.convert i])
        exact ⟨_, by rw [h, List.append_assoc]⟩
      · simp only [List.append_assoc]
        exact ⟨_, rfl⟩

theorem specMinArgc_le (slot : Slot) : specMinArgc slot ≤ slot.GetArgCount := by
  unfold specMinArgc
  split
  · exact le_refl _
  · exact Nat.sub_le _ _

theorem computeMinArgc_eq_spec (slot : Slot) (hwf : slot.WellFormed) (argc : Nat)
    (hlt : argc < slot.GetArgCount) :
    computeMinArgc slot.GetArgCount slot.GetDefaultArgs argc = specMinArgc slot := by
  unfold computeMinArgc specMinArgc
  cases hd : slot.GetDefaultArgs with
  | none => rfl
  | some d =>
    have hlen := hwf.1 d hd
    have hpos : 0 < slot.GetArgCount := by omega
    simp only [hpos, hlt, and_self, if_true]
    rw [← hlen]
    exact minArgcLoop_length d d.length

theorem arity_condition_iff (slot : Slot) (hwf : slot.WellFormed) (argc : Nat) :
    (argc ≠ slot.GetArgCount ∧
      (argc > slot.GetArgCount ∨
        argc < computeMinArgc slot.GetArgCount slot.GetDefaultArgs argc)) ↔
    (argc > slot.GetArgCount ∨ argc < specMinArgc slot) := by
  have hle := specMinArgc_le slot
  rcases Nat.lt_trichotomy argc slot.GetArgCount with h | h | h
  · rw [computeMinArgc_eq_spec slot hwf argc h]
    constructor
    · rintro ⟨_, h2⟩; exact h2
    · intro h2; exact ⟨by omega, h2⟩
  · constructor
    · rintro ⟨h1, _⟩; exact absurd h h1
    · intro h2; omega
  · constructor
    · intro _; exact Or.inl h
    · intro _; exact ⟨by omega, Or.inl h⟩

theorem convertLoop_not_arityError (E : Engine) (owner : Option Nat)
    (arg_types : Option (List VariantType)) (default_args : Option (List Variant))
    (argv : List JSVal) (expected_argc n i k : Nat) (params : List Variant) :
    (convertLoop E owner arg_types default_args argv expected_argc i n params
      [.newParams k]).isArityError = false := by
  obtain ⟨tl, h⟩ := convertLoop_events_extend E owner arg_types default_args argv
    expected_argc n i params [.newParams k]
  unfold ArgsResult.isArityError
  rw [h]
  rfl

/-- C1: for a slot with metadata, `ConvertJSArgsToNative` rejects the call
with the arity error exactly when the supplied count exceeds the declared
count or is below the declared count less the trailing run of non-void
default values; the error reports the declared count as the expected one. -/
theorem convertJSArgsToNative_arity (E : Engine) (owner : Option Nat) (slot : Slot)
    (argc : Nat) (argv : List JSVal) (hmeta : slot.HasMetadata = true)
    (hwf : slot.WellFormed) :
    ((ConvertJSArgsToNative E owner slot argc argv).isArityError = true ↔
      (argc > slot.GetArgCount ∨ argc < specMinArgc slot)) ∧
    ((ConvertJSArgsToNative E owner slot argc argv).isArityError = true →
      (ConvertJSArgsToNative E owner slot argc argv).result = false ∧
      (ConvertJSArgsToNative E owner slot argc argv).params = none ∧
      ∃ at_least, (ConvertJSArgsToNative E owner slot argc argv).events =
        [.reportError (.wrongNumberOfArguments argc slot.GetArgCount at_least)]) := by
  have hiff := arity_condition_iff slot hwf argc
  unfold ConvertJSArgsToNative
  simp only [hmeta, if_true, true_and]
  by_cases hc : argc ≠ slot.GetArgCount ∧
      (argc > slot.GetArgCount ∨
        argc < computeMinArgc slot.GetArgCount slot.GetDefaultArgs argc)
  · rw [if_pos hc]
    refine ⟨⟨fun _ => hiff.mp hc, fun _ => rfl⟩, fun _ => ⟨rfl, rfl, _, rfl⟩⟩
  · rw [if_neg hc]
    have hspec : ¬ (argc > slot.GetArgCount ∨ argc < specMinArgc slot) :=
      fun h => hc (hiff.mpr h)
    split
    · rw [convertLoop_not_arityError]
      simp [hspec]
    · simp [ArgsResult.isArityError, hspec]

theorem threeParamSlot_wellFormed : threeParamSlot.WellFormed :=
  ⟨fun d h => (by cases h; rfl), fun t h => (by cases h; rfl)⟩

theorem zeroParamSlot_wellFormed : zeroParamSlot.WellFormed :=
  ⟨fun d h => (by cases h), fun t h => (by cases h)⟩

/-- Witness of C1: the three-parameter slot whose last two parameters have
default values accepts 1, 2 and 3 arguments and rejects 0 and 4; the
zero-parameter slot rejects one argument, reporting 0 as the expected count. -/
theorem convertJSArgsToNative_arity_witness :
    (threeParamSlot.HasMetadata = true ∧ threeParamSlot.WellFormed) ∧
    (ConvertJSArgsToNative sampleEngine none threeParamSlot 0 []).isArityError = true ∧
    (ConvertJSArgsToNative sampleEngine none threeParamSlot 1
      [.int 1]).isArityError ≠ true ∧
    (ConvertJSArgsToNative sampleEngine none threeParamSlot 2
      [.int 1, .void]).isArityError ≠ true ∧
    (ConvertJSArgsToNative sampleEngine none threeParamSlot 3
      [.int 1, .void, .void]).isArityError ≠ true ∧
    (ConvertJSArgsToNative sampleEngine none threeParamSlot 4
      [.int 1, .void, .void, .void]).isArityError = true ∧
    (∃ at_least, (ConvertJSArgsToNative sampleEngine none zeroParamSlot 1 [.int 1]).events =
      [.reportError (.wrongNumberOfArguments 1 0 at_least)]) :=
  ⟨⟨rfl, threeParamSlot_wellFormed⟩,
   (convertJSArgsToNative_arity sampleEngine none threeParamSlot 0 [] rfl
      threeParamSlot_wellFormed).1.mpr (by decide),
   fun h => absurd ((convertJSArgsToNative_arity sampleEngine none threeParamSlot 1
      [.int 1] rfl threeParamSlot_wellFormed).1.mp h) (by decide),
   fun h => absurd ((convertJSArgsToNative_arity sampleEngine none threeParamSlot 2
      [.int 1, .void] rfl threeParamSlot_wellFormed).1.mp h) (by decide),
   fun h => absurd ((convertJSArgsToNative_arity sampleEngine none threeParamSlot 3
      [.int 1, .void, .void] rfl threeParamSlot_wellFormed).1.mp h) (by decide),
   (convertJSArgsToNative_arity sampleEngine none threeParamSlot 4
      [.int 1, .void, .void, .void] rfl threeParamSlot_wellFormed).1.mpr (by decide),
   ((convertJSArgsToNative_arity sampleEngine none zeroParamSlot 1 [.int 1] rfl
      zeroParamSlot_wellFormed).2
     ((convertJSArgsToNative_arity sampleEngine none zeroParamSlot 1 [.int 1] rfl
      zeroParamSlot_wellFormed).1.mpr (by decide))).2.2⟩

theorem getD_set_void (l : List Variant) (i j : Nat) (a : Variant) :
    (l.set i a).getD j .void = if i = j ∧ i < l.length then a else l.getD j .void := by
  simp only [List.getD_eq_getElem?_getD, List.getElem?_set]
  by_cases h : i = j
  · subst h
    by_cases h2 : i < l.length
    · simp [h2]
    · simp [h2, List.getElem?_eq_none (Nat.le_of_not_lt h2)]
  · simp [h]

theorem fillDefaults_length (default_args : Option (List Variant)) :
    ∀ (n i : Nat) (params : List Variant),
      (fillDefaults default_args i n params).length = params.length := by
  intro n
  induction n with
  | zero => intro i params; rfl
  | succ n ih => intro i params; simp [fillDefaults, ih]

theorem fillDefaults_getD (default_args : Option (List Variant)) :
    ∀ (n i : Nat) (params : List Variant) (j : Nat), i + n ≤ params.length →
      (fillDefaults default_args i n params).getD j .void =
        if i ≤ j ∧ j < i + n then defaultAt default_args j else params.getD j .void := by
  intro n
  induction n with
  | zero =>
    intro i params j _
    have : ¬ (i ≤ j ∧ j < i + 0) := by omega
    rw [fillDefaults, if_neg this]
  | succ n ih =>
    intro i params j hlen
    rw [fillDefaults, ih (i + 1) _ j (by simp; omega), getD_set_void]
    by_cases h1 : i = j
    · subst h1
      have : ¬ (i + 1 ≤ i ∧ i < i + 1 + n) := by omega
      have h3 : i < params.length := by omega
      simp [this, h3, defaultAt]
    · by_cases h2 : i + 1 ≤ j ∧ j < i + 1 + n
      · have : i ≤ j ∧ j < i + (n + 1) := by omega
        simp [h2, this]
      · have : ¬ (i ≤ j ∧ j < i + (n + 1)) := by omega
        simp [h1, h2, this]

/-- The invariant of the conversion loop: when it succeeds from position `i`
with `n` positions left, all of them still void, the array keeps its length
and its entries outside `[i, i + n)`, and every entry inside is the default
value or the successful conversion of the argument. -/
theorem convertLoop_success (E : Engine) (owner : Option Nat)
    (arg_types : Option (List VariantType)) (default_args : Option (List Variant))
    (argv : List JSVal) (expected_argc : Nat) :
    ∀ (n i : Nat) (params : List Variant) (events : List Event),
      (convertLoop E owner arg_types default_args argv expected_argc
        i n params events).result = true →
      i + n ≤ params.length →
      (∀ j, i ≤ j → j < i + n → params.getD j .void = .void) →
      ∃ ps, (convertLoop E owner arg_types default_args argv expected_argc
          i n params events).params = some ps ∧
        ps.length = params.length ∧
        (∀ j, ¬ (i ≤ j ∧ j < i + n) → ps.getD j .void = params.getD j .void) ∧
        (∀ j, i ≤ j → j < i + n →
          (takesDefault default_args argv j = true →
            ps.getD j .void = defaultAt default_args j) ∧
          (takesDefault default_args argv j = false →
            convertArg E owner arg_types argv j = (true, ps.getD j .void))) := by
  intro n
  induction n with
  | zero =>
    intro i params events _ _ _
    refine ⟨params, by simp [convertLoop], rfl, fun _ _ => rfl, ?_⟩
    intro j h1 h2
    omega
  | succ n ih =>
    intro i params events hres hlen hvoid
    have hi : i < params.length := by omega
    have hvi : params.getD i .void = .void := hvoid i (le_refl _) (by omega)
    simp only [convertLoop] at hres ⊢
    by_cases htd : takesDefault default_args argv i = true
    · have htd2 := htd
      unfold takesDefault at htd2
      rw [if_pos htd2] at hres ⊢
      obtain ⟨ps, hps, hl, hout, hin⟩ := ih (i + 1) _ _ hres
        (by rw [List.length_set]; omega)
        (by
          intro j h1 h2
          rw [getD_set_void]
          have : ¬ (i = j ∧ i < params.length) := by omega
          rw [if_neg this]
          exact hvoid j (by omega) (by omega))
      refine ⟨ps, hps, by rw [hl, List.length_set], ?_, ?_⟩
      · intro j hj
        rw [hout j (by omega), getD_set_void]
        have : ¬ (i = j ∧ i < params.length) := by omega
        rw [if_neg this]
      · intro j h1 h2
        by_cases hji : j = i
        · subst hji
          constructor
          · intro _
            rw [hout j (by omega), getD_set_void]
            simp [hi, defaultAt]
          · intro hf
            rw [htd] at hf
            cases hf
        · exact hin j (by omega) (by omega)
    · have htd2 := htd
      unfold takesDefault at htd2
      rw [if_neg htd2] at hres ⊢
      rw [hvi] at hres ⊢
      change (if (convertArg E owner arg_types argv i).1 = true then _ else _ :
        ArgsResult).result = true at hres
      change ∃ ps, (if (convertArg E owner arg_types argv i).1 = true then _ else _ :
        ArgsResult).params = some ps ∧ _
      by_cases hr : (convertArg E owner arg_types argv i).1 = true
      · rw [if_pos hr] at hres ⊢
        obtain ⟨ps, hps, hl, hout, hin⟩ := ih (i + 1) _ _ hres
          (by rw [List.length_set]; omega)
          (by
            intro j h1 h2
            rw [getD_set_void]
            have : ¬ (i = j ∧ i < params.length) := by omega
            rw [if_neg this]
            exact hvoid j (by omega) (by omega))
        refine ⟨ps, hps, by rw [hl, List.length_set], ?_, ?_⟩
        · intro j hj
          rw [hout j (by omega), getD_set_void]
          have : ¬ (i = j ∧ i < params.length) := by omega
          rw [if_neg this]
        · intro j h1 h2
          by_cases hji : j = i
          · subst hji
            constructor
            · intro ht
              exact absurd ht htd
            · intro _
              rw [hout j (by omega), getD_set_void]
              simp only [hi, and_self, if_true]
              exact Prod.ext hr rfl
          · exact hin j (by omega) (by omega)
      · rw [if_neg hr] at hres
        cases hres

theorem replicate_getD_void (n j : Nat) :
    (List.replicate n Variant.void).getD j .void = .void := by
  rw [List.getD_eq_getElem?_getD]
  by_cases h : j < n
  · simp [List.getElem?_replicate, h]
  · simp [List.getElem?_replicate, h]

/-- C2: when `ConvertJSArgsToNative` succeeds for a slot with metadata, the
parameter array has the declared length; an entry past the supplied count is
the default value; an entry for a supplied undefined argument with a non-void
default value is that default value; every other entry is the successful
typed conversion of the argument, or the untyped one when no argument types
are declared. -/
theorem convertJSArgsToNative_params (E : Engine) (owner : Option Nat) (slot : Slot)
    (argc : Nat) (argv : List JSVal) (hmeta : slot.HasMetadata = true)
    (hres : (ConvertJSArgsToNative E owner slot argc argv).result = true) :
    (((ConvertJSArgsToNative E owner slot argc argv).params).getD []).length =
        slot.GetArgCount ∧
    (0 < slot.GetArgCount → (ConvertJSArgsToNative E owner slot argc argv).params ≠ none) ∧
    ∀ i, i < slot.GetArgCount →
      (argc ≤ i → ∃ d, slot.GetDefaultArgs = some d ∧
        (((ConvertJSArgsToNative E owner slot argc argv).params).getD []).getD i .void =
          d.getD i .void) ∧
      (i < argc → takesDefault slot.GetDefaultArgs argv i = true →
        ∃ d, slot.GetDefaultArgs = some d ∧
          (d.getD i .void).type ≠ .TYPE_VOID ∧ argv.getD i .void = .void ∧
          (((ConvertJSArgsToNative E owner slot argc argv).params).getD []).getD i .void =
            d.getD i .void) ∧
      (i < argc → takesDefault slot.GetDefaultArgs argv i = false →
        (∀ types, slot.GetArgTypes = some types →
          ConvertJSToNative E owner (Variant.ofType (types.getD i .TYPE_VOID))
            (argv.getD i .void) .void =
          (true, (((ConvertJSArgsToNative E owner slot argc argv).params).getD []).getD
            i .void)) ∧
        (slot.GetArgTypes = none →
          ConvertJSToNativeVariant E owner (argv.getD i .void) .void =
          (true, (((ConvertJSArgsToNative E owner slot argc argv).params).getD []).getD
            i .void))) := by
  unfold ConvertJSArgsToNative at hres ⊢
  simp only [hmeta, if_true, true_and] at hres ⊢
  by_cases hc : argc ≠ slot.GetArgCount ∧
      (argc > slot.GetArgCount ∨
        argc < computeMinArgc slot.GetArgCount slot.GetDefaultArgs argc)
  · rw [if_pos hc] at hres
    cases hres
  · rw [if_neg hc] at hres ⊢
    have hle : argc ≤ slot.GetArgCount := by
      by_contra h
      exact hc ⟨by omega, Or.inl (by omega)⟩
    by_cases hpos : 0 < slot.GetArgCount
    · rw [if_pos hpos] at hres ⊢
      have hfl : (fillDefaults slot.GetDefaultArgs argc (slot.GetArgCount - argc)
          (List.replicate slot.GetArgCount Variant.void)).length = slot.GetArgCount := by
        rw [fillDefaults_length, List.length_replicate]
      have hfg := fillDefaults_getD slot.GetDefaultArgs (slot.GetArgCount - argc) argc
        (List.replicate slot.GetArgCount Variant.void)
      obtain ⟨ps, hps, hl, hout, hin⟩ := convertLoop_success E owner slot.GetArgTypes
        slot.GetDefaultArgs argv slot.GetArgCount argc 0 _ _ hres
        (by rw [hfl]; omega)
        (by
          intro j _ h2
          rw [hfg j (by rw [List.length_replicate]; omega)]
          have : ¬ (argc ≤ j ∧ j < argc + (slot.GetArgCount - argc)) := by omega
          rw [if_neg this, replicate_getD_void])
      rw [hps]
      simp only [Option.getD_some]
      refine ⟨by rw [hl, hfl], fun _ => by simp, ?_⟩
      intro i hi
      refine ⟨?_, ?_, ?_⟩
      · intro hge
        have hlt : argc < slot.GetArgCount := by omega
        cases hd : slot.GetDefaultArgs with
        | none =>
          exfalso
          apply hc
          refine ⟨by omega, Or.inr ?_⟩
          rw [hd]
          exact hlt
        | some d =>
          refine ⟨d, rfl, ?_⟩
          rw [hout i (by omega), hfg i (by rw [List.length_replicate]; omega)]
          have : argc ≤ i ∧ i < argc + (slot.GetArgCount - argc) := by omega
          rw [if_pos this, hd]
          rfl
      · intro hlt htd
        have h1 := (hin i (Nat.zero_le _) (by omega)).1 htd
        cases hd : slot.GetDefaultArgs with
        | none =>
          rw [hd] at htd
          simp [takesDefault] at htd
        | some d =>
          rw [hd] at htd h1
          simp only [takesDefault, Bool.and_eq_true, bne_iff_ne, ne_eq] at htd
          refine ⟨d, rfl, htd.1, ?_, h1⟩
          have h3 := htd.2
          cases hv : argv.getD i JSVal.void <;> rw [hv] at h3 <;>
            simp [JSVAL_IS_VOID] at h3 ⊢
      · intro hlt htd
        have h1 := (hin i (Nat.zero_le _) (by omega)).2 htd
        constructor
        · intro types ht
          rw [← h1, ht]
          rfl
        · intro ht
          rw [← h1, ht]
          rfl
    · rw [if_neg hpos]
      simp only [Option.getD_none, List.length_nil]
      refine ⟨by omega, fun h => absurd h hpos, ?_⟩
      intro i hi
      omega

/-- Witness of C2: the three-parameter slot called with an integer and an
undefined argument succeeds with the array `[4, true, "dflt"]`. -/
theorem convertJSArgsToNative_params_witness :
    threeParamSlot.HasMetadata = true ∧
    (ConvertJSArgsToNative sampleEngine none threeParamSlot 2 [.int 4, .void]).result = true ∧
    (ConvertJSArgsToNative sampleEngine none threeParamSlot 2 [.int 4, .void]).params =
      some [.int64 4, .bool true, .string (some "dflt")] ∧
    (((ConvertJSArgsToNative sampleEngine none threeParamSlot 2
      [.int 4, .void]).params).getD []).length = threeParamSlot.GetArgCount :=
  ⟨rfl, by decide, by decide,
    (convertJSArgsToNative_params sampleEngine none threeParamSlot 2 [.int 4, .void] rfl
      (by decide)).1⟩

theorem freeLoop_eq_flatMap (ps : List Variant) :
    ∀ (n j : Nat), j + n ≤ ps.length →
      freeLoop ps j n = ((ps.drop j).take n).flatMap FreeNativeValue := by
  intro n
  induction n with
  | zero => intro j _; simp [freeLoop]
  | succ n ih =>
    intro j h
    have hj : j < ps.length := by omega
    rw [freeLoop, ih (j + 1) (by omega), List.drop_eq_getElem_cons hj, List.take_succ_cons,
      List.flatMap_cons, List.getD_eq_getElem ps Variant.void hj]

/-- The invariant of the conversion loop on failure: the loop stops at the
first position `k` whose conversion fails, every earlier entry holding its
default value or its successful conversion; it then frees the entries before
`k` in order, deletes the array and reports the error. -/
theorem convertLoop_failure (E : Engine) (owner : Option Nat)
    (arg_types : Option (List VariantType)) (default_args : Option (List Variant))
    (argv : List JSVal) (expected_argc : Nat) :
    ∀ (n i : Nat) (params : List Variant) (events : List Event),
      (convertLoop E owner arg_types default_args argv expected_argc
        i n params events).result = false →
      i + n ≤ params.length →
      (∀ j, i ≤ j → j < i + n → params.getD j .void = .void) →
      ∃ k ps mid, i ≤ k ∧ k < i + n ∧
        takesDefault default_args argv k = false ∧
        (convertArg E owner arg_types argv k).1 = false ∧
        ps.length = params.length ∧
        (∀ j, j < i → ps.getD j .void = params.getD j .void) ∧
        (∀ j, i ≤ j → j < k →
          (takesDefault default_args argv j = true →
            ps.getD j .void = defaultAt default_args j) ∧
          (takesDefault default_args argv j = false →
            convertArg E owner arg_types argv j = (true, ps.getD j .void))) ∧
        (∀ e ∈ mid, ∃ j, i ≤ j ∧ j < k ∧ e = Event.convert j) ∧
        (convertLoop E owner arg_types default_args argv expected_argc
          i n params events).params = none ∧
        (convertLoop E owner arg_types default_args argv expected_argc
          i n params events).events =
          events ++ mid ++ [.convert k] ++ freeLoop ps 0 k ++
            [.deleteParams, .reportError (.failedToConvertArgument k (argv.getD k .void))] := by
  intro n
  induction n with
  | zero =>
    intro i params events hres _ _
    simp [convertLoop] at hres
  | succ n ih =>
    intro i params events hres hlen hvoid
    have hi : i < params.length := by omega
    have hvi : params.getD i .void = .void := hvoid i (le_refl _) (by omega)
    simp only [convertLoop] at hres ⊢
    by_cases htd : takesDefault default_args argv i = true
    · have htd2 := htd
      unfold takesDefault at htd2
      rw [if_pos htd2] at hres ⊢
      obtain ⟨k, ps, mid, hk1, hk2, hk3, hk4, hl, hlow, hin, hmid, hp, he⟩ :=
        ih (i + 1) _ _ hres
          (by rw [List.length_set]; omega)
          (by
            intro j h1 h2
            rw [getD_set_void]
            have : ¬ (i = j ∧ i < params.length) := by omega
            rw [if_neg this]
            exact hvoid j (by omega) (by omega))
      refine ⟨k, ps, mid, by omega, by omega, hk3, hk4, by rw [hl, List.length_set],
        ?_, ?_, ?_, hp, he⟩
      · intro j hj
        rw [hlow j (by omega), getD_set_void]
        have : ¬ (i = j ∧ i < params.length) := by omega
        rw [if_neg this]
      · intro j h1 h2
        by_cases hji : j = i
        · subst hji
          constructor
          · intro _
            rw [hlow j (by omega), getD_set_void]
            simp [hi, defaultAt]
          · intro hf
            rw [htd] at hf
            cases hf
        · exact hin j (by omega) h2
      · intro e he2
        obtain ⟨j, h1, h2, h3⟩ := hmid e he2
        exact ⟨j, by omega, h2, h3⟩
    · have htd2 := htd
      unfold takesDefault at htd2
      rw [if_neg htd2] at hres ⊢
      rw [hvi] at hres ⊢
      change (if (convertArg E owner arg_types argv i).1 = true then _ else _ :
        ArgsResult).result = false at hres
      change ∃ k ps mid, _ ∧ _ ∧ _ ∧ _ ∧ _ ∧ _ ∧ _ ∧ _ ∧
        (if (convertArg E owner arg_types argv i).1 = true then _ else _ :
          ArgsResult).params = none ∧
        (if (convertArg E owner arg_types argv i).1 = true then _ else _ :
          ArgsResult).events = _
      by_cases hr : (convertArg E owner arg_types argv i).1 = true
      · rw [if_pos hr] at hres ⊢
        obtain ⟨k, ps, mid, hk1, hk2, hk3, hk4, hl, hlow, hin, hmid, hp, he⟩ :=
          ih (i + 1) _ _ hres
            (by rw [List.length_set]; omega)
            (by
              intro j h1 h2
              rw [getD_set_void]
              have : ¬ (i = j ∧ i < params.length) := by omega
              rw [if_neg this]
              exact hvoid j (by omega) (by omega))
        refine ⟨k, ps, Event.convert i :: mid, by omega, by omega, hk3, hk4,
          by rw [hl, List.length_set], ?_, ?_, ?_, hp, ?_⟩
        · intro j hj
          rw [hlow j (by omega), getD_set_void]
          have : ¬ (i = j ∧ i < params.length) := by omega
          rw [if_neg this]
        · intro j h1 h2
          by_cases hji : j = i
          · subst hji
            constructor
            · intro ht
              exact absurd ht htd
            · intro _
              rw [hlow j (by omega), getD_set_void]
              simp only [hi, and_self, if_true]
              exact Prod.ext hr rfl
          · exact hin j (by omega) h2
        · intro e he2
          rcases List.mem_cons.mp he2 with h | h
          · exact ⟨i, le_refl _, by omega, h⟩
          · obtain ⟨j, h1, h2, h3⟩ := hmid e h
            exact ⟨j, by omega, h2, h3⟩
        · rw [he]
          simp only [List.append_assoc, List.singleton_append, List.cons_append,
            List.nil_append]
      · rw [if_neg hr]
        refine ⟨i, params.set i (convertArg E owner arg_types argv i).2, [], le_refl _,
          by omega, by simpa using htd, by simpa using hr, by rw [List.length_set],
          ?_, ?_, ?_, rfl, ?_⟩
        · intro j hj
          rw [getD_set_void]
          have : ¬ (i = j ∧ i < params.length) := by omega
          rw [if_neg this]
        · intro j h1 h2
          omega
        · intro e he2
          cases he2
        · simp only [List.append_nil]
          rfl

theorem take_getD_void (ps : List Variant) (k j : Nat) (h : j < k) :
    (ps.take k).getD j .void = ps.getD j .void := by
  simp [List.getD_eq_getElem?_getD, List.getElem?_take, h]

/-- The part of `ConvertJSArgsToNative` after the arity test, when it fails. -/
theorem convertBody_failure (E : Engine) (owner : Option Nat)
    (arg_types : Option (List VariantType)) (default_args : Option (List Variant))
    (argv : List JSVal) (expected argc : Nat) (hle : argc ≤ expected) (r : ArgsResult)
    (hr : r = if 0 < expected then
        convertLoop E owner arg_types default_args argv expected 0 argc
          (fillDefaults default_args argc (expected - argc)
            (List.replicate expected .void))
          [.newParams expected]
      else ⟨true, none, expected, []⟩)
    (hres : r.result = false) :
    r.params = none ∧
    ∃ (k : Nat) (vs : List Variant) (mid : List Event), k < argc ∧ vs.length = k ∧
      (convertArg E owner arg_types argv k).1 = false ∧
      (∀ j, j < k →
        (takesDefault default_args argv j = true →
          vs.getD j .void = defaultAt default_args j) ∧
        (takesDefault default_args argv j = false →
          convertArg E owner arg_types argv j = (true, vs.getD j .void))) ∧
      (∀ e ∈ mid, ∃ j, j < k ∧ e = Event.convert j) ∧
      r.events =
        [.newParams expected] ++ mid ++ [.convert k] ++
          vs.flatMap FreeNativeValue ++
          [.deleteParams,
            .reportError (.failedToConvertArgument k (argv.getD k .void))] := by
  subst hr
  by_cases hpos : 0 < expected
  · rw [if_pos hpos] at hres ⊢
    obtain ⟨k, ps, mid, _, hk2, _, hk4, hl, _, hin, hmid, hp, he⟩ :=
      convertLoop_failure E owner _ _ argv _ argc 0 _ _ hres
        (by rw [fillDefaults_length, List.length_replicate]; omega)
        (by
          intro j _ h2
          rw [fillDefaults_getD _ _ _ _ j (by rw [List.length_replicate]; omega)]
          have : ¬ (argc ≤ j ∧ j < argc + (expected - argc)) := by omega
          rw [if_neg this, replicate_getD_void])
    rw [fillDefaults_length, List.length_replicate] at hl
    refine ⟨hp, k, ps.take k, mid, by omega, ?_, hk4, ?_, ?_, ?_⟩
    · rw [List.length_take]
      omega
    · intro j hj
      rw [take_getD_void ps k j hj]
      exact hin j (Nat.zero_le _) hj
    · intro e he2
      obtain ⟨j, _, h2, h3⟩ := hmid e he2
      exact ⟨j, h2, h3⟩
    · rw [he, freeLoop_eq_flatMap ps k 0 (by omega), List.drop_zero]
  · rw [if_neg hpos] at hres
    cases hres

/-- C3: a failing `ConvertJSArgsToNative` leaves `*params` NULL.  It either
reports the arity error and does nothing else (no array is allocated and no
argument converted), or it stops at the first position `k` whose conversion
fails, passes the values of the positions before `k` to `FreeNativeValue`,
each once and in order, deletes the array and reports the error. -/
theorem convertJSArgsToNative_failure (E : Engine) (owner : Option Nat) (slot : Slot)
    (argc : Nat) (argv : List JSVal)
    (hres : (ConvertJSArgsToNative E owner slot argc argv).result = false) :
    (ConvertJSArgsToNative E owner slot argc argv).params = none ∧
    ((∃ at_least, (ConvertJSArgsToNative E owner slot argc argv).events =
        [.reportError (.wrongNumberOfArguments argc slot.GetArgCount at_least)]) ∨
     (∃ (k : Nat) (vs : List Variant) (mid : List Event), k < argc ∧ vs.length = k ∧
        (convertArg E owner (argTypesOf slot) argv k).1 = false ∧
        (∀ j, j < k →
          (takesDefault (defaultArgsOf slot) argv j = true →
            vs.getD j .void = defaultAt (defaultArgsOf slot) j) ∧
          (takesDefault (defaultArgsOf slot) argv j = false →
            convertArg E owner (argTypesOf slot) argv j = (true, vs.getD j .void))) ∧
        (∀ e ∈ mid, ∃ j, j < k ∧ e = Event.convert j) ∧
        (ConvertJSArgsToNative E owner slot argc argv).events =
          [.newParams (expectedArgcOf slot argc)] ++ mid ++ [.convert k] ++
            vs.flatMap FreeNativeValue ++
            [.deleteParams,
              .reportError (.failedToConvertArgument k (argv.getD k .void))])) := by
  by_cases hc : slot.HasMetadata ∧ argc ≠ expectedArgcOf slot argc ∧
      (argc > expectedArgcOf slot argc ∨
        argc < computeMinArgc (expectedArgcOf slot argc) (defaultArgsOf slot) argc)
  · have heq : ConvertJSArgsToNative E owner slot argc argv =
        ⟨false, none, expectedArgcOf slot argc,
          [.reportError (.wrongNumberOfArguments argc (expectedArgcOf slot argc)
            (computeMinArgc (expectedArgcOf slot argc) (defaultArgsOf slot) argc))]⟩ :=
      if_pos hc
    rw [heq]
    refine ⟨rfl, Or.inl
      ⟨computeMinArgc (expectedArgcOf slot argc) (defaultArgsOf slot) argc, ?_⟩⟩
    simp only [expectedArgcOf, hc.1, if_true]
  · have heq : ConvertJSArgsToNative E owner slot argc argv =
        if 0 < expectedArgcOf slot argc then
          convertLoop E owner (argTypesOf slot) (defaultArgsOf slot) argv
            (expectedArgcOf slot argc) 0 argc
            (fillDefaults (defaultArgsOf slot) argc (expectedArgcOf slot argc - argc)
              (List.replicate (expectedArgcOf slot argc) .void))
            [.newParams (expectedArgcOf slot argc)]
        else ⟨true, none, expectedArgcOf slot argc, []⟩ :=
      if_neg hc
    have hle : argc ≤ expectedArgcOf slot argc := by
      by_cases hm : slot.HasMetadata = true
      · by_contra h
        exact hc ⟨hm, by omega, Or.inl (by omega)⟩
      · simp [expectedArgcOf, hm]
    obtain ⟨h1, h2⟩ := convertBody_failure E owner (argTypesOf slot) (defaultArgsOf slot)
      argv (expectedArgcOf slot argc) argc hle _ heq hres
    exact ⟨h1, Or.inr h2⟩

/-- Witness of C3: converting a function and a non-numeric string for a
slot taking a callback and an integer fails at position 1; the adapter made
for position 0 is freed and deleted once. -/
theorem convertJSArgsToNative_failure_witness :
    (ConvertJSArgsToNative sampleEngine none callbackSlot 2
      [.object 4, .string "abc"]).result = false ∧
    (ConvertJSArgsToNative sampleEngine none callbackSlot 2
      [.object 4, .string "abc"]).events =
      [.newParams 2, .convert 0, .convert 1,
        .freeNativeValue (.slot (some (.jsFunctionSlot none none 4))),
        .deleteSlot (some (.jsFunctionSlot none none 4)),
        .deleteParams,
        .reportError (.failedToConvertArgument 1 (.string "abc"))] ∧
    (ConvertJSArgsToNative sampleEngine none callbackSlot 2
      [.object 4, .string "abc"]).params = none :=
  ⟨by decide, by decide,
    (convertJSArgsToNative_failure sampleEngine none callbackSlot 2
      [.object 4, .string "abc"] (by decide)).1⟩

/-! ## Conversion to BOOL -/

theorem toNat_eq_zero_iff (c : Char) : c.toNat = 0 ↔ c = Char.ofNat 0 := by
  constructor
  · intro h
    rw [← Char.ofNat_toNat c, h]
  · intro h
    rw [h]
    rfl

theorem toLower_toNat_ne_zero (c : Char) (h : c.toNat ≠ 0) : c.toLower.toNat ≠ 0 := by
  unfold Char.toLower
  simp only
  split
  · rename_i h2
    obtain ⟨h3, h4⟩ := h2
    generalize c.toNat = n at *
    interval_cases n <;> decide
  · exact h

theorem toNat_injective (a b : Char) (h : a.toNat = b.toNat) : a = b := by
  rw [← Char.ofNat_toNat a, ← Char.ofNat_toNat b, h]

/-- On C strings (no NUL inside) `strcasecmp` returns 0 exactly when the two
strings are equal after lowering the case of every character. -/
theorem strcasecmp_eq_zero_iff :
    ∀ (a b : List Char), (∀ c ∈ a, c.toNat ≠ 0) → (∀ c ∈ b, c.toNat ≠ 0) →
      (strcasecmp a b = 0 ↔ a.map Char.toLower = b.map Char.toLower) := by
  intro a
  induction a with
  | nil =>
    intro b _ hb
    cases b with
    | nil => simp [strcasecmp]
    | cons y ys =>
      have h := toLower_toNat_ne_zero y (hb y (List.mem_cons_self _ _))
      simp only [strcasecmp, List.map_nil, List.map_cons]
      constructor
      · intro h0
        omega
      · intro h0
        cases h0
  | cons x xs ih =>
    intro b ha hb
    cases b with
    | nil =>
      have h := toLower_toNat_ne_zero x (ha x (List.mem_cons_self _ _))
      simp only [strcasecmp, List.map_nil, List.map_cons]
      constructor
      · intro h0
        omega
      · intro h0
        cases h0
    | cons y ys =>
      simp only [strcasecmp, List.map_cons]
      by_cases hxy : x.toLower = y.toLower
      · rw [if_pos hxy, ih ys (fun c hc => ha c (List.mem_cons_of_mem _ hc))
          (fun c hc => hb c (List.mem_cons_of_mem _ hc)), hxy]
        simp
      · rw [if_neg hxy]
        constructor
        · intro h0
          exfalso
          apply hxy
          apply toNat_injective
          omega
        · intro h0
          exact absurd (List.cons.inj h0).1 hxy

theorem cString_no_nul (s : String) : ∀ c ∈ cString s, c.toNat ≠ 0 := by
  intro c hc h0
  have h1 := List.mem_takeWhile_imp hc
  rw [(toNat_eq_zero_iff c).mp h0] at h1
  simp at h1

theorem cBytes_no_nul (bytes : List Char) : ∀ c ∈ cBytes bytes, c.toNat ≠ 0 := by
  intro c hc h0
  have h1 := List.mem_takeWhile_imp hc
  rw [(toNat_eq_zero_iff c).mp h0] at h1
  simp at h1

/-- A string of characters below U+0100 is deflated to itself. -/
theorem getStringBytes_latin1 (cs : List Char) (h : ∀ c ∈ cs, c.toNat < 256) :
    (cs.flatMap utf16Units).map (fun unit => Char.ofNat (unit % 256)) = cs := by
  induction cs with
  | nil => rfl
  | cons c cs ih =>
    have hc := h c (List.mem_cons_self _ _)
    have hu : utf16Units c = [c.toNat] := by
      unfold utf16Units
      rw [if_pos (by omega)]
    rw [List.flatMap_cons, hu, List.map_append, ih (fun d hd => h d (List.mem_cons_of_mem _ hd))]
    simp only [List.map_cons, List.map_nil, List.singleton_append, List.cons.injEq, and_true]
    rw [Nat.mod_eq_of_lt hc, Char.ofNat_toNat]

/-- The result of the test `*bytes && strcasecmp(bytes, "false") != 0` on a
C string. -/
theorem bool_of_bytes (bytes : List Char) (h : ∀ c ∈ bytes, c.toNat ≠ 0) :
    (!bytes.isEmpty && strcasecmp bytes "false".toList != 0) =
      decide (¬ (bytes = [] ∨ bytes.map Char.toLower = "false".toList)) := by
  have hiff := strcasecmp_eq_zero_iff bytes "false".toList h (by decide)
  have hmap : List.map Char.toLower "false".toList = "false".toList := by decide
  rw [hmap] at hiff
  generalize "false".toList = F at hiff ⊢
  cases bytes with
  | nil => simp
  | cons x xs =>
    by_cases h0 : strcasecmp (x :: xs) F = 0
    · have := hiff.mp h0
      simp [h0, this]
    · have h2 : ¬ (x.toLower :: List.map Char.toLower xs = F) :=
        fun h => h0 (hiff.mpr (by simpa using h))
      simp [h0, h2]

/-- C4 (as the code has it): a script string converts to BOOL `false` exactly
when the bytes that `JS_GetStringBytes` gives for it, the low byte of each of
its UTF-16 code units, read up to the first zero byte, are empty or equal
`"false"` ignoring case, and to `true` otherwise; for a string of characters
from U+0001 to U+00FF these bytes are the string itself, so such a string
gives `false` exactly when it is empty or equals `"false"` ignoring case,
and `"0"` gives `true`.  Every other input converts to the engine's
truthiness of the input, so the boolean `false` gives `false`. -/
theorem convertJSToNativeBool_spec :
    (∀ (s : String) (old : Variant),
      ConvertJSToNativeBool (.string s) old =
        (true, .bool (decide (¬ (cBytes (JS_GetStringBytes s) = [] ∨
          (cBytes (JS_GetStringBytes s)).map Char.toLower = "false".toList))))) ∧
    (∀ (s : String), (∀ c ∈ s.toList, c ≠ Char.ofNat 0 ∧ c.toNat < 256) →
      cBytes (JS_GetStringBytes s) = s.toList) ∧
    (∀ (s : String) (old : Variant), (∀ c ∈ s.toList, c ≠ Char.ofNat 0 ∧ c.toNat < 256) →
      ConvertJSToNativeBool (.string s) old =
        (true, .bool (decide (¬ (s.toList = [] ∨
          s.toList.map Char.toLower = "false".toList))))) ∧
    (∀ (v : JSVal) (old : Variant), JSVAL_IS_STRING v = false →
      ∃ b, JS_ValueToBoolean v = some b ∧ ConvertJSToNativeBool v old = (true, .bool b)) ∧
    (∀ old, ConvertJSToNativeBool (.string "0") old = (true, .bool true)) ∧
    (∀ old, ConvertJSToNativeBool (.string "False") old = (true, .bool false)) ∧
    (∀ old, ConvertJSToNativeBool (.boolean false) old = (true, .bool false)) ∧
    (∀ old, ConvertJSToNativeBool (.string (String.mk [Char.ofNat 0x100])) old =
      (true, .bool false)) ∧
    (∀ old, ConvertJSToNativeBool
      (.string (String.mk [Char.ofNat 0x166, 'a', 'l', 's', 'e'])) old =
      (true, .bool false)) := by
  have h1 : ∀ (s : String) (old : Variant),
      ConvertJSToNativeBool (.string s) old =
        (true, .bool (decide (¬ (cBytes (JS_GetStringBytes s) = [] ∨
          (cBytes (JS_GetStringBytes s)).map Char.toLower = "false".toList)))) := by
    intro s old
    simp only [ConvertJSToNativeBool]
    rw [bool_of_bytes _ (cBytes_no_nul _)]
  have h2 : ∀ (s : String), (∀ c ∈ s.toList, c ≠ Char.ofNat 0 ∧ c.toNat < 256) →
      cBytes (JS_GetStringBytes s) = s.toList := by
    intro s hs
    unfold JS_GetStringBytes JS_GetStringChars
    rw [getStringBytes_latin1 s.toList (fun c hc => (hs c hc).2)]
    unfold cBytes
    rw [List.takeWhile_eq_self_iff]
    intro c hc
    simpa using (hs c hc).1
  refine ⟨h1, h2, ?_, ?_, ?_, ?_, ?_, ?_, ?_⟩
  · intro s old hs
    rw [h1, h2 s hs]
  · intro v old hv
    cases v with
    | string s => simp [JSVAL_IS_STRING] at hv
    | void => exact ⟨false, rfl, rfl⟩
    | null => exact ⟨false, rfl, rfl⟩
    | boolean b => exact ⟨b, rfl, rfl⟩
    | int i => exact ⟨i != 0, rfl, rfl⟩
    | object o => exact ⟨true, rfl, rfl⟩
    | double d =>
      cases d with
      | nan => exact ⟨false, rfl, rfl⟩
      | inf n => exact ⟨true, rfl, rfl⟩
      | fin m e => exact ⟨m != 0, rfl, rfl⟩
  · intro old
    simp only [ConvertJSToNativeBool]
    decide
  · intro old
    simp only [ConvertJSToNativeBool]
    decide
  · intro old; rfl
  · intro old
    simp only [ConvertJSToNativeBool]
    decide
  · intro old
    simp only [ConvertJSToNativeBool]
    decide

/-- Counterexample to C4 as stated: the one-character string made of the NUL
character is neither empty nor equal to `"false"` ignoring case, yet converts
to `false`. -/
theorem convertJSToNativeBool_nul_counterexample :
    ¬ (∀ (s : String) (old : Variant),
      ConvertJSToNativeBool (.string s) old =
        (true, .bool (decide (¬ (s = "" ∨
          s.toList.map Char.toLower = "false".toList))))) := by
  intro h
  have h1 := h (String.mk [Char.ofNat 0]) .void
  revert h1
  decide

/-- Witness of C4: the string `"0"` has no NUL character and no character
above U+00FF, so all of it is compared as it is. -/
theorem convertJSToNativeBool_spec_witness :
    (∀ c ∈ "0".toList, c ≠ Char.ofNat 0 ∧ c.toNat < 256) ∧
    cBytes (JS_GetStringBytes "0") = "0".toList ∧
    ConvertJSToNativeBool (.string "0") .void = (true, .bool true) :=
  ⟨by decide, convertJSToNativeBool_spec.2.1 "0" (by decide),
    (convertJSToNativeBool_spec.2.2.1 "0" .void (by decide)).trans (by decide)⟩

/-! ## Conversion to INT and DOUBLE -/

/-- The function `roundFinite` returns a nearest integer: for a negative
exponent, the result times `2 ^ (-e)` is within half a unit of `m`. -/
theorem roundFinite_nearest (m e : Int) (he : e < 0) :
    -(2 ^ (-e).toNat : Int) ≤ 2 * (roundFinite m e * 2 ^ (-e).toNat - m) ∧
    2 * (roundFinite m e * 2 ^ (-e).toNat - m) ≤ 2 ^ (-e).toNat := by
  unfold roundFinite
  have hne : ¬ (0 ≤ e) := by omega
  rw [if_neg hne]
  simp only
  generalize hD : (2 : Nat) ^ (-e).toNat = D
  have hDpos : 0 < D := by rw [← hD]; positivity
  have hcast : ((2 : Int) ^ (-e).toNat) = (D : Int) := by rw [← hD]; push_cast; rfl
  rw [hcast]
  have hA1 : 0 ≤ m → (m.natAbs : Int) = m := fun h => Int.natAbs_of_nonneg h
  have hA2 : ¬ 0 ≤ m → (m.natAbs : Int) = -m := fun h => by omega
  generalize m.natAbs = A at hA1 hA2 ⊢
  have h1 := Nat.div_mul_le_self (2 * A + D) (2 * D)
  have h2 := Nat.lt_div_mul_add (a := 2 * A + D) (b := 2 * D) (by omega)
  generalize (2 * A + D) / (2 * D) = q at h1 h2 ⊢
  have h1z : 2 * ((q : Int) * (D : Int)) ≤ 2 * (A : Int) + (D : Int) := by
    have h := h1
    zify at h
    linarith
  have h2z : 2 * (A : Int) + (D : Int) < 2 * ((q : Int) * (D : Int)) + 2 * (D : Int) := by
    have h := h2
    zify at h
    linarith
  generalize hX : (q : Int) * (D : Int) = X at h1z h2z
  by_cases hm : 0 ≤ m
  · rw [if_pos hm, hX]
    have := hA1 hm
    omega
  · rw [if_neg hm]
    have := hA2 hm
    have hneg : -(q : Int) * (D : Int) = -X := by rw [← hX]; ring
    rw [hneg]
    omega

/-- On a halfway case `roundFinite` goes away from zero. -/
theorem roundFinite_away (m e : Int) (he : e < 0) :
    (0 ≤ m → -(2 ^ (-e).toNat : Int) < 2 * (roundFinite m e * 2 ^ (-e).toNat - m)) ∧
    (m < 0 → 2 * (roundFinite m e * 2 ^ (-e).toNat - m) < 2 ^ (-e).toNat) := by
  unfold roundFinite
  have hne : ¬ (0 ≤ e) := by omega
  rw [if_neg hne]
  simp only
  generalize hD : (2 : Nat) ^ (-e).toNat = D
  have hDpos : 0 < D := by rw [← hD]; positivity
  have hcast : ((2 : Int) ^ (-e).toNat) = (D : Int) := by rw [← hD]; push_cast; rfl
  rw [hcast]
  have hA1 : 0 ≤ m → (m.natAbs : Int) = m := fun h => Int.natAbs_of_nonneg h
  have hA2 : ¬ 0 ≤ m → (m.natAbs : Int) = -m := fun h => by omega
  generalize m.natAbs = A at hA1 hA2 ⊢
  have h1 := Nat.div_mul_le_self (2 * A + D) (2 * D)
  have h2 := Nat.lt_div_mul_add (a := 2 * A + D) (b := 2 * D) (by omega)
  generalize (2 * A + D) / (2 * D) = q at h1 h2 ⊢
  have h1z : 2 * ((q : Int) * (D : Int)) ≤ 2 * (A : Int) + (D : Int) := by
    have h := h1
    zify at h
    linarith
  have h2z : 2 * (A : Int) + (D : Int) < 2 * ((q : Int) * (D : Int)) + 2 * (D : Int) := by
    have h := h2
    zify at h
    linarith
  generalize hX : (q : Int) * (D : Int) = X at h1z h2z
  by_cases hm : 0 ≤ m
  · rw [if_pos hm, hX]
    have := hA1 hm
    exact ⟨fun _ => by omega, fun h => by omega⟩
  · rw [if_neg hm]
    have := hA2 hm
    have hneg : -(q : Int) * (D : Int) = -X := by rw [← hX]; ring
    rw [hneg]
    exact ⟨fun h => by omega, fun _ => by omega⟩

/-- C5, amended: typed conversion to INT.  Null and undefined give 0 and a
script integer gives itself.  Any other input is coerced to a number; the
conversion fails, leaving the output unwritten, exactly when the coercion
fails or gives NaN; when the number is finite and its nearest integer,
halfway cases away from zero, lies in the range of `int64_t`, the conversion
gives that integer. -/
theorem convertJSToNativeInt_spec (E : Engine) :
    (∀ old, ConvertJSToNativeInt E .null old = (true, .int64 0)) ∧
    (∀ old, ConvertJSToNativeInt E .void old = (true, .int64 0)) ∧
    (∀ i old, ConvertJSToNativeInt E (.int i) old = (true, .int64 i)) ∧
    (∀ v old, JSVAL_IS_NULL v = false → JSVAL_IS_VOID v = false → JSVAL_IS_INT v = false →
      (((ConvertJSToNativeInt E v old).1 = false ↔
        (JS_ValueToNumber E v = none ∨ JS_ValueToNumber E v = some .nan)) ∧
       ((ConvertJSToNativeInt E v old).1 = false → (ConvertJSToNativeInt E v old).2 = old) ∧
       (∀ d, JS_ValueToNumber E v = some d → d ≠ .nan →
          ConvertJSToNativeInt E v old = (true, .int64 (roundToInt64 d))))) ∧
    (∀ m e, INT64_MIN ≤ roundFinite m e → roundFinite m e ≤ INT64_MAX →
      roundToInt64 (.fin m e) = roundFinite m e) ∧
    (∀ m e, 0 ≤ e → roundFinite m e = m * 2 ^ e.toNat) ∧
    (∀ m e, e < 0 →
      -(2 ^ (-e).toNat : Int) ≤ 2 * (roundFinite m e * 2 ^ (-e).toNat - m) ∧
      2 * (roundFinite m e * 2 ^ (-e).toNat - m) ≤ 2 ^ (-e).toNat) ∧
    (∀ v old m e, JSVAL_IS_NULL v = false → JSVAL_IS_VOID v = false →
      JSVAL_IS_INT v = false → JS_ValueToNumber E v = some (.fin m e) →
      INT64_MIN ≤ roundFinite m e → roundFinite m e ≤ INT64_MAX →
      ConvertJSToNativeInt E v old = (true, .int64 (roundFinite m e))) ∧
    (∀ m e, e < 0 →
      (0 ≤ m → -(2 ^ (-e).toNat : Int) < 2 * (roundFinite m e * 2 ^ (-e).toNat - m)) ∧
      (m < 0 → 2 * (roundFinite m e * 2 ^ (-e).toNat - m) < 2 ^ (-e).toNat)) := by
  refine ⟨fun _ => rfl, fun _ => rfl, fun _ _ => rfl, ?_, ?_, ?_, roundFinite_nearest, ?_,
    roundFinite_away⟩
  · intro v old h1 h2 h3
    unfold ConvertJSToNativeInt
    simp only [h1, h2, h3, Bool.or_self, Bool.false_eq_true, if_false]
    cases hn : JS_ValueToNumber E v with
    | none => simp
    | some d =>
      cases d with
      | nan => simp [JSDouble.isnan]
      | inf n => simp [JSDouble.isnan]
      | fin m e => simp [JSDouble.isnan]
  · intro m e h1 h2
    simp [roundToInt64, h1, h2]
  · intro m e he
    simp [roundFinite, he]
  · intro v old m e h1 h2 h3 hn hlo hhi
    unfold ConvertJSToNativeInt
    simp [h1, h2, h3, hn, JSDouble.isnan, roundToInt64, hlo, hhi]

/-- Counterexample to C5 as stated: the number `2 ^ 63` and the positive
infinity are not NaN, so their conversion succeeds, but no value of
`int64_t` is the integer nearest to `2 ^ 63`, which is `2 ^ 63` itself, and
no integer is nearest to an infinity. -/
theorem convertJSToNativeInt_range_counterexample :
    (ConvertJSToNativeInt sampleEngine (.double (.fin 1 63)) .void).1 = true ∧
    roundFinite 1 63 = 2 ^ 63 ∧
    (∀ x : Int, INT64_MIN ≤ x → x ≤ INT64_MAX → x ≠ roundFinite 1 63) ∧
    ConvertJSToNativeInt sampleEngine (.double (.fin 1 63)) .void =
      (true, .int64 INT64_MIN) ∧
    ConvertJSToNativeInt sampleEngine (.double (.inf false)) .void =
      (true, .int64 INT64_MIN) := by
  refine ⟨by decide, by decide, ?_, by decide, by decide⟩
  intro x h1 h2 h3
  have h4 : roundFinite 1 63 = 2 ^ 63 := by decide
  rw [h4] at h3
  unfold INT64_MAX at h2
  omega

/-- Witness of C5: the string `"7"` converts to 7, the string `"abc"` and
the floating NaN fail, and 5/2 rounds away from zero to 3. -/
theorem convertJSToNativeInt_spec_witness :
    ConvertJSToNativeInt sampleEngine (.string "7") .void = (true, .int64 7) ∧
    ((ConvertJSToNativeInt sampleEngine (.string "abc") .void).1 = false ↔
      (JS_ValueToNumber sampleEngine (.string "abc") = none ∨
        JS_ValueToNumber sampleEngine (.string "abc") = some .nan)) ∧
    (ConvertJSToNativeInt sampleEngine (.double .nan) .void).1 = false ∧
    ConvertJSToNativeInt sampleEngine (.double (.fin 5 (-1))) .void = (true, .int64 3) ∧
    ConvertJSToNativeInt sampleEngine (.double (.fin (-5) (-1))) .void =
      (true, .int64 (-3)) :=
  ⟨by decide,
    ((convertJSToNativeInt_spec sampleEngine).2.2.2.1 (.string "abc") .void rfl rfl rfl).1,
    by decide,
    ((convertJSToNativeInt_spec sampleEngine).2.2.2.2.2.2.2.1 (.double (.fin 5 (-1))) .void
      5 (-1) rfl rfl rfl rfl (by decide) (by decide)).trans (by decide),
    ((convertJSToNativeInt_spec sampleEngine).2.2.2.2.2.2.2.1 (.double (.fin (-5) (-1))) .void
      (-5) (-1) rfl rfl rfl rfl (by decide) (by decide)).trans (by decide)⟩

/-- C6: typed conversion to DOUBLE.  Null and undefined give 0.0.  An input
that coerces to NaN succeeds with NaN when it is itself a floating script
number and fails, leaving the output unwritten, when it is anything else;
an input that coerces to another number gives that number.  Conversion to
INT fails on NaN in both cases. -/
theorem convertJSToNativeDouble_spec (E : Engine) :
    (∀ old, ConvertJSToNativeDouble E .null old = (true, .double (.fin 0 0))) ∧
    (∀ old, ConvertJSToNativeDouble E .void old = (true, .double (.fin 0 0))) ∧
    (∀ v old, JS_ValueToNumber E v = some .nan → JSVAL_IS_DOUBLE v = true →
      ConvertJSToNativeDouble E v old = (true, .double .nan)) ∧
    (∀ v old, JS_ValueToNumber E v = some .nan → JSVAL_IS_DOUBLE v = false →
      JSVAL_IS_NULL v = false → JSVAL_IS_VOID v = false →
      ConvertJSToNativeDouble E v old = (false, old)) ∧
    (∀ v old d, JS_ValueToNumber E v = some d → d ≠ .nan →
      JSVAL_IS_NULL v = false → JSVAL_IS_VOID v = false →
      ConvertJSToNativeDouble E v old = (true, .double d)) ∧
    (∀ v old, JS_ValueToNumber E v = some .nan →
      JSVAL_IS_NULL v = false → JSVAL_IS_VOID v = false →
      ConvertJSToNativeInt E v old = (false, old)) ∧
    (∀ old, ConvertJSToNativeDouble E (.double .nan) old = (true, .double .nan)) ∧
    (∀ old, ConvertJSToNativeInt E (.double .nan) old = (false, old)) := by
  refine ⟨fun _ => rfl, fun _ => rfl, ?_, ?_, ?_, ?_, fun _ => rfl, fun _ => rfl⟩
  · intro v old hn hd
    cases v <;> simp [JSVAL_IS_DOUBLE] at hd
    simp only [JS_ValueToNumber, Option.some.injEq] at hn
    subst hn
    rfl
  · intro v old hn hd h1 h2
    unfold ConvertJSToNativeDouble
    simp [h1, h2, hn, hd, JSDouble.isnan]
  · intro v old d hn hd h1 h2
    unfold ConvertJSToNativeDouble
    cases d with
    | nan => exact absurd rfl hd
    | inf n => simp [h1, h2, hn, JSDouble.isnan]
    | fin m e => simp [h1, h2, hn, JSDouble.isnan]
  · intro v old hn h1 h2
    unfold ConvertJSToNativeInt
    cases v <;> simp_all [JSVAL_IS_NULL, JSVAL_IS_VOID, JSVAL_IS_INT, JS_ValueToNumber,
      JSDouble.isnan]

/-- Witness of C6: the non-numeric string `"abc"` coerces to NaN and is
rejected, while the floating NaN is accepted. -/
theorem convertJSToNativeDouble_spec_witness :
    JS_ValueToNumber sampleEngine (.string "abc") = some .nan ∧
    ConvertJSToNativeDouble sampleEngine (.string "abc") (.bool true) = (false, .bool true) ∧
    ConvertJSToNativeDouble sampleEngine (.double .nan) .void = (true, .double .nan) :=
  ⟨by decide,
    (convertJSToNativeDouble_spec sampleEngine).2.2.2.1 (.string "abc") (.bool true)
      (by decide) rfl rfl rfl,
    (convertJSToNativeDouble_spec sampleEngine).2.2.1 (.double .nan) .void rfl rfl⟩

/-! ## Conversion to STRING, SCRIPTABLE and DATE -/

/-- C7: typed conversion to STRING succeeds on undefined with a STRING value
holding the empty string and on null with a STRING value holding the NULL
pointer; a nullity test on the payload tells the two apart. -/
theorem convertJSToNativeString_void_null (E : Engine) (old : Variant) :
    ConvertJSToNativeString E .void old = (true, .string (some "")) ∧
    ConvertJSToNativeString E .null old = (true, .string none) ∧
    (ConvertJSToNativeString E .void old).2.type = .TYPE_STRING ∧
    (ConvertJSToNativeString E .null old).2.type = .TYPE_STRING ∧
    (ConvertJSToNativeString E .void old).2.stringValue.isSome = true ∧
    (ConvertJSToNativeString E .null old).2.stringValue.isSome = false ∧
    ConvertJSToNative E none (Variant.ofType .TYPE_STRING) .void old =
      (true, .string (some "")) ∧
    ConvertJSToNative E none (Variant.ofType .TYPE_STRING) .null old =
      (true, .string none) :=
  ⟨rfl, rfl, rfl, rfl, rfl, rfl, rfl, rfl⟩

/-- C8: typed conversion to SCRIPTABLE or CONST_SCRIPTABLE.  Null, undefined
and the integer 0 give a null reference; a script object gives the native
object it wraps when it is a registered wrapper and a new adapter around it
otherwise; a boolean, a non-zero integer, a floating number and a string
fail and leave the output unwritten. -/
theorem convertJSToScriptable_spec (E : Engine) (old : Variant) :
    ConvertJSToScriptable E .null old = (true, .scriptable none) ∧
    ConvertJSToScriptable E .void old = (true, .scriptable none) ∧
    ConvertJSToScriptable E (.int 0) old = (true, .scriptable none) ∧
    (∀ o n, E.unwrap o = some n →
      ConvertJSToScriptable E (.object o) old = (true, .scriptable (some n))) ∧
    (∀ o, E.unwrap o = none →
      ConvertJSToScriptable E (.object o) old =
        (true, .scriptable (some (.jsNativeWrapper o)))) ∧
    (∀ b, ConvertJSToScriptable E (.boolean b) old = (false, old)) ∧
    (∀ i, i ≠ 0 → ConvertJSToScriptable E (.int i) old = (false, old)) ∧
    (∀ d, ConvertJSToScriptable E (.double d) old = (false, old)) ∧
    (∀ s, ConvertJSToScriptable E (.string s) old = (false, old)) ∧
    (∀ owner v, ConvertJSToNative E owner (Variant.ofType .TYPE_SCRIPTABLE) v old =
      ConvertJSToScriptable E v old) ∧
    (∀ owner v, ConvertJSToNative E owner (Variant.ofType .TYPE_CONST_SCRIPTABLE) v old =
      ConvertJSToScriptable E v old) := by
  refine ⟨rfl, rfl, rfl, ?_, ?_, fun _ => rfl, ?_, fun _ => rfl, fun _ => rfl,
    fun _ _ => rfl, fun _ _ => rfl⟩
  · intro o n h
    simp [ConvertJSToScriptable, h]
  · intro o h
    simp [ConvertJSToScriptable, h]
  · intro i hi
    simp [ConvertJSToScriptable, hi]

/-- Witness of C8: object 3 is a registered wrapper of the native object 30,
object 2 is not a wrapper, and the integer 5 is rejected. -/
theorem convertJSToScriptable_spec_witness :
    sampleEngine.unwrap 3 = some (.native 30) ∧
    ConvertJSToScriptable sampleEngine (.object 3) .void =
      (true, .scriptable (some (.native 30))) ∧
    ConvertJSToScriptable sampleEngine (.object 2) .void =
      (true, .scriptable (some (.jsNativeWrapper 2))) ∧
    ConvertJSToScriptable sampleEngine (.int 5) (.bool true) = (false, .bool true) :=
  ⟨by decide,
    (convertJSToScriptable_spec sampleEngine .void).2.2.2.1 3 (.native 30) (by decide),
    (convertJSToScriptable_spec sampleEngine .void).2.2.2.2.1 2 (by decide),
    (convertJSToScriptable_spec sampleEngine (.bool true)).2.2.2.2.2.2.1 5 (by decide)⟩

/-- C9 (the code at the failing input): object 1 is of class `Date`, its
`getTime` returns 7 and its numeric value is 5; `ConvertJSToNativeDate`
calls `getTime` and then converts the object itself, so it stores 5. -/
theorem convertJSToNativeDate_ignores_getTime :
    sampleEngine.className 1 = some "Date" ∧
    sampleEngine.callGetTime 1 = some (.int 7) ∧
    JS_ValueToNumber sampleEngine (.object 1) = some (.fin 5 0) ∧
    ConvertJSToNativeDate sampleEngine (.object 1) .void = (true, .date 5) ∧
    ConvertJSToNativeDate sampleEngine (.object 1) .void ≠ (true, .date 7) := by
  decide

/-! ## Untyped conversion -/

/-- Conversion of an object to DATE succeeds exactly when the object is of
class `Date`, the call of `getTime` succeeds and the numeric value of the
object is a number; the result is then a DATE value. -/
theorem convertJSToNativeDate_object (E : Engine) (o : Nat) (old : Variant) :
    ((ConvertJSToNativeDate E (.object o) old).1 = true ↔
      (E.className o = some "Date" ∧ (E.callGetTime o).isSome = true ∧
        ∃ d, E.objectToNumber o = some d ∧ d.isnan = false)) ∧
    ((ConvertJSToNativeDate E (.object o) old).1 = true →
      (ConvertJSToNativeDate E (.object o) old).2.type = .TYPE_DATE) ∧
    ((ConvertJSToNativeDate E (.object o) old).1 = false →
      (ConvertJSToNativeDate E (.object o) old).2 = old) := by
  unfold ConvertJSToNativeDate
  simp only [JSVAL_IS_VOID, JSVAL_IS_OBJECT, JSVAL_IS_NULL, Bool.false_eq_true, if_false,
    Bool.not_true, Bool.or_self]
  cases hc : E.className o with
  | none => simp
  | some name =>
    by_cases hn : name = "Date"
    · subst hn
      cases hg : E.callGetTime o with
      | none => simp
      | some rval =>
        cases hv : E.objectToNumber o with
        | none =>
          simp [ConvertJSToNativeInt, JSVAL_IS_NULL, JSVAL_IS_VOID, JSVAL_IS_INT,
            JS_ValueToNumber, hv]
        | some d =>
          cases d <;>
            simp [ConvertJSToNativeInt, JSVAL_IS_NULL, JSVAL_IS_VOID, JSVAL_IS_INT,
              JS_ValueToNumber, hv, JSDouble.isnan, Variant.type]
    · simp [hn]

/-- C10: the untyped conversion classifies a script value by its dynamic
kind.  Null and undefined give VOID, a boolean gives BOOL, an integer gives
INT, a floating number gives DOUBLE and a string gives STRING, each holding
the value; an object gives the DATE value of the conversion to DATE when
that conversion succeeds, and otherwise the SCRIPTABLE value of the
conversion to SCRIPTABLE, which succeeds.  Typed conversion to a VARIANT
target is the untyped conversion. -/
theorem convertJSToNativeVariant_classifies (E : Engine) (owner : Option Nat)
    (old : Variant) :
    ConvertJSToNativeVariant E owner .void old = (true, .void) ∧
    ConvertJSToNativeVariant E owner .null old = (true, .void) ∧
    (∀ b, ConvertJSToNativeVariant E owner (.boolean b) old = (true, .bool b)) ∧
    (∀ i, ConvertJSToNativeVariant E owner (.int i) old = (true, .int64 i)) ∧
    (∀ d, ConvertJSToNativeVariant E owner (.double d) old = (true, .double d)) ∧
    (∀ s, ConvertJSToNativeVariant E owner (.string s) old = (true, .string (some s))) ∧
    (∀ o, (ConvertJSToNativeDate E (.object o) old).1 = true →
      ConvertJSToNativeVariant E owner (.object o) old =
        ConvertJSToNativeDate E (.object o) old ∧
      (ConvertJSToNativeVariant E owner (.object o) old).1 = true ∧
      (ConvertJSToNativeVariant E owner (.object o) old).2.type = .TYPE_DATE) ∧
    (∀ o, (ConvertJSToNativeDate E (.object o) old).1 = false →
      ConvertJSToNativeVariant E owner (.object o) old =
        ConvertJSToScriptable E (.object o) old ∧
      (ConvertJSToNativeVariant E owner (.object o) old).1 = true ∧
      (ConvertJSToNativeVariant E owner (.object o) old).2.type = .TYPE_SCRIPTABLE) ∧
    (∀ v, ConvertJSToNative E owner (Variant.ofType .TYPE_VARIANT) v old =
      ConvertJSToNativeVariant E owner v old) := by
  refine ⟨rfl, rfl, fun _ => rfl, fun _ => rfl, ?_, fun _ => rfl, ?_, ?_, fun _ => rfl⟩
  · intro d
    cases d <;> rfl
  · intro o h
    have h2 := (convertJSToNativeDate_object E o old).2.1 h
    have h3 : ConvertJSToNativeVariant E owner (.object o) old =
        ConvertJSToNativeDate E (.object o) old := by
      simp only [ConvertJSToNativeVariant, JSVAL_IS_VOID, JSVAL_IS_NULL, JSVAL_IS_BOOLEAN,
        JSVAL_IS_INT, JSVAL_IS_DOUBLE, JSVAL_IS_STRING, JSVAL_IS_OBJECT, Bool.or_self,
        Bool.false_eq_true, if_false, if_true]
      generalize ConvertJSToNativeDate E (.object o) old = r at h ⊢
      obtain ⟨r1, r2⟩ := r
      simp only at h
      subst h
      rfl
    rw [h3]
    exact ⟨rfl, h, h2⟩
  · intro o h
    have h2 := (convertJSToNativeDate_object E o old).2.2 h
    have h3 : ConvertJSToNativeVariant E owner (.object o) old =
        ConvertJSToScriptable E (.object o) old := by
      simp only [ConvertJSToNativeVariant, JSVAL_IS_VOID, JSVAL_IS_NULL, JSVAL_IS_BOOLEAN,
        JSVAL_IS_INT, JSVAL_IS_DOUBLE, JSVAL_IS_STRING, JSVAL_IS_OBJECT, Bool.or_self,
        Bool.false_eq_true, if_false, if_true]
      generalize ConvertJSToNativeDate E (.object o) old = r at h h2 ⊢
      obtain ⟨r1, r2⟩ := r
      simp only at h h2
      subst h h2
      rfl
    rw [h3]
    refine ⟨rfl, ?_, ?_⟩
    · cases hu : E.unwrap o <;> simp [ConvertJSToScriptable, hu]
    · cases hu : E.unwrap o <;> simp [ConvertJSToScriptable, hu, Variant.type]

/-- Witness of C10: object 5, a `Date` with time value 1000, gives the DATE
1000; object 2, an array, gives a SCRIPTABLE adapter. -/
theorem convertJSToNativeVariant_classifies_witness :
    (ConvertJSToNativeDate sampleEngine (.object 5) .void).1 = true ∧
    ConvertJSToNativeVariant sampleEngine none (.object 5) .void = (true, .date 1000) ∧
    (ConvertJSToNativeDate sampleEngine (.object 2) .void).1 = false ∧
    (ConvertJSToNativeVariant sampleEngine none (.object 2) .void).2.type =
      .TYPE_SCRIPTABLE :=
  ⟨by decide,
    ((convertJSToNativeVariant_classifies sampleEngine none .void).2.2.2.2.2.2.1 5
      (by decide)).1.trans (by decide),
    by decide,
    ((convertJSToNativeVariant_classifies sampleEngine none .void).2.2.2.2.2.2.2.1 2
      (by decide)).2.2⟩

/-! ## Native to script: integers -/

theorem toInt32_of_range (v : Int) (h1 : -(2 ^ 31) ≤ v) (h2 : v ≤ 2 ^ 31 - 1) :
    toInt32 v = v := by
  unfold toInt32
  omega

theorem doubleExponent_bound (a : Nat) (ha : a < 2 ^ 64) :
    a < 2 ^ (53 + doubleExponent a) := by
  unfold doubleExponent
  cases h : (List.range 12).find? (fun k => decide (a < 2 ^ (53 + k))) with
  | none => simpa using ha
  | some k =>
    have := List.find?_some h
    simpa using this

/-- The model of the conversion to `double` gives a nearest double: the
mantissa has at most 53 bits and the value is within half a unit in the last
place of the integer. -/
theorem int64ToDouble_nearest (v : Int) (hv : v.natAbs < 2 ^ 64) :
    ∃ (m : Int) (k : Nat), int64ToDouble v = .fin m (k : Int) ∧
      -(2 ^ 53 : Int) ≤ m ∧ m ≤ 2 ^ 53 ∧
      -(2 ^ k : Int) ≤ 2 * (m * 2 ^ k - v) ∧ 2 * (m * 2 ^ k - v) ≤ 2 ^ k := by
  have hb := doubleExponent_bound v.natAbs hv
  unfold int64ToDouble
  simp only
  refine ⟨_, doubleExponent v.natAbs, rfl, ?_⟩
  generalize doubleExponent v.natAbs = k at hb ⊢
  have hA1 : 0 ≤ v → (v.natAbs : Int) = v := fun h => Int.natAbs_of_nonneg h
  have hA2 : v < 0 → (v.natAbs : Int) = -v := fun h => by omega
  generalize v.natAbs = a at hb hA1 hA2 ⊢
  have hP : 0 < 2 ^ k := by positivity
  have hdm := Nat.div_add_mod a (2 ^ k)
  have hr := Nat.mod_lt a hP
  have hq : a / 2 ^ k < 2 ^ 53 := by
    apply Nat.div_lt_of_lt_mul
    rw [Nat.mul_comm, ← Nat.pow_add]
    exact hb
  generalize a / 2 ^ k = q at hdm hq ⊢
  generalize a % 2 ^ k = r at hdm hr ⊢
  have hcast : ((2 : Int) ^ k) = ((2 ^ k : Nat) : Int) := by push_cast; rfl
  have hqz : (q : Int) < 2 ^ 53 := by exact_mod_cast hq
  rw [hcast]
  generalize (2 : Nat) ^ k = P at hP hdm hr ⊢
  have hdmz : (P : Int) * (q : Int) + (r : Int) = (a : Int) := by exact_mod_cast hdm
  by_cases hc : 2 * r > P ∨ (2 * r = P ∧ q % 2 = 1)
  · rw [if_pos hc]
    have hmul : ((q + 1 : Nat) : Int) * (P : Int) = (P : Int) * (q : Int) + (P : Int) := by
      push_cast; ring
    have hneg : -((q + 1 : Nat) : Int) * (P : Int) = -((P : Int) * (q : Int) + (P : Int)) := by
      push_cast; ring
    generalize hX : (P : Int) * (q : Int) = X at hdmz hmul hneg
    by_cases hs : v < 0
    · rw [if_pos hs, hneg]
      have := hA2 hs
      omega
    · rw [if_neg hs, hmul]
      have := hA1 (by omega)
      omega
  · rw [if_neg hc]
    have hmul : (q : Int) * (P : Int) = (P : Int) * (q : Int) := by ring
    have hneg : -(q : Int) * (P : Int) = -((P : Int) * (q : Int)) := by ring
    generalize hX : (P : Int) * (q : Int) = X at hdmz hmul hneg
    by_cases hs : v < 0
    · rw [if_pos hs, hneg]
      have := hA2 hs
      omega
    · rw [if_neg hs, hmul]
      have := hA1 (by omega)
      omega

theorem doubleExponent_least (a : Nat) :
    (a < 2 ^ 53 → doubleExponent a = 0) ∧
    (2 ^ 53 ≤ a → 2 ^ (52 + doubleExponent a) ≤ a) := by
  unfold doubleExponent
  cases h : (List.range 12).find? (fun k => decide (a < 2 ^ (53 + k))) with
  | none =>
    rw [List.find?_range_eq_none] at h
    refine ⟨fun h0 => ?_, fun _ => ?_⟩
    · have := h 0 (by norm_num)
      simp at this
      omega
    · have := h 10 (by norm_num)
      simp at this
      simpa using this
  | some k =>
    rw [List.find?_range_eq_some] at h
    obtain ⟨_, _, h3⟩ := h
    refine ⟨fun h0 => ?_, fun h0 => ?_⟩
    · simp only [Option.getD_some]
      by_contra hk
      have := h3 0 (by omega)
      simp at this
      omega
    · simp only [Option.getD_some]
      cases k with
      | zero => exact le_trans (by norm_num) h0
      | succ j =>
        have := h3 j (by omega)
        simp at this
        have e : 52 + (j + 1) = 53 + j := by omega
        rw [e]
        exact this

/-- The rounding of the magnitude `a` to a multiple of `2 ^ k`: the
mantissa has at most 53 bits, the result is within half a unit of `a`, and
on a tie the mantissa is even. -/
theorem roundMagnitude (a k : Nat) (hb : a < 2 ^ (53 + k)) :
    let q := a / 2 ^ k
    let r := a % 2 ^ k
    let m := if 2 * r > 2 ^ k ∨ (2 * r = 2 ^ k ∧ q % 2 = 1) then q + 1 else q
    m ≤ 2 ^ 53 ∧ 2 * a ≤ 2 * (m * 2 ^ k) + 2 ^ k ∧ 2 * (m * 2 ^ k) ≤ 2 * a + 2 ^ k ∧
      ((2 * a = 2 * (m * 2 ^ k) + 2 ^ k ∨ 2 * (m * 2 ^ k) = 2 * a + 2 ^ k) → m % 2 = 0) := by
  intro q r m
  have hP : 0 < 2 ^ k := by positivity
  have hdm : 2 ^ k * q + r = a := Nat.div_add_mod a (2 ^ k)
  have hr : r < 2 ^ k := Nat.mod_lt a hP
  have hq : q < 2 ^ 53 := by
    apply Nat.div_lt_of_lt_mul
    rw [Nat.mul_comm, ← Nat.pow_add]
    exact hb
  have hm : m = if 2 * r > 2 ^ k ∨ (2 * r = 2 ^ k ∧ q % 2 = 1) then q + 1 else q := rfl
  clear_value q r m
  generalize (2 : Nat) ^ k = P at *
  by_cases hc : 2 * r > P ∨ (2 * r = P ∧ q % 2 = 1)
  · rw [if_pos hc] at hm
    subst hm
    have e : (q + 1) * P = P * q + P := by ring
    rw [e]
    generalize P * q = X at *
    refine ⟨by omega, by omega, by omega, ?_⟩
    intro h
    omega
  · rw [if_neg hc] at hm
    subst hm
    have e : m * P = P * m := by ring
    rw [e]
    generalize hX : P * m = X at *
    refine ⟨by omega, by omega, by omega, ?_⟩
    intro h
    omega


/-- A multiple of `2 ^ k` within half a unit of an integer `v` of at least
`53 + k` bits is as near to `v` as any number with a mantissa of 53 bits. -/
theorem nearest_dyadic (v m : Int) (k : Nat) (h1 : 2 * |m * 2 ^ k - v| ≤ 2 ^ k)
    (h2 : k = 0 ∨ 2 ^ (52 + k) ≤ |v|) (m' e' : Int) (hm' : |m'| < 2 ^ 53) :
    |dyadic m k - v| ≤ |dyadic m' e' - v| := by
  have hcast : dyadic m k = ((m * 2 ^ k : Int) : ℚ) := by
    unfold dyadic
    push_cast
    rw [zpow_natCast]
  rw [hcast]
  rcases h2 with h2 | h2
  · subst h2
    have : m * 2 ^ 0 - v = 0 := by
      have := abs_le.mp (show |m * 2 ^ 0 - v| ≤ 0 by omega)
      omega
    have e : (((m * 2 ^ 0 : Int) : ℚ) - v) = 0 := by exact_mod_cast this
    rw [e, abs_zero]
    exact abs_nonneg _
  · by_contra hlt
    push_neg at hlt
    obtain ⟨j, rfl⟩ : ∃ j, k = j + 1 := by
      cases k with
      | zero =>
        exfalso
        have h3 := abs_le.mp (show |m * 2 ^ 0 - v| ≤ 0 by omega)
        have h4 : m * 2 ^ 0 - v = 0 := by omega
        have e : (((m * 2 ^ 0 : Int) : ℚ) - v) = 0 := by exact_mod_cast h4
        rw [e, abs_zero] at hlt
        exact absurd hlt (not_lt.mpr (abs_nonneg _))
      | succ j => exact ⟨j, rfl⟩
    have hG : (0 : ℚ) < 2 ^ j := by positivity
    have h1q : |(((m * 2 ^ (j + 1) : Int) : ℚ) - v)| ≤ 2 ^ j := by
      have : |m * 2 ^ (j + 1) - v| ≤ 2 ^ j := by
        have e : (2 : Int) ^ (j + 1) = 2 * 2 ^ j := by ring
        rw [e] at h1 ⊢
        omega
      have h := (Int.cast_le (R := ℚ)).mpr this
      push_cast at h ⊢
      exact h
    have h2q : (2 : ℚ) ^ (53 + j) ≤ |(v : ℚ)| := by
      have e : 52 + (j + 1) = 53 + j := by omega
      rw [e] at h2
      have h := (Int.cast_le (R := ℚ)).mpr h2
      push_cast at h
      exact h
    have hx : |dyadic m' e' - v| < 2 ^ j := lt_of_lt_of_le hlt h1q
    have hxabs : |(v : ℚ)| - 2 ^ j < |dyadic m' e'| := by
      have := abs_sub_abs_le_abs_sub (v : ℚ) (dyadic m' e')
      rw [abs_sub_comm] at hx
      linarith
    have hm'q : |(m' : ℚ)| ≤ 2 ^ 53 - 1 := by
      have : |m'| ≤ 2 ^ 53 - 1 := by omega
      have h := (Int.cast_le (R := ℚ)).mpr this
      push_cast at h
      norm_num at h ⊢
      exact h
    have hdy : |dyadic m' e'| = |(m' : ℚ)| * 2 ^ e' := by
      unfold dyadic
      rw [abs_mul, abs_of_pos (zpow_pos (by norm_num : (0 : ℚ) < 2) e')]
    have hpow : (2 : ℚ) ^ ((j : Int)) < 2 ^ e' := by
      have hz : (0 : ℚ) < 2 ^ e' := zpow_pos (by norm_num) e'
      have h53 : (2 : ℚ) ^ (53 + j) = 2 ^ 53 * 2 ^ j := by rw [pow_add]
      rw [hdy] at hxabs
      rw [zpow_natCast]
      by_contra hle
      push_neg at hle
      have : |(m' : ℚ)| * 2 ^ e' ≤ (2 ^ 53 - 1) * 2 ^ j := by
        apply mul_le_mul hm'q hle hz.le
        norm_num
      rw [h53] at h2q
      linarith
    have hlt' : (j : Int) < e' := (zpow_lt_zpow_iff_right₀ (by norm_num : (1 : ℚ) < 2)).mp hpow
    obtain ⟨t, ht⟩ : ∃ t : Nat, e' = (j + 1 : Nat) + t := ⟨(e' - (j + 1)).toNat, by omega⟩
    have hxint : dyadic m' e' = ((m' * 2 ^ t * 2 ^ (j + 1) : Int) : ℚ) := by
      unfold dyadic
      rw [ht, zpow_add₀ (by norm_num : (2 : ℚ) ≠ 0), zpow_natCast, zpow_natCast]
      push_cast
      ring
    rw [hxint] at hlt
    have hint : |m' * 2 ^ t * 2 ^ (j + 1) - v| < |m * 2 ^ (j + 1) - v| := by
      have := hlt
      rw [← Int.cast_sub, ← Int.cast_sub, ← Int.cast_abs, ← Int.cast_abs] at this
      exact_mod_cast this
    generalize m' * 2 ^ t = n at hint
    have hP : (0 : Int) < 2 ^ (j + 1) := by positivity
    generalize (2 : Int) ^ (j + 1) = P at *
    have hne : n ≠ m := by
      intro h
      rw [h] at hint
      exact lt_irrefl _ hint
    have hb := abs_le.mp (show |m * P - v| ≤ |m * P - v| from le_refl _)
    have h1' := abs_le.mp (le_of_mul_le_mul_left (show 2 * |m * P - v| ≤ 2 * |m * P - v| from le_refl _) (by norm_num : (0 : Int) < 2))
    have hA : 2 * |m * P - v| ≤ P := h1
    have hB := abs_lt.mp (lt_of_lt_of_le hint (le_refl _))
    have hC := abs_nonneg (m * P - v)
    have hD := abs_le.mp (le_refl |m * P - v|)
    rcases lt_or_gt_of_ne hne with h | h
    · have : n * P ≤ m * P - P := by nlinarith
      omega
    · have : n * P ≥ m * P + P := by nlinarith
      omega


theorem int64ToDouble_spec (v : Int) (hv : v.natAbs < 2 ^ 64) :
    ∃ (m : Int) (k : Nat), int64ToDouble v = .fin m (k : Int) ∧
      |m| ≤ 2 ^ 53 ∧ 2 * |m * 2 ^ k - v| ≤ 2 ^ k ∧
      (2 * |m * 2 ^ k - v| = 2 ^ k → m % 2 = 0) ∧
      (|v| < 2 ^ 53 → k = 0 ∧ m = v) ∧
      (2 ^ 53 ≤ |v| → 2 ^ (52 + k) ≤ |v| ∧ |v| < 2 ^ (53 + k)) := by
  have hb := doubleExponent_bound v.natAbs hv
  have hl := doubleExponent_least v.natAbs
  have hr := roundMagnitude v.natAbs (doubleExponent v.natAbs) hb
  simp only at hr
  have hdef : int64ToDouble v = .fin
      (if v < 0 then
        -((if 2 * (v.natAbs % 2 ^ doubleExponent v.natAbs) > 2 ^ doubleExponent v.natAbs ∨
            (2 * (v.natAbs % 2 ^ doubleExponent v.natAbs) = 2 ^ doubleExponent v.natAbs ∧
              v.natAbs / 2 ^ doubleExponent v.natAbs % 2 = 1)
          then v.natAbs / 2 ^ doubleExponent v.natAbs + 1
          else v.natAbs / 2 ^ doubleExponent v.natAbs : Nat) : Int)
      else
        ((if 2 * (v.natAbs % 2 ^ doubleExponent v.natAbs) > 2 ^ doubleExponent v.natAbs ∨
            (2 * (v.natAbs % 2 ^ doubleExponent v.natAbs) = 2 ^ doubleExponent v.natAbs ∧
              v.natAbs / 2 ^ doubleExponent v.natAbs % 2 = 1)
          then v.natAbs / 2 ^ doubleExponent v.natAbs + 1
          else v.natAbs / 2 ^ doubleExponent v.natAbs : Nat) : Int))
      (doubleExponent v.natAbs : Int) := rfl
  refine ⟨_, doubleExponent v.natAbs, hdef, ?_⟩
  generalize (if 2 * (v.natAbs % 2 ^ doubleExponent v.natAbs) > 2 ^ doubleExponent v.natAbs ∨
            (2 * (v.natAbs % 2 ^ doubleExponent v.natAbs) = 2 ^ doubleExponent v.natAbs ∧
              v.natAbs / 2 ^ doubleExponent v.natAbs % 2 = 1)
          then v.natAbs / 2 ^ doubleExponent v.natAbs + 1
          else v.natAbs / 2 ^ doubleExponent v.natAbs : Nat) = M at hr ⊢
  clear hdef
  generalize doubleExponent v.natAbs = k at hb hl hr ⊢
  have habs : |v| = (v.natAbs : Int) := Int.abs_eq_natAbs v
  have hA1 : 0 ≤ v → (v.natAbs : Int) = v := fun h => Int.natAbs_of_nonneg h
  have hA2 : v < 0 → (v.natAbs : Int) = -v := fun h => by omega
  rw [habs]
  generalize v.natAbs = a at hb hl hr hA1 hA2 ⊢
  obtain ⟨hm1, hm2, hm3, hm4⟩ := hr
  have hP : 0 < 2 ^ k := by positivity
  have hcast : ((2 : Int) ^ k) = ((2 ^ k : Nat) : Int) := by push_cast; rfl
  have hbz : (a : Int) < 2 ^ (53 + k) := by exact_mod_cast hb
  have hl1 : (a : Int) < 2 ^ 53 → k = 0 := fun h => hl.1 (by exact_mod_cast h)
  have hl2 : (2 : Int) ^ 53 ≤ a → (2 : Int) ^ (52 + k) ≤ a := fun h => by
    have := hl.2 (by exact_mod_cast h)
    exact_mod_cast this
  have hm1z : (M : Int) ≤ 2 ^ 53 := by exact_mod_cast hm1
  have key : ∀ m : Int, (m = (M : Int) ∧ 0 ≤ v ∨ m = -(M : Int) ∧ v < 0) →
      |m| ≤ 2 ^ 53 ∧ 2 * |m * 2 ^ k - v| ≤ 2 ^ k ∧
      (2 * |m * 2 ^ k - v| = 2 ^ k → m % 2 = 0) ∧
      ((a : Int) < 2 ^ 53 → k = 0 ∧ m = v) ∧
      ((2 : Int) ^ 53 ≤ a → (2 : Int) ^ (52 + k) ≤ a ∧ (a : Int) < 2 ^ (53 + k)) := by
    intro m hm
    have hM4 : ((2 * (a : Int) = 2 * ((M : Int) * (2 ^ k : Nat)) + (2 ^ k : Nat)) ∨
        (2 * ((M : Int) * (2 ^ k : Nat)) = 2 * (a : Int) + (2 ^ k : Nat))) →
        (M : Int) % 2 = 0 := by
      intro h
      have : M % 2 = 0 := hm4 (by
        rcases h with h | h
        · left; exact_mod_cast h
        · right; exact_mod_cast h)
      omega
    have hm2z : 2 * (a : Int) ≤ 2 * ((M : Int) * (2 ^ k : Nat)) + (2 ^ k : Nat) := by
      exact_mod_cast hm2
    have hm3z : 2 * ((M : Int) * (2 ^ k : Nat)) ≤ 2 * (a : Int) + (2 ^ k : Nat) := by
      exact_mod_cast hm3
    rw [hcast]
    have hPz : (0 : Int) < ((2 ^ k : Nat) : Int) := by exact_mod_cast hP
    generalize ((2 ^ k : Nat) : Int) = P at *
    have habsm : |m| = (M : Int) := by
      rcases hm with ⟨h, _⟩ | ⟨h, _⟩
      · rw [h]; exact abs_of_nonneg (by omega)
      · rw [h, abs_neg]; exact abs_of_nonneg (by omega)
    have hdist : |m * P - v| = |(M : Int) * P - a| := by
      rcases hm with ⟨h, hs⟩ | ⟨h, hs⟩
      · rw [h, hA1 hs]
      · rw [h, hA2 hs]
        have e : -(M : Int) * P - v = -((M : Int) * P - -v) := by ring
        rw [e, abs_neg]
    rw [habsm, hdist]
    generalize hX : (M : Int) * P = X at *
    have hd1 : 2 * |X - (a : Int)| ≤ P := by
      have : |X - (a : Int)| ≤ |X - (a : Int)| := le_refl _
      rcases abs_cases (X - (a : Int)) with ⟨h, _⟩ | ⟨h, _⟩ <;> omega
    refine ⟨hm1z, hd1, ?_, ?_, ?_⟩
    · intro h
      have hMeven : (M : Int) % 2 = 0 := by
        apply hM4
        rcases abs_cases (X - (a : Int)) with ⟨h', _⟩ | ⟨h', _⟩ <;> omega
      rcases hm with ⟨h', _⟩ | ⟨h', _⟩ <;> omega
    · intro h
      have hk := hl1 h
      refine ⟨hk, ?_⟩
      subst hk
      have hP1 : P = 1 := by
        have : ((2 : Int) ^ 0) = 1 := by norm_num
        omega
      subst hP1
      have hXM : X = (M : Int) := by rw [← hX]; ring
      have hXa : X = a := by
        rcases abs_cases (X - (a : Int)) with ⟨h', _⟩ | ⟨h', _⟩ <;> omega
      rcases hm with ⟨h', hs⟩ | ⟨h', hs⟩
      · have := hA1 hs
        omega
      · have := hA2 hs
        omega
    · intro h
      exact ⟨hl2 h, hbz⟩
  by_cases hs : v < 0
  · rw [if_pos hs]
    exact key _ (Or.inr ⟨rfl, hs⟩)
  · rw [if_neg hs]
    exact key _ (Or.inl ⟨rfl, by omega⟩)

/-- The double of magnitude `2 ^ 53 * 2 ^ k` is written with a mantissa of 53
bits and the next exponent. -/
theorem dyadic_representable (m : Int) (k : Nat) (hm : |m| ≤ 2 ^ 53) :
    ∃ m0 e0 : Int, |m0| < 2 ^ 53 ∧ dyadic m0 e0 = dyadic m k := by
  by_cases h : |m| < 2 ^ 53
  · exact ⟨m, k, h, rfl⟩
  · have habs : |m| = 2 ^ 53 := by omega
    refine ⟨m / 2, (k : Int) + 1, ?_, ?_⟩
    · rcases abs_cases m with ⟨h1, _⟩ | ⟨h1, _⟩
      · have : m = 2 ^ 53 := by omega
        subst this
        norm_num
      · have : m = -(2 ^ 53) := by omega
        subst this
        norm_num
    · have hm2 : m = 2 * (m / 2) := by
        rcases abs_cases m with ⟨h1, _⟩ | ⟨h1, _⟩ <;> omega
      unfold dyadic
      rw [zpow_add_one₀ (by norm_num : (2 : ℚ) ≠ 0)]
      have : (m : ℚ) = 2 * ((m / 2 : Int) : ℚ) := by exact_mod_cast hm2
      rw [this]
      ring

/-- C11: `ConvertNativeToJSInt` gives the small integer `v` when `v` lies in
the small-integer range, and otherwise a double holding `v` converted to
double precision; a small integer it gives is never different from `v`.
The double is `v` itself when `v` has at most 53 bits; otherwise it is the
multiple of the unit in the last place that is nearest to `v`, the one with
an even mantissa on a tie, and no number with a mantissa of 53 bits is
nearer to `v`. -/
theorem convertNativeToJSInt_spec (C : Context) (hC : C.IntRangeOk) (v : Int)
    (hv : INT64_MIN ≤ v ∧ v ≤ INT64_MAX) (old : JSVal) :
    (C.JSVAL_INT_MIN ≤ v ∧ v ≤ C.JSVAL_INT_MAX →
      ConvertNativeToJSInt C (.int64 v) old = (true, .int v)) ∧
    (¬ (C.JSVAL_INT_MIN ≤ v ∧ v ≤ C.JSVAL_INT_MAX) →
      ConvertNativeToJSInt C (.int64 v) old = (true, .double (int64ToDouble v))) ∧
    (∀ w, (ConvertNativeToJSInt C (.int64 v) old).2 = .int w → w = v) ∧
    (∀ fuel next, ConvertNativeToJS C (fuel + 1) (.int64 v) old next =
      ⟨true, (ConvertNativeToJSInt C (.int64 v) old).2, next, []⟩) ∧
    (∃ (m : Int) (k : Nat), int64ToDouble v = .fin m (k : Int) ∧
      |m| ≤ 2 ^ 53 ∧
      (|v| < 2 ^ 53 → k = 0 ∧ m = v) ∧
      (2 ^ 53 ≤ |v| → 2 ^ (52 + k) ≤ |v| ∧ |v| < 2 ^ (53 + k)) ∧
      2 * |m * 2 ^ k - v| ≤ 2 ^ k ∧
      (2 * |m * 2 ^ k - v| = 2 ^ k → m % 2 = 0) ∧
      (∃ m0 e0 : Int, |m0| < 2 ^ 53 ∧ dyadic m0 e0 = dyadic m k) ∧
      (∀ m' e' : Int, |m'| < 2 ^ 53 → |dyadic m k - v| ≤ |dyadic m' e' - v|)) := by
  have hin : C.JSVAL_INT_MIN ≤ v ∧ v ≤ C.JSVAL_INT_MAX →
      ConvertNativeToJSInt C (.int64 v) old = (true, .int v) := by
    intro h
    have h2 : v ≥ C.JSVAL_INT_MIN ∧ v ≤ C.JSVAL_INT_MAX := ⟨h.1, h.2⟩
    simp only [ConvertNativeToJSInt, Variant.int64Value, h2, and_self, if_true]
    rw [toInt32_of_range v (le_trans hC.1 h.1) (le_trans h.2 hC.2)]
  have hout : ¬ (C.JSVAL_INT_MIN ≤ v ∧ v ≤ C.JSVAL_INT_MAX) →
      ConvertNativeToJSInt C (.int64 v) old = (true, .double (int64ToDouble v)) := by
    intro h
    have h2 : ¬ (v ≥ C.JSVAL_INT_MIN ∧ v ≤ C.JSVAL_INT_MAX) := h
    simp only [ConvertNativeToJSInt, Variant.int64Value, h2, if_false]
  refine ⟨hin, hout, ?_, ?_, ?_⟩
  · intro w hw
    by_cases h : C.JSVAL_INT_MIN ≤ v ∧ v ≤ C.JSVAL_INT_MAX
    · rw [hin h] at hw
      exact (JSVal.int.inj hw).symm
    · rw [hout h] at hw
      cases hw
  · intro fuel next
    by_cases h : C.JSVAL_INT_MIN ≤ v ∧ v ≤ C.JSVAL_INT_MAX
    · simp [ConvertNativeToJS, Variant.type, hin h]
    · simp [ConvertNativeToJS, Variant.type, hout h]
  · have hv64 : v.natAbs < 2 ^ 64 := by
      unfold INT64_MIN INT64_MAX at hv
      omega
    obtain ⟨m, k, h1, h2, h3, h4, h5, h6⟩ := int64ToDouble_spec v hv64
    refine ⟨m, k, h1, h2, h5, h6, h3, h4, dyadic_representable m k h2, ?_⟩
    intro m' e' hm'
    apply nearest_dyadic v m k h3 _ m' e' hm'
    by_cases hsmall : |v| < 2 ^ 53
    · exact Or.inl (h5 hsmall).1
    · exact Or.inr (h6 (by omega)).1

theorem sampleContext_intRangeOk : sampleContext.IntRangeOk := by
  unfold Context.IntRangeOk sampleContext
  constructor <;> norm_num

/-- Witness of C11: in the sample context 5 stays the small integer 5,
`2 ^ 40` becomes the double `2 ^ 40`, and `2 ^ 53 + 1` and `2 ^ 53 + 3`
become the doubles `2 ^ 53` and `2 ^ 53 + 4`, the neighbours with an even
mantissa. -/
theorem convertNativeToJSInt_spec_witness :
    sampleContext.IntRangeOk ∧
    ConvertNativeToJSInt sampleContext (.int64 5) .void = (true, .int 5) ∧
    ConvertNativeToJSInt sampleContext (.int64 (2 ^ 40)) .void =
      (true, .double (.fin (2 ^ 40) 0)) ∧
    ConvertNativeToJSInt sampleContext (.int64 (2 ^ 53 + 1)) .void =
      (true, .double (.fin (2 ^ 52) 1)) ∧
    ConvertNativeToJSInt sampleContext (.int64 (2 ^ 53 + 3)) .void =
      (true, .double (.fin (2 ^ 52 + 2) 1)) :=
  ⟨sampleContext_intRangeOk,
    (convertNativeToJSInt_spec sampleContext sampleContext_intRangeOk 5 (by decide)
      .void).1 (by decide),
    ((convertNativeToJSInt_spec sampleContext sampleContext_intRangeOk (2 ^ 40)
      (by decide) .void).2.1 (by decide)).trans (by decide),
    ((convertNativeToJSInt_spec sampleContext sampleContext_intRangeOk (2 ^ 53 + 1)
      (by decide) .void).2.1 (by decide)).trans (by decide),
    ((convertNativeToJSInt_spec sampleContext sampleContext_intRangeOk (2 ^ 53 + 3)
      (by decide) .void).2.1 (by decide)).trans (by decide)⟩

/-- C12: `ConvertNativeToJS` fails for every value of kind CONST_SCRIPTABLE,
a null reference included, and leaves `*js_val` as it was, so no script
object is produced; for a null reference of kind SCRIPTABLE it succeeds with
the script value null. -/
theorem convertNativeToJS_constScriptable (C : Context) (p : Option ScriptableRef)
    (js_val : JSVal) (next : Nat) :
    (∀ fuel, (ConvertNativeToJS C fuel (.constScriptable p) js_val next).result = false ∧
      (ConvertNativeToJS C fuel (.constScriptable p) js_val next).js_val = js_val) ∧
    (∀ fuel, ConvertNativeToJS C (fuel + 1) (.constScriptable p) js_val next =
      ⟨false, js_val, next,
        [.reportError "Don't pass const ScriptableInterface * to JavaScript"]⟩) ∧
    (∀ fuel, ConvertNativeToJS C (fuel + 1) (.scriptable none) js_val next =
      ⟨true, .null, next, []⟩) := by
  refine ⟨?_, fun _ => rfl, fun _ => rfl⟩
  intro fuel
  cases fuel with
  | zero => exact ⟨rfl, rfl⟩
  | succ n => exact ⟨rfl, rfl⟩

/-! ## Round trip of integers -/

theorem int64ToDouble_exact (v : Int) (h : exactInDouble v) :
    ∃ (m : Int) (k : Nat), int64ToDouble v = .fin m (k : Int) ∧ m * 2 ^ k = v := by
  unfold exactInDouble at h
  unfold int64ToDouble
  simp only
  refine ⟨_, doubleExponent v.natAbs, rfl, ?_⟩
  generalize doubleExponent v.natAbs = k at h ⊢
  have hA1 : 0 ≤ v → (v.natAbs : Int) = v := fun h => Int.natAbs_of_nonneg h
  have hA2 : v < 0 → (v.natAbs : Int) = -v := fun h => by omega
  generalize v.natAbs = a at h hA1 hA2 ⊢
  have hP : 0 < 2 ^ k := by positivity
  have hdm := Nat.div_add_mod a (2 ^ k)
  rw [h] at hdm
  have hc : ¬ (2 * 0 > 2 ^ k ∨ (2 * 0 = 2 ^ k ∧ a / 2 ^ k % 2 = 1)) := by omega
  rw [h, if_neg hc]
  have hz : ((a / 2 ^ k : Nat) : Int) * 2 ^ k = (a : Int) := by
    have : (a / 2 ^ k) * 2 ^ k = a := by rw [Nat.mul_comm]; omega
    exact_mod_cast this
  by_cases hs : v < 0
  · rw [if_pos hs, neg_mul, hz, hA2 hs, neg_neg]
  · rw [if_neg hs, hz, hA1 (by omega)]

/-- Every integer of magnitude at most `2 ^ 53` is a double. -/
theorem exactInDouble_of_small (v : Int) (h1 : -(2 ^ 53) ≤ v) (h2 : v ≤ 2 ^ 53) :
    exactInDouble v := by
  unfold exactInDouble
  have ha : v.natAbs ≤ 2 ^ 53 := by omega
  generalize v.natAbs = a at ha
  by_cases hlt : a < 2 ^ 53
  · have hk : doubleExponent a = 0 := by
      unfold doubleExponent
      have : List.range 12 = 0 :: (List.range 11).map (· + 1) := by decide
      rw [this, List.find?_cons_of_pos]
      · rfl
      · simpa using hlt
    rw [hk]
    omega
  · have : a = 2 ^ 53 := by omega
    subst this
    decide

/-- C13 (as the code has it): an INT value that is a double, in particular
every integer of magnitude at most `2 ^ 53`, survives the round trip
through `ConvertNativeToJS` and `ConvertJSToNative` with an INT target. -/
theorem int_round_trip (C : Context) (E : Engine) (hC : C.IntRangeOk) (v : Int)
    (hv : INT64_MIN ≤ v ∧ v ≤ INT64_MAX) (hexact : exactInDouble v)
    (fuel next : Nat) (js_old : JSVal) (owner : Option Nat) (old : Variant) :
    (ConvertNativeToJS C (fuel + 1) (.int64 v) js_old next).result = true ∧
    ConvertJSToNative E owner (Variant.ofType .TYPE_INT64)
      (ConvertNativeToJS C (fuel + 1) (.int64 v) js_old next).js_val old =
      (true, .int64 v) := by
  have hconv : ConvertNativeToJS C (fuel + 1) (.int64 v) js_old next =
      ⟨(ConvertNativeToJSInt C (.int64 v) js_old).1,
        (ConvertNativeToJSInt C (.int64 v) js_old).2, next, []⟩ := rfl
  rw [hconv]
  by_cases h : v ≥ C.JSVAL_INT_MIN ∧ v ≤ C.JSVAL_INT_MAX
  · have h3 : ConvertNativeToJSInt C (.int64 v) js_old = (true, .int v) := by
      simp only [ConvertNativeToJSInt, Variant.int64Value, h, and_self, if_true]
      rw [toInt32_of_range v (le_trans hC.1 h.1) (le_trans h.2 hC.2)]
    rw [h3]
    exact ⟨rfl, rfl⟩
  · have h3 : ConvertNativeToJSInt C (.int64 v) js_old =
        (true, .double (int64ToDouble v)) := by
      simp only [ConvertNativeToJSInt, Variant.int64Value, h, if_false]
    rw [h3]
    refine ⟨rfl, ?_⟩
    obtain ⟨m, k, hd, hval⟩ := int64ToDouble_exact v hexact
    rw [hd]
    have hround : roundFinite m (k : Int) = v := by
      unfold roundFinite
      rw [if_pos (Int.natCast_nonneg k), Int.toNat_natCast]
      exact hval
    have hr64 : roundToInt64 (.fin m (k : Int)) = v := by
      show (if INT64_MIN ≤ roundFinite m (k : Int) ∧ roundFinite m (k : Int) ≤ INT64_MAX
        then roundFinite m (k : Int) else INT64_MIN) = v
      rw [hround, if_pos hv]
    show ConvertJSToNativeInt E (.double (.fin m (k : Int))) old = (true, .int64 v)
    simp [ConvertJSToNativeInt, JSVAL_IS_NULL, JSVAL_IS_VOID, JSVAL_IS_INT, JS_ValueToNumber,
      JSDouble.isnan, hr64]

/-- Witness of C13: `2 ^ 53` and `2 ^ 60` are doubles and survive the round
trip. -/
theorem int_round_trip_witness :
    (sampleContext.IntRangeOk ∧ (INT64_MIN ≤ (2 : Int) ^ 60 ∧ (2 : Int) ^ 60 ≤ INT64_MAX) ∧
      exactInDouble (2 ^ 60)) ∧
    ConvertJSToNative sampleEngine none (Variant.ofType .TYPE_INT64)
      (ConvertNativeToJS sampleContext 1 (.int64 (2 ^ 60)) .void 0).js_val .void =
      (true, .int64 (2 ^ 60)) :=
  ⟨⟨sampleContext_intRangeOk, by decide, by decide⟩,
    (int_round_trip sampleContext sampleEngine sampleContext_intRangeOk (2 ^ 60)
      (by decide) (by decide) 0 0 .void none .void).2⟩

/-- Counterexample to C13 as stated: `2 ^ 53 + 1` is a 64-bit integer; it is
converted to the double `2 ^ 53`, and the conversion back gives `2 ^ 53`. -/
theorem int_round_trip_counterexample :
    (INT64_MIN ≤ (2 : Int) ^ 53 + 1 ∧ (2 : Int) ^ 53 + 1 ≤ INT64_MAX) ∧
    (ConvertNativeToJS sampleContext 1 (.int64 (2 ^ 53 + 1)) .void 0).js_val =
      .double (.fin (2 ^ 52) 1) ∧
    ConvertJSToNative sampleEngine none (Variant.ofType .TYPE_INT64)
      (ConvertNativeToJS sampleContext 1 (.int64 (2 ^ 53 + 1)) .void 0).js_val .void =
      (true, .int64 (2 ^ 53)) ∧
    ConvertJSToNative sampleEngine none (Variant.ofType .TYPE_INT64)
      (ConvertNativeToJS sampleContext 1 (.int64 (2 ^ 53 + 1)) .void 0).js_val .void ≠
      (true, .int64 (2 ^ 53 + 1)) := by
  decide

end smjs

namespace dbus

open smjs

/-! ## The dynamic getter and setter of the D-Bus object -/

/-- C14: for a name with no cached signal for which the proxy reports a
method, `DynamicGetter` returns a callable bound to that method with the
reported argument and return types, whatever the proxy reports of a
property of that name; the state is unchanged and the proxy is asked for the
method only, so no property is read. -/
theorem dynamicGetter_method_over_property (proxy : DBusProxy) (self : Impl)
    (name : String) (get_info : Bool) (info : MethodInfo)
    (hcache : self.signals_ name = none)
    (hmethod : proxy.GetMethodInfo name = some info) :
    (DynamicGetter proxy self name get_info).value =
      .function ⟨name, true, self.timeout_, info.argc, info.arg_types, info.retc,
        info.ret_types⟩ ∧
    (∀ slot, (DynamicGetter proxy self name get_info).value = .function slot →
      slot.method_ = name ∧ slot.GetArgCount = info.argc ∧
      slot.GetArgTypes = info.arg_types ∧
      slot.GetReturnType =
        (if info.retc = 0 then .TYPE_VOID
         else if info.retc = 1 then (info.ret_types.getD []).getD 0 .TYPE_VOID
         else .TYPE_SCRIPTABLE)) ∧
    (DynamicGetter proxy self name get_info).events =
      [.GetMethodInfo name,
        .newDBusMethodSlot ⟨name, true, self.timeout_, info.argc, info.arg_types,
          info.retc, info.ret_types⟩] ∧
    (∀ n, DBusEvent.GetProperty n ∉ (DynamicGetter proxy self name get_info).events ∧
      DBusEvent.GetPropertyInfo n ∉ (DynamicGetter proxy self name get_info).events) ∧
    (DynamicGetter proxy self name get_info).state.signals_ = self.signals_ := by
  have h : DynamicGetter proxy self name get_info =
      ⟨.function ⟨name, true, self.timeout_, info.argc, info.arg_types, info.retc,
          info.ret_types⟩, self,
        [.GetMethodInfo name,
          .newDBusMethodSlot ⟨name, true, self.timeout_, info.argc, info.arg_types,
            info.retc, info.ret_types⟩]⟩ := by
    simp only [DynamicGetter, hcache, hmethod]
  rw [h]
  refine ⟨rfl, ?_, rfl, ?_, rfl⟩
  · intro slot hs
    simp only [ResultVariant.function.injEq] at hs
    subst hs
    simp [DBusMethodSlot.GetArgCount, DBusMethodSlot.GetArgTypes,
      DBusMethodSlot.GetReturnType]
  · intro n
    simp

/-- Witness of C14: `Ping` is reported as a method and as a readable
property; the getter gives the method. -/
theorem dynamicGetter_method_over_property_witness :
    (Impl.init.signals_ "Ping" = none ∧
      sampleProxy.GetMethodInfo "Ping" = some ⟨0, none, 1, some [.TYPE_BOOL]⟩ ∧
      (sampleProxy.GetPropertyInfo "Ping").1 = .PROP_READ) ∧
    (DynamicGetter sampleProxy Impl.init "Ping" false).value =
      .function ⟨"Ping", true, -1, 0, none, 1, some [.TYPE_BOOL]⟩ :=
  ⟨⟨rfl, by decide, by decide⟩,
    (dynamicGetter_method_over_property sampleProxy Impl.init "Ping" false
      ⟨0, none, 1, some [.TYPE_BOOL]⟩ rfl (by decide)).1⟩

/-- C18: for a name that is no cached signal, no method and no signal and
that the proxy reports as a property without read access, an introspection
query returns the declared type of the property, and a value query returns
an empty VOID value without a call of `GetProperty`; the state is unchanged. -/
theorem dynamicGetter_write_only (proxy : DBusProxy) (self : Impl) (name : String)
    (access : PropertyAccess) (prop_type : VariantType)
    (hcache : self.signals_ name = none)
    (hmethod : proxy.GetMethodInfo name = none)
    (hsignal : proxy.GetSignalInfo name = none)
    (hprop : proxy.GetPropertyInfo name = (access, prop_type))
    (hknown : access ≠ .PROP_UNKNOWN) (hread : access.hasRead = false) :
    (DynamicGetter proxy self name true).value = .value (Variant.ofType prop_type) ∧
    (Variant.ofType prop_type).type = prop_type ∧
    (DynamicGetter proxy self name false).value = .value .void ∧
    (∀ n, DBusEvent.GetProperty n ∉ (DynamicGetter proxy self name false).events) ∧
    (DynamicGetter proxy self name false).state.signals_ = self.signals_ ∧
    (DynamicGetter proxy self name true).state.signals_ = self.signals_ := by
  have h1 : DynamicGetter proxy self name true =
      ⟨.value (Variant.ofType prop_type), self,
        [.GetMethodInfo name, .GetSignalInfo name, .GetPropertyInfo name]⟩ := by
    simp [DynamicGetter, hcache, hmethod, hsignal, hprop, hknown]
  have h2 : DynamicGetter proxy self name false =
      ⟨.value .void, self,
        [.GetMethodInfo name, .GetSignalInfo name, .GetPropertyInfo name]⟩ := by
    simp [DynamicGetter, hcache, hmethod, hsignal, hprop, hknown, hread]
  rw [h1, h2]
  refine ⟨rfl, ?_, rfl, ?_, rfl, rfl⟩
  · cases prop_type <;> rfl
  · intro n
    simp

/-- Witness of C18: `Secret` is a write-only string property. -/
theorem dynamicGetter_write_only_witness :
    (sampleProxy.GetPropertyInfo "Secret" = (.PROP_WRITE, .TYPE_STRING)) ∧
    (DynamicGetter sampleProxy Impl.init "Secret" true).value = .value (.string none) ∧
    (DynamicGetter sampleProxy Impl.init "Secret" false).value = .value .void :=
  ⟨by decide,
    (dynamicGetter_write_only sampleProxy Impl.init "Secret" .PROP_WRITE .TYPE_STRING
      rfl (by decide) (by decide) (by decide) (by decide) rfl).1,
    (dynamicGetter_write_only sampleProxy Impl.init "Secret" .PROP_WRITE .TYPE_STRING
      rfl (by decide) (by decide) (by decide) (by decide) rfl).2.2.1⟩

/-- C19 (as the code has it): for a name that is no cached signal and for
which the proxy reports no method, no signal and no property,
`DynamicGetter` returns a callable for that name made without declared
metadata: it has no argument types, its return type is VARIANT, its
`GetArgCount()` is `INT_MAX` and its `HasMetadata()` is true. -/
theorem dynamicGetter_fallback (proxy : DBusProxy) (self : Impl) (name : String)
    (get_info : Bool) (prop_type : VariantType)
    (hcache : self.signals_ name = none)
    (hmethod : proxy.GetMethodInfo name = none)
    (hsignal : proxy.GetSignalInfo name = none)
    (hprop : proxy.GetPropertyInfo name = (.PROP_UNKNOWN, prop_type)) :
    (DynamicGetter proxy self name get_info).value =
      .function ⟨name, false, self.timeout_, 0, none, 0, none⟩ ∧
    (∀ slot, (DynamicGetter proxy self name get_info).value = .function slot →
      slot.method_ = name ∧ slot.has_metadata_ = false ∧ slot.HasMetadata = true ∧
      slot.GetArgCount = INT_MAX ∧ slot.GetArgTypes = none ∧
      slot.GetReturnType = .TYPE_VARIANT) ∧
    (DynamicGetter proxy self name get_info).state.signals_ = self.signals_ ∧
    (∀ n, DBusEvent.GetProperty n ∉ (DynamicGetter proxy self name get_info).events) := by
  have h : DynamicGetter proxy self name get_info =
      ⟨.function ⟨name, false, self.timeout_, 0, none, 0, none⟩, self,
        [.GetMethodInfo name, .GetSignalInfo name, .GetPropertyInfo name,
          .newDBusMethodSlot ⟨name, false, self.timeout_, 0, none, 0, none⟩]⟩ := by
    simp [DynamicGetter, hcache, hmethod, hsignal, hprop]
  rw [h]
  refine ⟨rfl, ?_, rfl, ?_⟩
  · intro slot hs
    simp only [ResultVariant.function.injEq] at hs
    subst hs
    simp [DBusMethodSlot.GetArgCount, DBusMethodSlot.GetArgTypes,
      DBusMethodSlot.GetReturnType, DBusMethodSlot.HasMetadata]
  · intro n
    simp

/-- Witness of C19: `Frobnicate` is unknown to the sample proxy. -/
theorem dynamicGetter_fallback_witness :
    (sampleProxy.GetMethodInfo "Frobnicate" = none ∧
      sampleProxy.GetSignalInfo "Frobnicate" = none ∧
      sampleProxy.GetPropertyInfo "Frobnicate" = (.PROP_UNKNOWN, .TYPE_VOID)) ∧
    (DynamicGetter sampleProxy Impl.init "Frobnicate" false).value =
      .function ⟨"Frobnicate", false, -1, 0, none, 0, none⟩ :=
  ⟨⟨by decide, by decide, by decide⟩,
    (dynamicGetter_fallback sampleProxy Impl.init "Frobnicate" false .TYPE_VOID rfl
      (by decide) (by decide) (by decide)).1⟩

/-- Counterexample to C19 as stated: the callable returned for the unknown
name `Frobnicate` answers true to `HasMetadata()`, and
`ConvertJSArgsToNative` rejects a call of it with no argument and with one
argument, expecting `INT_MAX` arguments. -/
theorem dynamicGetter_fallback_counterexample :
    (DynamicGetter sampleProxy Impl.init "Frobnicate" false).value =
      .function ⟨"Frobnicate", false, -1, 0, none, 0, none⟩ ∧
    (⟨"Frobnicate", false, -1, 0, none, 0, none⟩ : DBusMethodSlot).HasMetadata = true ∧
    (ConvertJSArgsToNative sampleEngine none
      (⟨"Frobnicate", false, -1, 0, none, 0, none⟩ : DBusMethodSlot).toSlot 0 []).events =
      [.reportError (.wrongNumberOfArguments 0 INT_MAX INT_MAX)] ∧
    (ConvertJSArgsToNative sampleEngine none
      (⟨"Frobnicate", false, -1, 0, none, 0, none⟩ : DBusMethodSlot).toSlot 1
        [.int 1]).result = false := by
  refine ⟨by decide, rfl, ?_, ?_⟩
  · simp [ConvertJSArgsToNative, DBusMethodSlot.toSlot, DBusMethodSlot.HasMetadata,
      DBusMethodSlot.GetArgCount, DBusMethodSlot.GetArgTypes, computeMinArgc, INT_MAX]
  · simp [ConvertJSArgsToNative, DBusMethodSlot.toSlot, DBusMethodSlot.HasMetadata,
      DBusMethodSlot.GetArgCount, DBusMethodSlot.GetArgTypes, computeMinArgc, INT_MAX]

/-- C20: `DynamicSetter` returns false without a call of `SetProperty` when
the name is a cached signal or is reported as a signal and the value is not
of kind SLOT, and when the name is no signal and the proxy reports no write
access; it calls `SetProperty` with the name and the value, and returns its
result, exactly when the name is no signal and write access is reported. -/
theorem dynamicSetter_failures (proxy : DBusProxy) (self : Impl) (name : String)
    (value : Variant) :
    ((self.signals_ name ≠ none ∨ proxy.GetSignalInfo name ≠ none) →
      value.type ≠ .TYPE_SLOT →
      (DynamicSetter proxy self name value).result = false ∧
      ∀ n v, DBusEvent.SetProperty n v ∉ (DynamicSetter proxy self name value).events) ∧
    (self.signals_ name = none → proxy.GetSignalInfo name = none →
      (proxy.GetPropertyInfo name).1.hasWrite = false →
      (DynamicSetter proxy self name value).result = false ∧
      ∀ n v, DBusEvent.SetProperty n v ∉ (DynamicSetter proxy self name value).events) ∧
    (self.signals_ name = none → proxy.GetSignalInfo name = none →
      (proxy.GetPropertyInfo name).1.hasWrite = true →
      (DynamicSetter proxy self name value).result = proxy.SetProperty name value ∧
      (DynamicSetter proxy self name value).events =
        [.GetSignalInfo name, .GetPropertyInfo name, .SetProperty name value]) ∧
    ((∃ n v, DBusEvent.SetProperty n v ∈ (DynamicSetter proxy self name value).events) ↔
      (self.signals_ name = none ∧ proxy.GetSignalInfo name = none ∧
        (proxy.GetPropertyInfo name).1.hasWrite = true)) := by
  cases hc : self.signals_ name with
  | some sig =>
    by_cases hv : value.type = .TYPE_SLOT
    · simp [DynamicSetter, hc, hv]
    · simp [DynamicSetter, hc, hv]
  | none =>
    cases hs : proxy.GetSignalInfo name with
    | some info =>
      by_cases hv : value.type = .TYPE_SLOT
      · simp [DynamicSetter, hc, hs, hv]
      · simp [DynamicSetter, hc, hs, hv]
    | none =>
      by_cases hw : (proxy.GetPropertyInfo name).1.hasWrite = true
      · simp [DynamicSetter, hc, hs, hw]
      · simp [DynamicSetter, hc, hs, hw]

/-- Witness of C20: assigning a number to the signal `Changed` fails, as
does assigning to the unknown name `Frobnicate`; assigning to the writable
property `Title` is forwarded. -/
theorem dynamicSetter_failures_witness :
    (sampleProxy.GetSignalInfo "Changed" ≠ none ∧
      (Variant.int64 1).type ≠ .TYPE_SLOT) ∧
    (DynamicSetter sampleProxy Impl.init "Changed" (.int64 1)).result = false ∧
    (DynamicSetter sampleProxy Impl.init "Frobnicate" (.int64 1)).result = false ∧
    (DynamicSetter sampleProxy Impl.init "Title" (.string (some "x"))).events =
      [.GetSignalInfo "Title", .GetPropertyInfo "Title",
        .SetProperty "Title" (.string (some "x"))] :=
  ⟨⟨by decide, by decide⟩,
    ((dynamicSetter_failures sampleProxy Impl.init "Changed" (.int64 1)).1
      (Or.inr (by decide)) (by decide)).1,
    ((dynamicSetter_failures sampleProxy Impl.init "Frobnicate" (.int64 1)).2.1
      rfl (by decide) (by decide)).1,
    ((dynamicSetter_failures sampleProxy Impl.init "Title" (.string (some "x"))).2.2.1
      rfl (by decide) (by decide)).2⟩

end dbus

namespace smjs

end smjs

namespace dbus

open smjs

/-! ## Reachable states of the D-Bus object -/

theorem DBusSignal.sameObject_refl (d : DBusSignal) : d.SameObject d :=
  ⟨rfl, rfl, rfl, fun _ h => h⟩

theorem DBusSignal.sameObject_trans {a b c : DBusSignal} (h1 : a.SameObject b)
    (h2 : b.SameObject c) : a.SameObject c :=
  ⟨h2.1.trans h1.1, h2.2.1.trans h1.2.1, h2.2.2.1.trans h1.2.2.1,
    fun p hp => h2.2.2.2 p (h1.2.2.2 p hp)⟩

theorem getPrototypeSlot_sameObject (d : DBusSignal) (next : Nat) :
    d.SameObject (d.GetPrototypeSlot next).2.1 ∧
    (d.GetPrototypeSlot next).1 = d.prototype_slot_.getD next ∧
    (d.GetPrototypeSlot next).2.1.prototype_slot_ = some (d.prototype_slot_.getD next) ∧
    (d.GetPrototypeSlot next).2.1.default_slot = d.default_slot ∧
    (∀ id, DBusEvent.newDBusSignal id ∉ (d.GetPrototypeSlot next).2.2.2) := by
  unfold DBusSignal.GetPrototypeSlot
  cases hp : d.prototype_slot_ with
  | some p => exact ⟨d.sameObject_refl, rfl, hp, rfl, fun _ => by simp⟩
  | none =>
    refine ⟨⟨rfl, rfl, rfl, ?_⟩, rfl, rfl, rfl, fun _ => by simp⟩
    intro p h
    rw [hp] at h
    cases h

theorem signalResult_other (self : Impl) (name : String) (signal : DBusSignal)
    (get_info : Bool) (events : List DBusEvent) (m : String) (hm : m ≠ name) :
    (signalResult self name signal get_info events).state.signals_ m = self.signals_ m := by
  unfold signalResult
  split
  · exact Function.update_noteq hm _ _
  · rfl

theorem signalResult_same (self : Impl) (name : String) (signal : DBusSignal)
    (get_info : Bool) (events : List DBusEvent)
    (hs : self.signals_ name = some signal) :
    ∃ d', (signalResult self name signal get_info events).state.signals_ name = some d' ∧
      signal.SameObject d' ∧ d'.default_slot = signal.default_slot := by
  unfold signalResult
  split
  · have h := getPrototypeSlot_sameObject signal self.next
    exact ⟨_, Function.update_same _ _ _, h.1, h.2.2.2.1⟩
  · exact ⟨signal, hs, signal.sameObject_refl, rfl⟩

theorem signalResult_timeout (self : Impl) (name : String) (signal : DBusSignal)
    (get_info : Bool) (events : List DBusEvent) :
    (signalResult self name signal get_info events).state.timeout_ = self.timeout_ := by
  unfold signalResult
  split <;> rfl

/-- One call of `DynamicGetter` changes no entry of another name. -/
theorem dynamicGetter_other (proxy : DBusProxy) (self : Impl) (name : String)
    (get_info : Bool) (m : String) (hm : m ≠ name) :
    (DynamicGetter proxy self name get_info).state.signals_ m = self.signals_ m := by
  unfold DynamicGetter
  split
  · exact signalResult_other _ _ _ _ _ m hm
  · split
    · rfl
    · split
      · rw [signalResult_other _ _ _ _ _ m hm]
        exact Function.update_noteq hm _ _
      · dsimp only
        split_ifs <;> rfl

/-- One call of `DynamicGetter` keeps the descriptor cached under its name. -/
theorem dynamicGetter_same (proxy : DBusProxy) (self : Impl) (name : String)
    (get_info : Bool) (d : DBusSignal) (hd : self.signals_ name = some d) :
    ∃ d', (DynamicGetter proxy self name get_info).state.signals_ name = some d' ∧
      d.SameObject d' := by
  unfold DynamicGetter
  split
  · rename_i sig hsig
    rw [hd] at hsig
    cases hsig
    obtain ⟨d', h1, h2, _⟩ := signalResult_same self name d get_info [] hd
    exact ⟨d', h1, h2⟩
  · rename_i hnone
    rw [hd] at hnone
    cases hnone

/-- One call of `DynamicGetter` on a name with a method caches nothing. -/
theorem dynamicGetter_method_uncached (proxy : DBusProxy) (self : Impl) (name : String)
    (get_info : Bool) (hc : self.signals_ name = none)
    (hmethod : proxy.GetMethodInfo name ≠ none) :
    (DynamicGetter proxy self name get_info).state.signals_ name = none := by
  unfold DynamicGetter
  split
  · rename_i sig hsig
    rw [hc] at hsig
    cases hsig
  · split
    · exact hc
    · rename_i hm
      exact absurd hm hmethod

theorem dynamicGetter_timeout (proxy : DBusProxy) (self : Impl) (name : String)
    (get_info : Bool) :
    (DynamicGetter proxy self name get_info).state.timeout_ = self.timeout_ := by
  unfold DynamicGetter
  split
  · exact signalResult_timeout _ _ _ _ _
  · split
    · rfl
    · split
      · exact signalResult_timeout _ _ _ _ _
      · dsimp only
        split_ifs <;> rfl

/-- One call of `DynamicSetter` changes no entry of another name. -/
theorem dynamicSetter_other (proxy : DBusProxy) (self : Impl) (name : String)
    (value : Variant) (m : String) (hm : m ≠ name) :
    (DynamicSetter proxy self name value).state.signals_ m = self.signals_ m := by
  unfold DynamicSetter
  split
  · split
    · exact Function.update_noteq hm _ _
    · rfl
  · split
    · split
      · simp only [Function.update_noteq hm]
      · exact Function.update_noteq hm _ _
    · dsimp only
      split_ifs <;> rfl

/-- One call of `DynamicSetter` keeps the descriptor cached under its name. -/
theorem dynamicSetter_same (proxy : DBusProxy) (self : Impl) (name : String)
    (value : Variant) (d : DBusSignal) (hd : self.signals_ name = some d) :
    ∃ d', (DynamicSetter proxy self name value).state.signals_ name = some d' ∧
      d.SameObject d' := by
  unfold DynamicSetter
  split
  · rename_i sig hsig
    rw [hd] at hsig
    cases hsig
    split
    · exact ⟨_, Function.update_same _ _ _, ⟨rfl, rfl, rfl, fun _ h => h⟩⟩
    · exact ⟨d, hd, d.sameObject_refl⟩
  · rename_i hnone
    rw [hd] at hnone
    cases hnone

theorem dynamicSetter_timeout (proxy : DBusProxy) (self : Impl) (name : String)
    (value : Variant) :
    (DynamicSetter proxy self name value).state.timeout_ = self.timeout_ := by
  unfold DynamicSetter
  split
  · split <;> rfl
  · split
    · split <;> rfl
    · dsimp only
      split_ifs <;> rfl

/-- Every call keeps every cached descriptor. -/
theorem step_sameObject (proxy : DBusProxy) (self : Impl) (op : Op) (m : String)
    (d : DBusSignal) (hd : self.signals_ m = some d) :
    ∃ d', (step proxy self op).signals_ m = some d' ∧ d.SameObject d' := by
  cases op with
  | get name get_info =>
    by_cases hm : m = name
    · subst hm
      exact dynamicGetter_same proxy self m get_info d hd
    · exact ⟨d, (dynamicGetter_other proxy self name get_info m hm).trans hd,
        d.sameObject_refl⟩
  | set name value =>
    by_cases hm : m = name
    · subst hm
      exact dynamicSetter_same proxy self m value d hd
    · exact ⟨d, (dynamicSetter_other proxy self name value m hm).trans hd,
        d.sameObject_refl⟩

/-- Every sequence of calls keeps every cached descriptor. -/
theorem run_sameObject (proxy : DBusProxy) (ops : List Op) :
    ∀ (self : Impl) (m : String) (d : DBusSignal), self.signals_ m = some d →
      ∃ d', (run proxy self ops).signals_ m = some d' ∧ d.SameObject d' := by
  induction ops with
  | nil => intro self m d hd; exact ⟨d, hd, d.sameObject_refl⟩
  | cons op rest ih =>
    intro self m d hd
    obtain ⟨d1, h1, s1⟩ := step_sameObject proxy self op m d hd
    obtain ⟨d2, h2, s2⟩ := ih (step proxy self op) m d1 h1
    exact ⟨d2, h2, DBusSignal.sameObject_trans s1 s2⟩

/-- A name with a method stays out of the cache as long as it is not
assigned to; the timeout does not change. -/
theorem run_uncached (proxy : DBusProxy) (name : String)
    (hmethod : proxy.GetMethodInfo name ≠ none) (ops : List Op) :
    ∀ (self : Impl), self.signals_ name = none → (∀ v, Op.set name v ∉ ops) →
      (run proxy self ops).signals_ name = none ∧
      (run proxy self ops).timeout_ = self.timeout_ := by
  induction ops with
  | nil => intro self h _; exact ⟨h, rfl⟩
  | cons op rest ih =>
    intro self h hops
    have hrest : ∀ v, Op.set name v ∉ rest := fun v hv => hops v (List.mem_cons_of_mem _ hv)
    have hstep : (step proxy self op).signals_ name = none ∧
        (step proxy self op).timeout_ = self.timeout_ := by
      cases op with
      | get n g =>
        refine ⟨?_, dynamicGetter_timeout proxy self n g⟩
        by_cases hn : name = n
        · subst hn
          exact dynamicGetter_method_uncached proxy self name g h hmethod
        · exact (dynamicGetter_other proxy self n g name hn).trans h
      | set n v =>
        refine ⟨?_, dynamicSetter_timeout proxy self n v⟩
        by_cases hn : name = n
        · subst hn
          exact absurd (List.mem_cons_self _ _) (hops v)
        · exact (dynamicSetter_other proxy self n v name hn).trans h
    obtain ⟨h1, h2⟩ := ih (step proxy self op) hstep.1 hrest
    exact ⟨h1, h2.trans hstep.2⟩

end dbus

namespace smjs

end smjs

namespace dbus

open smjs

theorem cached_getter_value (proxy : DBusProxy) (self : Impl) (name : String)
    (d : DBusSignal) (hd : self.signals_ name = some d) :
    (DynamicGetter proxy self name false).value = .connectedSlot d.default_slot ∧
    (DynamicGetter proxy self name false).events = [] := by
  simp [DynamicGetter, hd, signalResult, DBusSignal.GetDefaultConnectedSlot, Signal.slot]

theorem cached_getter_info (proxy : DBusProxy) (self : Impl) (name : String)
    (d : DBusSignal) (hd : self.signals_ name = some d) :
    (DynamicGetter proxy self name true).value =
      .prototypeSlot (d.prototype_slot_.getD self.next) ∧
    (∃ d', (DynamicGetter proxy self name true).state.signals_ name = some d' ∧
      d'.prototype_slot_ = some (d.prototype_slot_.getD self.next)) ∧
    (∀ id, DBusEvent.newDBusSignal id ∉ (DynamicGetter proxy self name true).events) := by
  have h := getPrototypeSlot_sameObject d self.next
  simp only [DynamicGetter, hd, signalResult, if_true, List.nil_append]
  refine ⟨by rw [h.2.1], ⟨_, Function.update_same _ _ _, h.2.2.1⟩, h.2.2.2.2⟩

/-- C15 (as the code has it): in every state reached by a sequence of
`DynamicGetter` calls and of `DynamicSetter` calls on other names, a name for
which the proxy reports a method, even if it also reports a signal of that
name, is not in the signal cache and `DynamicGetter` resolves it to the
method callable. -/
theorem method_priority_reachable (proxy : DBusProxy) (self : Impl) (name : String)
    (info : MethodInfo) (hcache : self.signals_ name = none)
    (hmethod : proxy.GetMethodInfo name = some info)
    (ops : List Op) (hops : ∀ v, Op.set name v ∉ ops) (get_info : Bool) :
    (run proxy self ops).signals_ name = none ∧
    (DynamicGetter proxy (run proxy self ops) name get_info).value =
      .function ⟨name, true, self.timeout_, info.argc, info.arg_types, info.retc,
        info.ret_types⟩ := by
  have hne : proxy.GetMethodInfo name ≠ none := by rw [hmethod]; exact fun h => by cases h
  obtain ⟨h1, h2⟩ := run_uncached proxy name hne ops self hcache hops
  refine ⟨h1, ?_⟩
  simp only [DynamicGetter, h1, hmethod, h2]

/-- Witness of C15: `Notify` is a method and a signal; after reads of
`Notify` and an assignment to the signal `Changed` it is still resolved to
the method. -/
theorem method_priority_reachable_witness :
    (Impl.init.signals_ "Notify" = none ∧
      sampleProxy.GetMethodInfo "Notify" = some ⟨1, some [.TYPE_STRING], 0, none⟩ ∧
      sampleProxy.GetSignalInfo "Notify" ≠ none) ∧
    (DynamicGetter sampleProxy
      (run sampleProxy Impl.init
        [.get "Notify" true, .set "Changed" (.slot (some (.native 1))), .get "Notify" false])
      "Notify" false).value =
      .function ⟨"Notify", true, -1, 1, some [.TYPE_STRING], 0, none⟩ :=
  ⟨⟨rfl, by decide, by decide⟩,
    (method_priority_reachable sampleProxy Impl.init "Notify"
      ⟨1, some [.TYPE_STRING], 0, none⟩ rfl (by decide)
      [.get "Notify" true, .set "Changed" (.slot (some (.native 1))), .get "Notify" false]
      (by intro v h; simp at h) false).2⟩

/-- Counterexample to C15 as stated: the sample proxy reports `Notify` as a
method and as a signal; after the call `DynamicSetter("Notify", slot)` on the
initial state the signal is cached, and `DynamicGetter("Notify")` returns the
slot connected to the signal, not the method callable. -/
theorem method_priority_counterexample :
    sampleProxy.GetMethodInfo "Notify" = some ⟨1, some [.TYPE_STRING], 0, none⟩ ∧
    (DynamicGetter sampleProxy
      (run sampleProxy Impl.init [.set "Notify" (.slot (some (.native 1)))])
      "Notify" false).value = .connectedSlot (some (.native 1)) ∧
    (DynamicGetter sampleProxy
      (run sampleProxy Impl.init [.set "Notify" (.slot (some (.native 1)))])
      "Notify" false).value ≠
      .function ⟨"Notify", true, -1, 1, some [.TYPE_STRING], 0, none⟩ := by
  decide

/-- C16: for a name that the proxy reports as a signal and not as a method,
the first `DynamicGetter` creates one descriptor and caches it under the
name.  After any further calls the cache still holds that descriptor under
the name; a later `DynamicGetter` of the name creates no descriptor, returns
the slot connected to that descriptor for a value query, and returns one and
the same prototype slot for every introspection query. -/
theorem signal_caching (proxy : DBusProxy) (self : Impl) (name : String)
    (info : SignalInfo) (hcache : self.signals_ name = none)
    (hmethod : proxy.GetMethodInfo name = none)
    (hsignal : proxy.GetSignalInfo name = some info) (get_info : Bool)
    (ops : List Op) :
    ∃ d, (DynamicGetter proxy self name get_info).state.signals_ name = some d ∧
      d.id = self.next ∧ d.argc_ = info.argc ∧ d.arg_types_ = info.arg_types ∧
      (DynamicGetter proxy self name get_info).events =
        [.GetMethodInfo name, .GetSignalInfo name, .newDBusSignal self.next] ++
          (if get_info then [.newSignalSlot (self.next + 1)] else []) ∧
      ∃ d2, (run proxy (DynamicGetter proxy self name get_info).state ops).signals_ name =
          some d2 ∧
        d.SameObject d2 ∧
        (∀ g id, DBusEvent.newDBusSignal id ∉
          (DynamicGetter proxy
            (run proxy (DynamicGetter proxy self name get_info).state ops) name g).events) ∧
        (DynamicGetter proxy
          (run proxy (DynamicGetter proxy self name get_info).state ops) name false).value =
          .connectedSlot d2.default_slot ∧
        (∀ ops2,
          (DynamicGetter proxy
            (run proxy
              (DynamicGetter proxy
                (run proxy (DynamicGetter proxy self name get_info).state ops)
                name true).state ops2) name true).value =
          (DynamicGetter proxy
            (run proxy (DynamicGetter proxy self name get_info).state ops)
            name true).value) := by
  have hfirst : ∃ d, (DynamicGetter proxy self name get_info).state.signals_ name = some d ∧
      d.id = self.next ∧ d.argc_ = info.argc ∧ d.arg_types_ = info.arg_types ∧
      (DynamicGetter proxy self name get_info).events =
        [.GetMethodInfo name, .GetSignalInfo name, .newDBusSignal self.next] ++
          (if get_info then [.newSignalSlot (self.next + 1)] else []) := by
    cases get_info with
    | false =>
      simp [DynamicGetter, hcache, hmethod, hsignal, signalResult]
    | true =>
      simp [DynamicGetter, hcache, hmethod, hsignal, signalResult,
        DBusSignal.GetPrototypeSlot]
  obtain ⟨d, hd, h1, h2, h3, h4⟩ := hfirst
  refine ⟨d, hd, h1, h2, h3, h4, ?_⟩
  obtain ⟨d2, hd2, hsame⟩ := run_sameObject proxy ops _ name d hd
  refine ⟨d2, hd2, hsame, ?_, (cached_getter_value proxy _ name d2 hd2).1, ?_⟩
  · intro g id
    cases g with
    | false =>
      rw [(cached_getter_value proxy _ name d2 hd2).2]
      simp
    | true => exact (cached_getter_info proxy _ name d2 hd2).2.2 id
  · intro ops2
    obtain ⟨hv, ⟨d3, hd3, hp3⟩, _⟩ := cached_getter_info proxy _ name d2 hd2
    obtain ⟨d4, hd4, hsame4⟩ := run_sameObject proxy ops2 _ name d3 hd3
    have hp4 := hsame4.2.2.2 _ hp3
    rw [(cached_getter_info proxy _ name d4 hd4).1, hp4, hv]
    rfl

/-- Witness of C16: `Changed` is a signal and no method of the sample proxy. -/
theorem signal_caching_witness :
    (Impl.init.signals_ "Changed" = none ∧ sampleProxy.GetMethodInfo "Changed" = none ∧
      sampleProxy.GetSignalInfo "Changed" = some ⟨1, some [.TYPE_INT64]⟩) ∧
    ∃ d, (DynamicGetter sampleProxy Impl.init "Changed" true).state.signals_ "Changed" =
        some d ∧ d.id = 0 :=
  ⟨⟨rfl, by decide, by decide⟩,
    (signal_caching sampleProxy Impl.init "Changed" ⟨1, some [.TYPE_INT64]⟩ rfl
      (by decide) (by decide) true []).imp (fun _ h => ⟨h.1, h.2.1⟩)⟩

/-- C17: `DynamicSetter` on a signal name with a callback slot returns true
and leaves the signal cached with that callback connected: a value query of
`DynamicGetter` returns the callback, and `EmitSignal` of the name emits the
cached signal with the arguments it is given, between `Ref` and `Unref` of
the owner; `EmitSignal` of a name that is not in the cache does nothing. -/
theorem set_then_get (proxy : DBusProxy) (self : Impl) (name : String)
    (slot : Option SlotRef)
    (hsig : self.signals_ name ≠ none ∨ proxy.GetSignalInfo name ≠ none) :
    (DynamicSetter proxy self name (.slot slot)).result = true ∧
    (DynamicGetter proxy (DynamicSetter proxy self name (.slot slot)).state name false).value =
      .connectedSlot slot ∧
    (∃ d, (DynamicSetter proxy self name (.slot slot)).state.signals_ name = some d ∧
      d.default_slot = slot ∧
      ∀ argc argv, EmitSignal (DynamicSetter proxy self name (.slot slot)).state name argc argv =
        [.Ref, .Emit d.id argc argv, .Unref]) ∧
    (∀ (s : Impl) (n : String) argc argv, s.signals_ n = none →
      EmitSignal s n argc argv = []) := by
  have hstate : ∃ d, (DynamicSetter proxy self name (.slot slot)).state.signals_ name =
      some d ∧ d.default_slot = slot := by
    cases hc : self.signals_ name with
    | some sig =>
      simp [DynamicSetter, hc, Variant.type, DBusSignal.SetDefaultConnectedSlot,
        Signal.Reconnect, Variant.slotValue]
    | none =>
      cases hs : proxy.GetSignalInfo name with
      | some info =>
        simp [DynamicSetter, hc, hs, Variant.type, DBusSignal.SetDefaultConnectedSlot,
          Signal.Reconnect, Variant.slotValue]
      | none =>
        rcases hsig with h | h
        · exact absurd hc h
        · exact absurd hs h
  have hres : (DynamicSetter proxy self name (.slot slot)).result = true := by
    cases hc : self.signals_ name with
    | some sig =>
      simp [DynamicSetter, hc, Variant.type, DBusSignal.SetDefaultConnectedSlot, Signal.Reconnect]
    | none =>
      cases hs : proxy.GetSignalInfo name with
      | some info =>
        simp [DynamicSetter, hc, hs, Variant.type, DBusSignal.SetDefaultConnectedSlot, Signal.Reconnect]
      | none =>
        rcases hsig with h | h
        · exact absurd hc h
        · exact absurd hs h
  obtain ⟨d, hd, hslot⟩ := hstate
  refine ⟨hres, ?_, ⟨d, hd, hslot, ?_⟩, ?_⟩
  · rw [(cached_getter_value proxy _ name d hd).1, hslot]
  · intro argc argv
    simp [EmitSignal, hd, DBusSignal.Emit]
  · intro s n argc argv hn
    simp [EmitSignal, hn]

/-- Witness of C17: a callback is assigned to the signal `Changed`. -/
theorem set_then_get_witness :
    sampleProxy.GetSignalInfo "Changed" ≠ none ∧
    (DynamicGetter sampleProxy
      (DynamicSetter sampleProxy Impl.init "Changed" (.slot (some (.native 7)))).state
      "Changed" false).value = .connectedSlot (some (.native 7)) :=
  ⟨by decide,
    (set_then_get sampleProxy Impl.init "Changed" (some (.native 7))
      (Or.inr (by decide))).2.1⟩

end dbus

namespace smjs

end smjs

namespace dbus

open smjs

/-! ## Registration, failed assignments and return values of the D-Bus object -/

/-- C21 (as the code has it): `DoClassRegister` registers each of `$name`,
`$path`, `$interface`, `$methods`, `$signals`, `$properties`, `$children` and
`$interfaces` once, with a getter and no setter; it registers `$timeout`
once, with the getter `GetTimeout` and the setter `SetTimeout`, which stores
a timeout that is not negative and -1 otherwise. -/
theorem doClassRegister_properties :
    registeredAs (DoClassRegister true) "$name" = [(.GetName, none)] ∧
    registeredAs (DoClassRegister true) "$path" = [(.GetPath, none)] ∧
    registeredAs (DoClassRegister true) "$interface" = [(.GetInterface, none)] ∧
    registeredAs (DoClassRegister true) "$methods" = [(.ListMethods, none)] ∧
    registeredAs (DoClassRegister true) "$signals" = [(.ListSignals, none)] ∧
    registeredAs (DoClassRegister true) "$properties" = [(.ListProperties, none)] ∧
    registeredAs (DoClassRegister true) "$children" = [(.ListChildren, none)] ∧
    registeredAs (DoClassRegister true) "$interfaces" = [(.ListInterfaces, none)] ∧
    registeredAs (DoClassRegister true) "$timeout" = [(.GetTimeout, some .SetTimeout)] ∧
    (∀ (self : Impl) (timeout : Int), 0 ≤ timeout →
      (self.SetTimeout timeout).GetTimeout = timeout) ∧
    (∀ (self : Impl) (timeout : Int), timeout < 0 →
      (self.SetTimeout timeout).GetTimeout = -1) := by
  refine ⟨by decide, by decide, by decide, by decide, by decide, by decide, by decide,
    by decide, by decide, ?_, ?_⟩
  · intro self timeout h
    have h2 : timeout ≥ 0 := h
    simp [Impl.SetTimeout, Impl.GetTimeout, h2]
  · intro self timeout h
    have h2 : ¬ timeout ≥ 0 := by omega
    simp [Impl.SetTimeout, Impl.GetTimeout, h2]

/-- Witness of C21: a timeout of 500 is stored by the setter of `$timeout`. -/
theorem doClassRegister_properties_witness :
    (Impl.init.SetTimeout 500).GetTimeout = 500 :=
  doClassRegister_properties.2.2.2.2.2.2.2.2.2.1 Impl.init 500 (by decide)

/-- Counterexample to C21 as stated: `$timeout` is registered with a
setter. -/
theorem doClassRegister_timeout_counterexample :
    ¬ (∀ name ∈ ["$name", "$path", "$interface", "$timeout", "$methods", "$signals",
        "$properties", "$children", "$interfaces"],
      ∀ r ∈ registeredAs (DoClassRegister true) name, r.2 = none) := by
  decide

/-- C26: when `DynamicSetter` is called for a name that is not cached and
that the proxy reports as a signal, with a value that is not of kind SLOT,
it returns false but has created and cached a descriptor for the name; a
later `DynamicGetter` of the name is answered from the cache, with the slot
of that descriptor and without a call to the proxy. -/
theorem dynamicSetter_failed_assignment_caches (proxy : DBusProxy) (self : Impl)
    (name : String) (value : Variant) (info : SignalInfo)
    (hcache : self.signals_ name = none)
    (hsignal : proxy.GetSignalInfo name = some info)
    (hvalue : value.type ≠ .TYPE_SLOT) :
    (DynamicSetter proxy self name value).result = false ∧
    (DynamicSetter proxy self name value).events =
      [.GetSignalInfo name, .newDBusSignal self.next] ∧
    (DynamicSetter proxy self name value).state.signals_ name =
      some { id := self.next, argc_ := info.argc, arg_types_ := info.arg_types,
             prototype_slot_ := none, default_slot := none } ∧
    (DynamicGetter proxy (DynamicSetter proxy self name value).state name false).value =
      .connectedSlot none ∧
    (DynamicGetter proxy (DynamicSetter proxy self name value).state name false).events =
      [] ∧
    (DynamicGetter proxy (DynamicSetter proxy self name value).state name true).value =
      .prototypeSlot (self.next + 1) ∧
    (DynamicGetter proxy (DynamicSetter proxy self name value).state name true).events =
      [.newSignalSlot (self.next + 1)] := by
  have hstate : (DynamicSetter proxy self name value).state.signals_ name =
      some { id := self.next, argc_ := info.argc, arg_types_ := info.arg_types,
             prototype_slot_ := none, default_slot := none } ∧
      (DynamicSetter proxy self name value).state.next = self.next + 1 := by
    simp [DynamicSetter, hcache, hsignal, hvalue]
  refine ⟨?_, ?_, hstate.1, ?_, ?_, ?_, ?_⟩
  · simp [DynamicSetter, hcache, hsignal, hvalue]
  · simp [DynamicSetter, hcache, hsignal, hvalue]
  · rw [(cached_getter_value proxy _ name _ hstate.1).1]
  · exact (cached_getter_value proxy _ name _ hstate.1).2
  · rw [(cached_getter_info proxy _ name _ hstate.1).1, hstate.2]
    rfl
  · simp [DynamicGetter, hstate.1, hstate.2, signalResult, DBusSignal.GetPrototypeSlot]

/-- Witness of C26: a number is assigned to the signal `Changed`. -/
theorem dynamicSetter_failed_assignment_caches_witness :
    (Impl.init.signals_ "Changed" = none ∧
      sampleProxy.GetSignalInfo "Changed" = some ⟨1, some [.TYPE_INT64]⟩ ∧
      (Variant.int64 1).type ≠ .TYPE_SLOT) ∧
    (DynamicSetter sampleProxy Impl.init "Changed" (.int64 1)).result = false ∧
    (DynamicGetter sampleProxy (DynamicSetter sampleProxy Impl.init "Changed"
      (.int64 1)).state "Changed" false).events = [] :=
  ⟨⟨rfl, by decide, by decide⟩,
    (dynamicSetter_failed_assignment_caches sampleProxy Impl.init "Changed" (.int64 1)
      ⟨1, some [.TYPE_INT64]⟩ rfl (by decide) (by decide)).1,
    (dynamicSetter_failed_assignment_caches sampleProxy Impl.init "Changed" (.int64 1)
      ⟨1, some [.TYPE_INT64]⟩ rfl (by decide) (by decide)).2.2.2.2.1⟩

theorem afterCalls_nonneg (calls : List (Int × Variant)) :
    ∀ (self : ReturnValueReceiver), (∀ c ∈ calls, 0 ≤ c.1) →
      (self.afterCalls calls).return_values_ =
        self.return_values_ ++ calls.map (fun c => c.2) := by
  induction calls with
  | nil => intro self _; simp [ReturnValueReceiver.afterCalls]
  | cons c rest ih =>
    intro self h
    obtain ⟨index, value⟩ := c
    have h0 : index ≥ 0 := h (index, value) (List.mem_cons_self _ _)
    rw [ReturnValueReceiver.afterCalls, ih _ (fun c hc => h c (List.mem_cons_of_mem _ hc))]
    simp [ReturnValueReceiver.Callback, h0]

/-- C29: after the result callback has been invoked with the values
`v1..vn`, each with an index that is not negative, `GetReturnValue` gives a
VOID value when `n = 0`, the value `v1` when `n = 1`, and otherwise an array
of length `n` whose item `i` is the value of the call `i`; a callback with a
negative index returns false and records nothing; `Call` returns the
aggregate when `CallMethod` succeeds and an empty result when it fails. -/
theorem returnValue_aggregation (calls : List (Int × Variant))
    (hcalls : ∀ c ∈ calls, 0 ≤ c.1) :
    (calls.length = 0 →
      ((⟨[]⟩ : ReturnValueReceiver).afterCalls calls).GetReturnValue = .value .void) ∧
    (∀ index v, calls = [(index, v)] →
      ((⟨[]⟩ : ReturnValueReceiver).afterCalls calls).GetReturnValue = .value v) ∧
    (2 ≤ calls.length →
      ∃ a, ((⟨[]⟩ : ReturnValueReceiver).afterCalls calls).GetReturnValue = .array a ∧
        a.GetCount = calls.length ∧
        ∀ i, i < calls.length → a.GetItem i = ((calls.map (fun c => c.2)).getD i .void)) ∧
    (∀ (self : ReturnValueReceiver) index v, index < 0 →
      self.Callback index v = (false, self)) ∧
    (∀ (self : ReturnValueReceiver) index v, 0 ≤ index →
      self.Callback index v = (true, ⟨self.return_values_ ++ [v]⟩)) ∧
    (∀ (slot : DBusMethodSlot) argc argv,
      slot.Call argc argv (true, calls) =
        ((⟨[]⟩ : ReturnValueReceiver).afterCalls calls).GetReturnValue) ∧
    (∀ (slot : DBusMethodSlot) argc argv (made : List (Int × Variant)),
      slot.Call argc argv (false, made) = .value .void) := by
  have hvals := afterCalls_nonneg calls ⟨[]⟩ hcalls
  simp only [List.nil_append] at hvals
  refine ⟨?_, ?_, ?_, ?_, ?_, ?_, ?_⟩
  · intro h
    simp [ReturnValueReceiver.GetReturnValue, hvals, h]
  · intro index v h
    subst h
    simp [ReturnValueReceiver.GetReturnValue, hvals]
  · intro h
    refine ⟨ScriptableArray.Create (calls.map (fun c => c.2)), ?_, ?_, ?_⟩
    · have h0 : ¬ calls.length = 0 := by omega
      have h1 : ¬ calls.length = 1 := by omega
      simp [ReturnValueReceiver.GetReturnValue, hvals, h0, h1]
    · simp [ScriptableArray.Create, ScriptableArray.GetCount]
    · intro i hi
      simp [ScriptableArray.Create, ScriptableArray.GetItem, hi]
  · intro self index v h
    have h0 : ¬ index ≥ 0 := by omega
    simp [ReturnValueReceiver.Callback, h0]
  · intro self index v h
    have h0 : index ≥ 0 := h
    simp [ReturnValueReceiver.Callback, h0]
  · intro slot argc argv
    simp [DBusMethodSlot.Call]
  · intro slot argc argv made
    simp [DBusMethodSlot.Call]

/-- Witness of C29: three values are aggregated into an array, and a value
with a negative index in between is left out. -/
theorem returnValue_aggregation_witness :
    (∀ c ∈ [((0 : Int), Variant.int64 1), (1, .bool true), (2, .string (some "x"))],
      0 ≤ c.1) ∧
    (∃ a, ((⟨[]⟩ : ReturnValueReceiver).afterCalls
        [(0, .int64 1), (1, .bool true), (2, .string (some "x"))]).GetReturnValue =
        .array a ∧ a.GetCount = 3) ∧
    ((⟨[]⟩ : ReturnValueReceiver).afterCalls
      [(0, .int64 1), (-1, .bool true), (2, .string (some "x"))]).GetReturnValue =
      .array ⟨[.int64 1, .string (some "x")], 2⟩ :=
  ⟨by decide,
    ((returnValue_aggregation
      [(0, .int64 1), (1, .bool true), (2, .string (some "x"))] (by decide)).2.2.1
      (by decide)).imp (fun _ h => ⟨h.1, h.2.1⟩),
    by decide⟩

end dbus

namespace smjs

end smjs

namespace trunk

open smjs

/-! ## The wrapper registry -/

theorem step_wrappersOk (self : JSScriptContext) (op : Op) (h : self.WrappersOk) :
    (step self op).WrappersOk := by
  intro o w hw
  cases op with
  | wrap scriptable =>
    simp only [step, WrapNativeObjectToJSInternal] at hw
    cases hm : self.wrapper_map_ scriptable with
    | some w0 =>
      rw [hm] at hw
      exact h o w hw
    | none =>
      rw [hm] at hw
      simp only at hw
      by_cases ho : o = scriptable
      · subst ho
        rw [Function.update_same] at hw
        cases hw
        rfl
      · rw [Function.update_noteq ho] at hw
        exact h o w hw
  | finalize wrapper =>
    simp only [step, FinalizeNativeJSWrapperInternal] at hw
    by_cases ho : o = wrapper.scriptable
    · subst ho
      rw [Function.update_same] at hw
      cases hw
    · rw [Function.update_noteq ho] at hw
      exact h o w hw
  | newSlot slot prototype function_val => exact h o w hw
  | compile slot function => exact h o w hw
  | newNativeSlot slot => exact h o w hw
  | deleteSlot slot => exact h o w hw

theorem run_wrappersOk (ops : List Op) :
    ∀ (self : JSScriptContext), self.WrappersOk → (run self ops).WrappersOk := by
  induction ops with
  | nil => intro self h; exact h
  | cons op rest ih => intro self h; exact ih (step self op) (step_wrappersOk self op h)

/-- C22: `WrapNativeObjectToJSInternal` returns the wrapper registered for
the object when there is one and leaves the state unchanged; otherwise it
creates a wrapper of the object and registers it under the object, leaving
the other entries as they were.  Two consecutive wraps of an object return
the same wrapper, and after any sequence of calls from the initial state
every registered wrapper is registered under the object it wraps, so that
the registry holds at most one wrapper for an object. -/
theorem wrap_get_or_create :
    (∀ (self : JSScriptContext) (o : Nat) (w : NativeJSWrapper),
      self.wrapper_map_ o = some w →
      (WrapNativeObjectToJSInternal self o).1 = w.js_object ∧
      (WrapNativeObjectToJSInternal self o).2.1 = w ∧
      (WrapNativeObjectToJSInternal self o).2.2.wrapper_map_ = self.wrapper_map_ ∧
      (WrapNativeObjectToJSInternal self o).2.2.next = self.next) ∧
    (∀ (self : JSScriptContext) (o : Nat), self.wrapper_map_ o = none →
      (WrapNativeObjectToJSInternal self o).2.1 = ⟨o, self.next⟩ ∧
      (WrapNativeObjectToJSInternal self o).1 = self.next ∧
      (WrapNativeObjectToJSInternal self o).2.2.wrapper_map_ o = some ⟨o, self.next⟩ ∧
      ∀ o', o' ≠ o →
        (WrapNativeObjectToJSInternal self o).2.2.wrapper_map_ o' = self.wrapper_map_ o') ∧
    (∀ (self : JSScriptContext) (o : Nat),
      (WrapNativeObjectToJSInternal (WrapNativeObjectToJSInternal self o).2.2 o).2.1 =
        (WrapNativeObjectToJSInternal self o).2.1 ∧
      (WrapNativeObjectToJSInternal (WrapNativeObjectToJSInternal self o).2.2 o).1 =
        (WrapNativeObjectToJSInternal self o).1) ∧
    (∀ (context : Nat) (ops : List Op) (o1 o2 : Nat) (w1 w2 : NativeJSWrapper),
      (run (JSScriptContext.init context) ops).wrapper_map_ o1 = some w1 →
      (run (JSScriptContext.init context) ops).wrapper_map_ o2 = some w2 →
      w1.scriptable = w2.scriptable → o1 = o2 ∧ w1 = w2) := by
  refine ⟨?_, ?_, ?_, ?_⟩
  · intro self o w h
    simp [WrapNativeObjectToJSInternal, h]
  · intro self o h
    simp only [WrapNativeObjectToJSInternal, h, true_and]
    refine ⟨Function.update_same _ _ _, ?_⟩
    intro o' ho
    exact Function.update_noteq ho _ _
  · intro self o
    cases h : self.wrapper_map_ o with
    | some w => simp [WrapNativeObjectToJSInternal, h]
    | none => simp [WrapNativeObjectToJSInternal, h]
  · intro context ops o1 o2 w1 w2 h1 h2 hs
    have hok : (run (JSScriptContext.init context) ops).WrappersOk :=
      run_wrappersOk ops _ (fun o w h => by cases h)
    have e1 := hok o1 w1 h1
    have e2 := hok o2 w2 h2
    have ho : o1 = o2 := by rw [← e1, ← e2, hs]
    refine ⟨ho, ?_⟩
    subst ho
    rw [h1] at h2
    exact Option.some.inj h2

/-- Witness of C22: the object 7 is wrapped twice in the initial state. -/
theorem wrap_get_or_create_witness :
    (JSScriptContext.init 0).wrapper_map_ 7 = none ∧
    (WrapNativeObjectToJSInternal (JSScriptContext.init 0) 7).2.1 = ⟨7, 0⟩ ∧
    (WrapNativeObjectToJSInternal
      (WrapNativeObjectToJSInternal (JSScriptContext.init 0) 7).2.2 7).2.1 = ⟨7, 0⟩ :=
  ⟨rfl, (wrap_get_or_create.2.1 (JSScriptContext.init 0) 7 rfl).1,
    (wrap_get_or_create.2.2.1 (JSScriptContext.init 0) 7).1.trans
      (wrap_get_or_create.2.1 (JSScriptContext.init 0) 7 rfl).1⟩

/-- C23: `FinalizeNativeJSWrapperInternal` removes the entry keyed by the
object of the wrapper and changes nothing else; when there is no such entry,
as in the second of two removals, the registry stays as it was; a wrap of
the object after the removal creates a new wrapper and registers it. -/
theorem finalize_removes_entry (self : JSScriptContext) (w : NativeJSWrapper) :
    (FinalizeNativeJSWrapperInternal self w).wrapper_map_ w.scriptable = none ∧
    (∀ o, o ≠ w.scriptable →
      (FinalizeNativeJSWrapperInternal self w).wrapper_map_ o = self.wrapper_map_ o) ∧
    (FinalizeNativeJSWrapperInternal self w).slot_js_map_ = self.slot_js_map_ ∧
    (FinalizeNativeJSWrapperInternal self w).next = self.next ∧
    (self.wrapper_map_ w.scriptable = none →
      (FinalizeNativeJSWrapperInternal self w).wrapper_map_ = self.wrapper_map_) ∧
    (FinalizeNativeJSWrapperInternal (FinalizeNativeJSWrapperInternal self w) w).wrapper_map_ =
      (FinalizeNativeJSWrapperInternal self w).wrapper_map_ ∧
    (WrapNativeObjectToJSInternal (FinalizeNativeJSWrapperInternal self w)
      w.scriptable).2.1 = ⟨w.scriptable, self.next⟩ ∧
    (WrapNativeObjectToJSInternal (FinalizeNativeJSWrapperInternal self w)
      w.scriptable).2.2.wrapper_map_ w.scriptable = some ⟨w.scriptable, self.next⟩ ∧
    (w.js_object < self.next →
      (WrapNativeObjectToJSInternal (FinalizeNativeJSWrapperInternal self w)
        w.scriptable).2.1 ≠ w) := by
  have hnone : (FinalizeNativeJSWrapperInternal self w).wrapper_map_ w.scriptable = none :=
    Function.update_same _ _ _
  have hwrap : (WrapNativeObjectToJSInternal (FinalizeNativeJSWrapperInternal self w)
      w.scriptable).2.1 = ⟨w.scriptable, self.next⟩ := by
    simp only [WrapNativeObjectToJSInternal, hnone]
    rfl
  refine ⟨hnone, ?_, rfl, rfl, ?_, ?_, hwrap, ?_, ?_⟩
  · intro o ho
    exact Function.update_noteq ho _ _
  · intro h
    funext o
    by_cases ho : o = w.scriptable
    · subst ho
      rw [hnone, h]
    · exact Function.update_noteq ho _ _
  · funext o
    by_cases ho : o = w.scriptable
    · subst ho
      simp [FinalizeNativeJSWrapperInternal]
    · simp [FinalizeNativeJSWrapperInternal, Function.update_noteq ho]
  · simp only [WrapNativeObjectToJSInternal, hnone]
    exact Function.update_same _ _ _
  · intro hlt heq
    rw [hwrap] at heq
    have : self.next = w.js_object := by
      have := congrArg NativeJSWrapper.js_object heq
      simpa using this
    omega

/-- Witness of C23: the wrapper of object 7 is finalized and the object is
wrapped again. -/
theorem finalize_removes_entry_witness :
    ((⟨7, 0⟩ : NativeJSWrapper).js_object <
      (WrapNativeObjectToJSInternal (JSScriptContext.init 0) 7).2.2.next) ∧
    (WrapNativeObjectToJSInternal
      (FinalizeNativeJSWrapperInternal
        (WrapNativeObjectToJSInternal (JSScriptContext.init 0) 7).2.2 ⟨7, 0⟩)
      7).2.1 ≠ ⟨7, 0⟩ :=
  ⟨by decide,
    (finalize_removes_entry (WrapNativeObjectToJSInternal (JSScriptContext.init 0) 7).2.2
      ⟨7, 0⟩).2.2.2.2.2.2.2.2 (by decide)⟩

/-- C24: two `JSFunctionSlot` adapters are equal exactly when they hold the
same function value, whatever their prototypes and contexts; the equality is
reflexive, symmetric and transitive, and adapters of different functions are
not equal. -/
theorem jsFunctionSlot_equality :
    (∀ a b : JSFunctionSlot, a.operatorEq b = true ↔ a.function_val_ = b.function_val_) ∧
    (∀ (p1 p2 p3 p4 : Option Slot) (c1 c2 c3 c4 : Nat) (f g : JSVal),
      (⟨p1, c1, f⟩ : JSFunctionSlot).operatorEq ⟨p2, c2, g⟩ =
        (⟨p3, c3, f⟩ : JSFunctionSlot).operatorEq ⟨p4, c4, g⟩) ∧
    (∀ a : JSFunctionSlot, a.operatorEq a = true) ∧
    (∀ a b : JSFunctionSlot, a.operatorEq b = true → b.operatorEq a = true) ∧
    (∀ a b c : JSFunctionSlot, a.operatorEq b = true → b.operatorEq c = true →
      a.operatorEq c = true) ∧
    (∀ a b : JSFunctionSlot, a.function_val_ ≠ b.function_val_ →
      a.operatorEq b = false) := by
  have hiff : ∀ a b : JSFunctionSlot,
      a.operatorEq b = true ↔ a.function_val_ = b.function_val_ := by
    intro a b
    simp [JSFunctionSlot.operatorEq]
  refine ⟨hiff, fun _ _ _ _ _ _ _ _ _ _ => rfl, ?_, ?_, ?_, ?_⟩
  · intro a
    exact (hiff a a).mpr rfl
  · intro a b h
    exact (hiff b a).mpr ((hiff a b).mp h).symm
  · intro a b c h1 h2
    exact (hiff a c).mpr (((hiff a b).mp h1).trans ((hiff b c).mp h2))
  · intro a b h
    cases hx : a.operatorEq b with
    | false => rfl
    | true => exact absurd ((hiff a b).mp hx) h

/-- Witness of C24: adapters of the functions 4 and 5. -/
theorem jsFunctionSlot_equality_witness :
    (⟨none, 0, .object 4⟩ : JSFunctionSlot).operatorEq ⟨some threeParamSlot, 1, .object 4⟩ =
      true ∧
    (⟨none, 0, .object 4⟩ : JSFunctionSlot).operatorEq ⟨none, 0, .object 5⟩ = false :=
  ⟨(jsFunctionSlot_equality.1 _ _).mpr rfl,
    jsFunctionSlot_equality.2.2.2.2.2 _ _ (by decide)⟩

end trunk

namespace smjs

end smjs

namespace trunk

open smjs

/-! ## The slot map -/

theorem step_slot_map (self : JSScriptContext) (op : Op) (a : Nat)
    (h : ∀ prototype function_val, op ≠ .newSlot a prototype function_val) :
    (step self op).slot_js_map_ a = self.slot_js_map_ a := by
  cases op with
  | wrap scriptable =>
    simp only [step, WrapNativeObjectToJSInternal]
    cases self.wrapper_map_ scriptable with
    | none => rfl
    | some w => rfl
  | finalize wrapper => rfl
  | newSlot slot prototype function_val =>
    have hne : a ≠ slot := by
      intro ha
      exact h prototype function_val (by rw [ha])
    exact Function.update_noteq hne _ _
  | compile slot function => rfl
  | newNativeSlot slot => rfl
  | deleteSlot slot => rfl

theorem run_append (self : JSScriptContext) (ops rest : List Op) :
    run self (ops ++ rest) = run (run self ops) rest := by
  simp only [run, List.foldl_append]

/-- The entry of an address stays as it is while `NewJSFunctionSlotInternal`
makes no slot at the address. -/
theorem run_slot_map (ops : List Op) (a : Nat) :
    ∀ (self : JSScriptContext),
      (∀ prototype function_val, Op.newSlot a prototype function_val ∉ ops) →
      (run self ops).slot_js_map_ a = self.slot_js_map_ a := by
  induction ops with
  | nil => intro self _; rfl
  | cons op rest ih =>
    intro self h
    have hrun : run self (op :: rest) = run (step self op) rest := rfl
    rw [hrun, ih (step self op) (fun p f hm => h p f (List.mem_cons_of_mem _ hm))]
    exact step_slot_map self op a (fun p f he => h p f (by rw [he]; exact List.mem_cons_self _ _))

theorem heapOk_append (ops rest : List Op) :
    ∀ (live : List Nat), HeapOk live (ops ++ rest) = true →
      HeapOk (ops.foldl heapStep live) rest = true := by
  induction ops with
  | nil => intro live h; exact h
  | cons op ops ih =>
    intro live h
    simp only [List.cons_append, HeapOk, Bool.and_eq_true] at h
    exact ih (heapStep live op) h.2

/-- While a slot is alive no slot is made at its address. -/
theorem heapOk_alive (ops : List Op) (a : Nat) :
    ∀ (live : List Nat), a ∈ live → HeapOk live ops = true → Op.deleteSlot a ∉ ops →
      ∀ op ∈ ops, op.allocated ≠ some a := by
  induction ops with
  | nil => intro live _ _ _ op hop; cases hop
  | cons o rest ih =>
    intro live ha hok hdel op hop
    simp only [HeapOk, Bool.and_eq_true] at hok
    have hhead : o.allocated ≠ some a := by
      intro halloc
      have h1 := hok.1
      cases o with
      | wrap s => cases halloc
      | finalize w => cases halloc
      | deleteSlot s => cases halloc
      | newSlot s p f =>
        simp only [Op.allocated, Option.some.injEq] at halloc
        subst halloc
        simp [Op.allocated, ha] at h1
      | newNativeSlot s =>
        simp only [Op.allocated, Option.some.injEq] at halloc
        subst halloc
        simp [Op.allocated, ha] at h1
      | compile s function =>
        cases function with
        | none => cases halloc
        | some fo =>
          simp only [Op.allocated, Option.some.injEq] at halloc
          subst halloc
          simp [Op.allocated, ha] at h1
    rcases List.mem_cons.mp hop with hop | hop
    · rw [hop]; exact hhead
    · have hlive : a ∈ heapStep live o := by
        cases o with
        | deleteSlot s =>
          have hne : a ≠ s := by
            intro h
            exact hdel (by rw [h]; exact List.mem_cons_self _ _)
          simp [heapStep, ha, hne]
        | wrap s => simpa [heapStep, Op.allocated] using ha
        | finalize w => simpa [heapStep, Op.allocated] using ha
        | newSlot s p f => simp [heapStep, Op.allocated, ha]
        | newNativeSlot s => simp [heapStep, Op.allocated, ha]
        | compile s function =>
          cases function with
          | none => simpa [heapStep, Op.allocated] using ha
          | some fo => simp [heapStep, Op.allocated, ha]
      exact ih (heapStep live o) hlive hok.2
        (fun h => hdel (List.mem_cons_of_mem _ h)) op hop

theorem heapStep_newSlot_mem (live : List Nat) (a : Nat) (p : Option Slot) (f : JSVal) :
    a ∈ heapStep live (.newSlot a p f) := by
  simp [heapStep, Op.allocated]

/-- C28: `ConvertSlotToJSInternal` gives the function value back for the slot
that `NewJSFunctionSlotInternal` has just made, and goes on doing so while
the slot is alive; it gives null for an address at which
`NewJSFunctionSlotInternal` has made no slot.  The entry of a slot outlives
the slot: for a slot that `Compile` makes, or a native slot, at the address
of a deleted slot of `NewJSFunctionSlotInternal`, the lookup gives the
function value of the deleted slot and not null. -/
theorem convertSlotToJS_stale_entry :
    (∀ (self : JSScriptContext) (slot : Nat) (p : Option Slot) (f : JSVal),
      (NewJSFunctionSlotInternal self slot p f).1 = slot ∧
      ConvertSlotToJSInternal (NewJSFunctionSlotInternal self slot p f).2.2
        (NewJSFunctionSlotInternal self slot p f).1 = f ∧
      (NewJSFunctionSlotInternal self slot p f).2.1.function_val_ = f ∧
      (NewJSFunctionSlotInternal self slot p f).2.1.prototype_ = p) ∧
    (∀ (context : Nat) (ops rest : List Op) (a : Nat) (p : Option Slot) (f : JSVal),
      (∀ p' f', Op.newSlot a p' f' ∉ rest) →
      ConvertSlotToJSInternal
        (run (JSScriptContext.init context) (ops ++ .newSlot a p f :: rest)) a = f) ∧
    (∀ (context : Nat) (ops rest : List Op) (a : Nat) (p : Option Slot) (f : JSVal),
      HeapOk [] (ops ++ .newSlot a p f :: rest) = true → Op.deleteSlot a ∉ rest →
      ConvertSlotToJSInternal
        (run (JSScriptContext.init context) (ops ++ .newSlot a p f :: rest)) a = f) ∧
    (∀ (context : Nat) (ops : List Op) (a : Nat),
      (∀ p f, Op.newSlot a p f ∉ ops) →
      ConvertSlotToJSInternal (run (JSScriptContext.init context) ops) a = .null) ∧
    (HeapOk [] [.newSlot 0 none (.object 4), .deleteSlot 0, .compile 0 (some 9)] = true ∧
      Compile (run (JSScriptContext.init 0) [.newSlot 0 none (.object 4), .deleteSlot 0])
        0 (some 9) = some (0, ⟨none, 0, .object 9⟩) ∧
      ConvertSlotToJSInternal (run (JSScriptContext.init 0)
        [.newSlot 0 none (.object 4), .deleteSlot 0, .compile 0 (some 9)]) 0 = .object 4) ∧
    (HeapOk [] [.newSlot 0 none (.object 4), .deleteSlot 0, .newNativeSlot 0] = true ∧
      ConvertSlotToJSInternal (run (JSScriptContext.init 0)
        [.newSlot 0 none (.object 4), .deleteSlot 0, .newNativeSlot 0]) 0 = .object 4) := by
  have hkeep : ∀ (context : Nat) (ops rest : List Op) (a : Nat) (p : Option Slot) (f : JSVal),
      (∀ p' f', Op.newSlot a p' f' ∉ rest) →
      ConvertSlotToJSInternal
        (run (JSScriptContext.init context) (ops ++ .newSlot a p f :: rest)) a = f := by
    intro context ops rest a p f h
    have hrun : run (JSScriptContext.init context) (ops ++ .newSlot a p f :: rest) =
        run (NewJSFunctionSlotInternal (run (JSScriptContext.init context) ops) a p f).2.2
          rest := by
      rw [run_append]
      rfl
    have hmap := run_slot_map rest a
      (NewJSFunctionSlotInternal (run (JSScriptContext.init context) ops) a p f).2.2 h
    have hnew : (NewJSFunctionSlotInternal (run (JSScriptContext.init context) ops)
        a p f).2.2.slot_js_map_ a = some f := Function.update_same _ _ _
    rw [hrun]
    simp only [ConvertSlotToJSInternal, hmap, hnew]
  refine ⟨?_, hkeep, ?_, ?_, ?_, ?_⟩
  · intro self slot p f
    refine ⟨rfl, ?_, rfl, rfl⟩
    have h : (NewJSFunctionSlotInternal self slot p f).2.2.slot_js_map_
        (NewJSFunctionSlotInternal self slot p f).1 = some f := Function.update_same _ _ _
    simp only [ConvertSlotToJSInternal, h]
  · intro context ops rest a p f hok hdel
    apply hkeep
    intro p' f' hmem
    have h1 := heapOk_append ops (.newSlot a p f :: rest) [] hok
    simp only [HeapOk, Bool.and_eq_true] at h1
    exact heapOk_alive rest a _ (heapStep_newSlot_mem _ a p f) h1.2 hdel _ hmem rfl
  · intro context ops a h
    have := run_slot_map ops a (JSScriptContext.init context) h
    simp only [ConvertSlotToJSInternal, this]
    rfl
  · refine ⟨by decide, rfl, ?_⟩
    exact hkeep 0 [] [.deleteSlot 0, .compile 0 (some 9)] 0 none (.object 4)
      (fun p f h => by simp at h)
  · refine ⟨by decide, ?_⟩
    exact hkeep 0 [] [.deleteSlot 0, .newNativeSlot 0] 0 none (.object 4)
      (fun p f h => by simp at h)

/-! ## The two arity tests -/

theorem computeMinArgc_last_void (slot : Slot) (hwf : slot.WellFormed) (argc : Nat)
    (hd : slot.GetDefaultArgs = none ∨
      ∃ d v, slot.GetDefaultArgs = some d ∧ d.getLast? = some v ∧ v.type = .TYPE_VOID) :
    computeMinArgc slot.GetArgCount slot.GetDefaultArgs argc = slot.GetArgCount := by
  rcases hd with hd | ⟨d, v, hd, hlast, hv⟩
  · rw [hd]
    rfl
  · have hlen := hwf.1 d hd
    rw [hd]
    simp only [computeMinArgc]
    split
    · rename_i hc
      obtain ⟨i, hi⟩ : ∃ i, slot.GetArgCount = i + 1 := ⟨slot.GetArgCount - 1, by omega⟩
      have hget : d.getD i .void = v := by
        rw [List.getLast?_eq_getElem?, hlen, hi] at hlast
        simp only [Nat.add_sub_cancel] at hlast
        rw [List.getD_eq_getElem?_getD, hlast]
        rfl
      rw [hi]
      simp only [minArgcLoop, hget, hv]
      rfl
    · rfl

theorem isArityError_iff (E : Engine) (owner : Option Nat) (slot : Slot)
    (argc : Nat) (argv : List JSVal) :
    (ConvertJSArgsToNative E owner slot argc argv).isArityError = true ↔
      (slot.HasMetadata = true ∧ argc ≠ expectedArgcOf slot argc ∧
        (argc > expectedArgcOf slot argc ∨
          argc < computeMinArgc (expectedArgcOf slot argc) (defaultArgsOf slot) argc)) := by
  by_cases hc : slot.HasMetadata = true ∧ argc ≠ expectedArgcOf slot argc ∧
        (argc > expectedArgcOf slot argc ∨
          argc < computeMinArgc (expectedArgcOf slot argc) (defaultArgsOf slot) argc)
  · have heq : ConvertJSArgsToNative E owner slot argc argv =
        ⟨false, none, expectedArgcOf slot argc,
          [.reportError (.wrongNumberOfArguments argc (expectedArgcOf slot argc)
            (computeMinArgc (expectedArgcOf slot argc) (defaultArgsOf slot) argc))]⟩ :=
      if_pos hc
    rw [heq]
    exact ⟨fun _ => hc, fun _ => rfl⟩
  · have heq : ConvertJSArgsToNative E owner slot argc argv =
        (if 0 < expectedArgcOf slot argc then
          convertLoop E owner (argTypesOf slot) (defaultArgsOf slot) argv
            (expectedArgcOf slot argc) 0 argc
            (fillDefaults (defaultArgsOf slot) argc (expectedArgcOf slot argc - argc)
              (List.replicate (expectedArgcOf slot argc) .void))
            [.newParams (expectedArgcOf slot argc)]
        else ⟨true, none, expectedArgcOf slot argc, []⟩) := if_neg hc
    rw [heq]
    constructor
    · intro h
      exfalso
      split at h
      · rw [convertLoop_not_arityError] at h
        cases h
      · cases h
    · intro h
      exact absurd h hc

/-- C27: for a well-formed slot with metadata whose default values are
absent or end in a void one, the arity test of `ConvertJSArgsToNative` and
the test at the head of `JSScriptContext::CallNativeSlot` both let a call
through exactly when the number of arguments is the declared one; for a slot
without metadata both let every call through. -/
theorem arity_checks_agree (E : Engine) (owner : Option Nat) (slot : Slot)
    (argc : Nat) (argv : List JSVal) :
    (slot.HasMetadata = true → slot.WellFormed →
      (slot.GetDefaultArgs = none ∨
        ∃ d v, slot.GetDefaultArgs = some d ∧ d.getLast? = some v ∧ v.type = .TYPE_VOID) →
      ((ConvertJSArgsToNative E owner slot argc argv).isArityError = false ↔
        argc = slot.GetArgCount) ∧
      (CallNativeSlotArity slot argc = none ↔ argc = slot.GetArgCount)) ∧
    (slot.HasMetadata = false →
      (ConvertJSArgsToNative E owner slot argc argv).isArityError = false ∧
      CallNativeSlotArity slot argc = none) := by
  have hiff := isArityError_iff E owner slot argc argv
  refine ⟨?_, ?_⟩
  · intro hmeta hwf hd
    have hmin := computeMinArgc_last_void slot hwf argc hd
    simp only [expectedArgcOf, defaultArgsOf, hmeta, if_true, true_and, hmin] at hiff
    refine ⟨?_, ?_⟩
    · cases hx : (ConvertJSArgsToNative E owner slot argc argv).isArityError with
      | true =>
        have := (hiff.mp hx).1
        simp [this]
      | false =>
        simp only [true_iff]
        by_contra hne
        have := hiff.mpr ⟨hne, by omega⟩
        rw [hx] at this
        cases this
    · simp only [CallNativeSlotArity, hmeta, true_and]
      by_cases h : argc = slot.GetArgCount
      · simp [h]
      · simp [h]
  · intro hmeta
    refine ⟨?_, ?_⟩
    · cases hx : (ConvertJSArgsToNative E owner slot argc argv).isArityError with
      | false => rfl
      | true =>
        have := (hiff.mp hx).1
        rw [hmeta] at this
        cases this
    · simp [CallNativeSlotArity, hmeta]

/-- Witness of C27: the slot whose default values end in a void one lets a
call with two arguments through and no call with one argument; the slot
without metadata lets a call with three arguments through. -/
theorem arity_checks_agree_witness :
    (voidDefaultSlot.HasMetadata = true ∧ voidDefaultSlot.WellFormed ∧
      plainSlot.HasMetadata = false) ∧
    (ConvertJSArgsToNative sampleEngine none voidDefaultSlot 2
      [.int 1, .int 2]).isArityError = false ∧
    CallNativeSlotArity voidDefaultSlot 2 = none ∧
    (ConvertJSArgsToNative sampleEngine none voidDefaultSlot 1 [.int 1]).isArityError ≠ false ∧
    CallNativeSlotArity voidDefaultSlot 1 ≠ none ∧
    (ConvertJSArgsToNative sampleEngine none plainSlot 3
      [.int 1, .int 2, .int 3]).isArityError = false ∧
    CallNativeSlotArity plainSlot 3 = none :=
  have hwf : voidDefaultSlot.WellFormed :=
    ⟨fun d h => (by cases h; rfl), fun t h => (by cases h; rfl)⟩
  have hd : voidDefaultSlot.GetDefaultArgs = none ∨
      ∃ d v, voidDefaultSlot.GetDefaultArgs = some d ∧ d.getLast? = some v ∧
        v.type = .TYPE_VOID :=
    Or.inr ⟨_, .void, rfl, rfl, rfl⟩
  ⟨⟨rfl, hwf, rfl⟩,
    ((arity_checks_agree sampleEngine none voidDefaultSlot 2 [.int 1, .int 2]).1
      rfl hwf hd).1.mpr rfl,
    ((arity_checks_agree sampleEngine none voidDefaultSlot 2 [.int 1, .int 2]).1
      rfl hwf hd).2.mpr rfl,
    fun h => absurd (((arity_checks_agree sampleEngine none voidDefaultSlot 1 [.int 1]).1
      rfl hwf hd).1.mp h) (by decide),
    fun h => absurd (((arity_checks_agree sampleEngine none voidDefaultSlot 1 [.int 1]).1
      rfl hwf hd).2.mp h) (by decide),
    ((arity_checks_agree sampleEngine none plainSlot 3 [.int 1, .int 2, .int 3]).2 rfl).1,
    ((arity_checks_agree sampleEngine none plainSlot 3 [.int 1, .int 2, .int 3]).2 rfl).2⟩

end trunk

namespace smjs

/-! ## Native arrays -/

theorem arrayLoop_events (convert : Variant → JSVal → Nat → ToJSResult)
    (array js_array : Nat) (items : List Variant) :
    ∀ (i next : Nat) (events : List JSEvent),
      (arrayLoop convert array js_array items i next events).2 =
        events ++ itemsSteps array js_array i (itemOutcomes convert items next) := by
  induction items with
  | nil =>
    intro i next events
    simp [arrayLoop, itemOutcomes, itemsSteps]
  | cons item rest ih =>
    intro i next events
    simp only [arrayLoop, itemOutcomes, itemsSteps, itemSteps]
    rw [ih]
    simp only [List.append_assoc]

theorem itemOutcomes_length (convert : Variant → JSVal → Nat → ToJSResult)
    (items : List Variant) :
    ∀ next : Nat, (itemOutcomes convert items next).length = items.length := by
  induction items with
  | nil => intro next; rfl
  | cons item rest ih =>
    intro next
    simp only [itemOutcomes, List.length_cons, ih]

theorem itemOutcomes_getElem (convert : Variant → JSVal → Nat → ToJSResult)
    (items : List Variant) :
    ∀ (next i : Nat), i < items.length →
      ∃ n, (itemOutcomes convert items next)[i]? =
        some (convert (items.getD i .void) .void n) := by
  induction items with
  | nil => intro next i h; cases h
  | cons item rest ih =>
    intro next i h
    cases i with
    | zero => exact ⟨next, by simp [itemOutcomes]⟩
    | succ j =>
      obtain ⟨n, hn⟩ := ih (convert item .void next).next j (by simpa using h)
      exact ⟨n, by simpa [itemOutcomes] using hn⟩

theorem items_getD (a : ScriptableArray) (i : Nat) (h : i < a.GetCount) :
    a.items.getD i .void = a.GetItem i := by
  unfold ScriptableArray.items
  rw [List.getD_eq_getElem?_getD, List.getElem?_map, List.getElem?_range h]
  rfl

theorem items_length (a : ScriptableArray) : a.items.length = a.GetCount := by
  simp [ScriptableArray.items]

/-- Counterexample to C25: the array 21 holds an integer, a const object
reference and a string; the conversion of the second item fails, the
conversion of the array succeeds, and the script array gets the elements 0
and 2 only. -/
theorem convertNativeArrayToJS_skips_counterexample :
    (ConvertNativeToJS arrayContext 2 (.scriptable (some (.native 21))) .void 0).result =
      true ∧
    (ConvertNativeToJS arrayContext 1 (.constScriptable none) .void 1).result = false ∧
    (ConvertNativeToJS arrayContext 2 (.scriptable (some (.native 21))) .void 0).events =
      [.newArrayObject 0, .attach 21,
        .getItem 21 0, .setElement 0 0 (.int 1),
        .getItem 21 1,
        .reportError "Don't pass const ScriptableInterface * to JavaScript",
        .getItem 21 2, .setElement 0 2 (.string "a"),
        .detach 21] := by
  decide

/-- C25, amended: the conversion of a SCRIPTABLE value that refers to a
`ScriptableArray` succeeds and gives a new script array; the array is
attached once, then each item `GetItem(i)`, for `i` from 0 to `GetCount()`
less one, is read once and converted, and stored as element `i` when its
conversion succeeded and left out when it failed, and then the array is
detached once. -/
theorem convertNativeArrayToJS_spec (C : Context) (fuel : Nat) (array : Nat)
    (a : ScriptableArray) (js_val : JSVal) (next : Nat)
    (harr : C.arrayItems array = some a.items) :
    (ConvertNativeToJS C (fuel + 2) (.scriptable (some (.native array))) js_val next).result =
      true ∧
    (ConvertNativeToJS C (fuel + 2) (.scriptable (some (.native array))) js_val next).js_val =
      .object next ∧
    (itemOutcomes (ConvertNativeToJS C (fuel + 1)) a.items (next + 1)).length = a.GetCount ∧
    (∀ i, i < a.GetCount → ∃ n,
      (itemOutcomes (ConvertNativeToJS C (fuel + 1)) a.items (next + 1))[i]? =
        some (ConvertNativeToJS C (fuel + 1) (a.GetItem i) .void n)) ∧
    (ConvertNativeToJS C (fuel + 2) (.scriptable (some (.native array))) js_val next).events =
      [.newArrayObject next, .attach array] ++
        itemsSteps array next 0
          (itemOutcomes (ConvertNativeToJS C (fuel + 1)) a.items (next + 1)) ++
        [.detach array] := by
  have heq : ConvertNativeToJS C (fuel + 2) (.scriptable (some (.native array))) js_val next =
      ConvertNativeArrayToJS (ConvertNativeToJS C (fuel + 1)) array a.items js_val next := by
    simp only [ConvertNativeToJS, Variant.type, ConvertNativeToJSObject,
      Variant.scriptableValue, harr]
  rw [heq]
  refine ⟨rfl, rfl, ?_, ?_, ?_⟩
  · rw [itemOutcomes_length, items_length]
  · intro i hi
    obtain ⟨n, hn⟩ := itemOutcomes_getElem (ConvertNativeToJS C (fuel + 1)) a.items
      (next + 1) i (by rw [items_length]; exact hi)
    rw [items_getD a i hi] at hn
    exact ⟨n, hn⟩
  · simp only [ConvertNativeArrayToJS]
    rw [arrayLoop_events]

/-- Witness of C25, amended: the array 21 of the example context. -/
theorem convertNativeArrayToJS_spec_witness :
    arrayContext.arrayItems 21 =
      some (ScriptableArray.items
        ⟨[.int64 1, .constScriptable none, .string (some "a")], 3⟩) ∧
    (ConvertNativeToJS arrayContext 2 (.scriptable (some (.native 21))) .void 0).events =
      [.newArrayObject 0, .attach 21] ++
        itemsSteps 21 0 0
          (itemOutcomes (ConvertNativeToJS arrayContext 1)
            (ScriptableArray.items
              ⟨[.int64 1, .constScriptable none, .string (some "a")], 3⟩) 1) ++
        [.detach 21] :=
  ⟨by decide,
    (convertNativeArrayToJS_spec arrayContext 0 21
      ⟨[.int64 1, .constScriptable none, .string (some "a")], 3⟩ .void 0
      (by decide)).2.2.2.2⟩

end smjs

namespace qt

/-! ## The key table -/

theorem mem_sortTable (table : List KeyvalKeyCode) (e : KeyvalKeyCode) :
    e ∈ sortTable table ↔ e ∈ table :=
  (List.perm_insertionSort _ table).mem_iff

theorem sortTable_sorted (table : List KeyvalKeyCode) :
    (sortTable table).Sorted (fun v1 v2 => v1.qt_key ≤ v2.qt_key) := by
  haveI : IsTotal KeyvalKeyCode (fun v1 v2 => v1.qt_key ≤ v2.qt_key) :=
    ⟨fun a b => le_total a.qt_key b.qt_key⟩
  haveI : IsTrans KeyvalKeyCode (fun v1 v2 => v1.qt_key ≤ v2.qt_key) :=
    ⟨fun a b c h1 h2 => le_trans h1 h2⟩
  exact List.sorted_insertionSort _ table

theorem lower_bound_cons (a : KeyvalKeyCode) (l : List KeyvalKeyCode) (key : KeyvalKeyCode) :
    lower_bound (a :: l) key =
      if a.qt_key < key.qt_key then lower_bound l key + 1 else 0 := by
  unfold lower_bound
  by_cases h : a.qt_key < key.qt_key
  · simp [List.takeWhile_cons, KeyvalCompare, h]
  · simp [List.takeWhile_cons, KeyvalCompare, h]

theorem lower_bound_spec (key : KeyvalKeyCode) (l : List KeyvalKeyCode)
    (hs : l.Sorted (fun v1 v2 => v1.qt_key ≤ v2.qt_key)) :
    (l.get? (lower_bound l key) = none ∧ ∀ x ∈ l, x.qt_key < key.qt_key) ∨
    (∃ e, l.get? (lower_bound l key) = some e ∧ e ∈ l ∧ key.qt_key ≤ e.qt_key ∧
      ∀ x ∈ l, x.qt_key = key.qt_key → e.qt_key = key.qt_key) := by
  induction l with
  | nil =>
    left
    exact ⟨rfl, fun x hx => by cases hx⟩
  | cons a l ih =>
    rw [lower_bound_cons]
    have hs2 := List.sorted_cons.mp hs
    by_cases h : a.qt_key < key.qt_key
    · rw [if_pos h]
      rcases ih hs2.2 with ⟨h1, h2⟩ | ⟨e, h1, h2, h3, h4⟩
      · left
        refine ⟨h1, ?_⟩
        intro x hx
        rcases List.mem_cons.mp hx with hx | hx
        · rw [hx]; exact h
        · exact h2 x hx
      · right
        refine ⟨e, h1, List.mem_cons_of_mem _ h2, h3, ?_⟩
        intro x hx hk
        rcases List.mem_cons.mp hx with hx | hx
        · rw [hx] at hk
          omega
        · exact h4 x hx hk
    · rw [if_neg h]
      right
      refine ⟨a, rfl, List.mem_cons_self _ _, by omega, ?_⟩
      intro x hx hk
      rcases List.mem_cons.mp hx with hx | hx
      · rw [← hx]; exact hk
      · have := hs2.1 x hx
        omega

/-- C30: `GetKeyCode` reads outside the table exactly when the key is
greater than every key of the table, as `Qt::Key_unknown` is; when the
position found lies inside the table, the function returns the key code of
an entry with this key if the key occurs in the table, and 0 if it does
not. -/
theorem getKeyCode_reads_past_end :
    (∀ (table : List KeyvalKeyCode) (qt_key : Int),
      GetKeyCode table qt_key = none ↔ ∀ e ∈ table, e.qt_key < qt_key) ∧
    (∀ (table : List KeyvalKeyCode) (qt_key : Int) (code : Nat),
      GetKeyCode table qt_key = some code →
      (∃ e ∈ table, e.qt_key = qt_key ∧ e.key_code = code) ∨
      ((∀ e ∈ table, e.qt_key ≠ qt_key) ∧ code = 0)) ∧
    GetKeyCode sampleKeyMap 0x01ffffff = none ∧
    GetKeyCode sampleKeyMap 0x41 = some 65 ∧
    GetKeyCode sampleKeyMap 0x42 = some 0 := by
  have hspec := fun (table : List KeyvalKeyCode) (qt_key : Int) =>
    lower_bound_spec ⟨qt_key, 0⟩ (sortTable table) (sortTable_sorted table)
  have hall : ∀ (table : List KeyvalKeyCode) (qt_key : Int),
      GetKeyCode table qt_key = none ↔ ∀ e ∈ table, e.qt_key < qt_key := by
    intro table qt_key
    simp only [GetKeyCode]
    rcases hspec table qt_key with ⟨h1, h2⟩ | ⟨e, h1, h2, h3, _⟩
    · rw [h1]
      simp only [true_iff]
      intro e he
      exact h2 e ((mem_sortTable table e).mpr he)
    · rw [h1]
      constructor
      · intro h
        cases h
      · intro h
        have := h e ((mem_sortTable table e).mp h2)
        simp only at h3
        omega
  refine ⟨hall, ?_, ?_, ?_, ?_⟩
  · intro table qt_key code h
    simp only [GetKeyCode] at h
    rcases hspec table qt_key with ⟨h1, _⟩ | ⟨e, h1, h2, h3, h4⟩
    · rw [h1] at h
      cases h
    · rw [h1] at h
      simp only [Option.some.injEq] at h
      by_cases hk : e.qt_key = qt_key
      · left
        rw [if_pos hk] at h
        exact ⟨e, (mem_sortTable table e).mp h2, hk, h⟩
      · right
        rw [if_neg hk] at h
        refine ⟨?_, h.symm⟩
        intro x hx hxk
        exact hk (h4 x ((mem_sortTable table x).mpr hx) hxk)
  · exact (hall sampleKeyMap 0x01ffffff).mpr (by decide)
  · decide
  · decide

end qt

namespace smjs

end smjs
end ggadget
